import Mathlib

/-! lever-data-api-go: the ambiguous-reference resolvers

A shallow embedding of `internal/multimodel` (the resolvers `unmarshalStageOrID`,
`unmarshalUserOrID`, `unmarshalArrayOfUsersOrIDs`, `unmarshalArrayOfFeedbackFormsOrIDs`
and the projector `Opportunity.ToModel`) together with the part of Go's
`encoding/json` decoder those functions call.

Conventions of the embedding:

* a `json.RawMessage` is a `List Char`: the payload bytes are taken to be
  well-formed UTF-8 and are represented by their code points;
* a Go `string` is a Lean `String`;
* a Go pointer `*T` is an `Option T` (`none` is `nil`);
* a Go slice `[]T` is an `Option (List T)` (`none` is the `nil` slice,
  `some []` an empty non-nil slice);
* a Go `error` result is an `Option JsonError` (`none` is `nil`);
* a function that writes through a pointer parameter takes the old value and
  returns the new one;
* a Go field named `Type` or `List` is written `Type_` or `List_`.
-/

namespace GoJSON

/-! ## JSON text: scanner -/

/-- The code point of the double quote. -/
def quoteChar : Char := Char.ofNat 34

/-- The code point of the backslash. -/
def backslashChar : Char := Char.ofNat 92

/-- Lexical tokens of a JSON text. A string token carries the raw text between
its quotes, escapes not yet decoded. -/
inductive Token where
  | lbracket
  | rbracket
  | lbrace
  | rbrace
  | comma
  | colon
  | litNull
  | litTrue
  | litFalse
  | number (lit : List Char)
  | string (body : List Char)
  deriving DecidableEq, Repr

/-- States of the scanner (`scanner.go`): `idle` is between tokens, the string
states are `stateInString`, `stateInStringEsc`, `stateInStringEscU...`, the
number states are `stateNeg`, `state0`, `state1`, `stateDot`, `stateDot0`,
`stateE`, `stateESign`, `stateE0`, and `inLit` is inside `true`, `false` or
`null`. Accumulators hold the characters read so far, most recent first. -/
inductive LexState where
  | idle
  | inString (acc : List Char)
  | inStringEsc (acc : List Char)
  | inStringEscU (acc : List Char) (remaining : Nat)
  | inLit (expect : List Char) (tok : Token)
  | numNeg (acc : List Char)
  | num0 (acc : List Char)
  | num1 (acc : List Char)
  | numDot (acc : List Char)
  | numDot0 (acc : List Char)
  | numE (acc : List Char)
  | numESign (acc : List Char)
  | numE0 (acc : List Char)
  deriving DecidableEq, Repr

/-- JSON whitespace (`isSpace`). -/
def isSpace (c : Char) : Bool :=
  c = ' ' || c = '\t' || c = '\r' || c = '\n'

def isDigit (c : Char) : Bool := '0' ≤ c && c ≤ '9'

def isDigit19 (c : Char) : Bool := '1' ≤ c && c ≤ '9'

def isHex (c : Char) : Bool :=
  ('0' ≤ c && c ≤ '9') || ('a' ≤ c && c ≤ 'f') || ('A' ≤ c && c ≤ 'F')

/-- The characters that may follow a backslash other than `u`. -/
def isSimpleEscape (c : Char) : Bool :=
  c = 'b' || c = 'f' || c = 'n' || c = 'r' || c = 't' || c = backslashChar || c = '/'
    || c = quoteChar

/-- One scanner step at the start of a token (`stateBeginValue` and the
punctuation cases of `stateEndValue`); `out` is the token list so far, most
recent first. -/
def idleStep (out : List Token) (c : Char) : Option (LexState × List Token) :=
  if isSpace c then some (.idle, out)
  else if c = '[' then some (.idle, .lbracket :: out)
  else if c = ']' then some (.idle, .rbracket :: out)
  else if c = '{' then some (.idle, .lbrace :: out)
  else if c = '}' then some (.idle, .rbrace :: out)
  else if c = ',' then some (.idle, .comma :: out)
  else if c = ':' then some (.idle, .colon :: out)
  else if c = quoteChar then some (.inString [], out)
  else if c = '-' then some (.numNeg [c], out)
  else if c = '0' then some (.num0 [c], out)
  else if isDigit19 c then some (.num1 [c], out)
  else if c = 't' then some (.inLit ['r', 'u', 'e'] .litTrue, out)
  else if c = 'f' then some (.inLit ['a', 'l', 's', 'e'] .litFalse, out)
  else if c = 'n' then some (.inLit ['u', 'l', 'l'] .litNull, out)
  else none

/-- A number ends at `c`: its token is emitted and `c` starts the next token. -/
def endNumber (acc : List Char) (out : List Token) (c : Char) :
    Option (LexState × List Token) :=
  idleStep (.number acc.reverse :: out) c

/-- One step of the scanner. `none` is a syntax error. -/
def lexStep (st : LexState) (out : List Token) (c : Char) :
    Option (LexState × List Token) :=
  match st with
  | .idle => idleStep out c
  | .inString acc =>
    if c = quoteChar then some (.idle, .string acc.reverse :: out)
    else if c = backslashChar then some (.inStringEsc (c :: acc), out)
    else if c.toNat < 32 then none
    else some (.inString (c :: acc), out)
  | .inStringEsc acc =>
    if isSimpleEscape c then some (.inString (c :: acc), out)
    else if c = 'u' then some (.inStringEscU (c :: acc) 4, out)
    else none
  | .inStringEscU acc k =>
    if isHex c then
      (if k ≤ 1 then some (.inString (c :: acc), out)
       else some (.inStringEscU (c :: acc) (k - 1), out))
    else none
  | .inLit expect tok =>
    match expect with
    | [] => none
    | [e] => if c = e then some (.idle, tok :: out) else none
    | e :: more => if c = e then some (.inLit more tok, out) else none
  | .numNeg acc =>
    if c = '0' then some (.num0 (c :: acc), out)
    else if isDigit19 c then some (.num1 (c :: acc), out)
    else none
  | .num1 acc =>
    if isDigit c then some (.num1 (c :: acc), out)
    else if c = '.' then some (.numDot (c :: acc), out)
    else if c = 'e' || c = 'E' then some (.numE (c :: acc), out)
    else endNumber acc out c
  | .num0 acc =>
    if c = '.' then some (.numDot (c :: acc), out)
    else if c = 'e' || c = 'E' then some (.numE (c :: acc), out)
    else endNumber acc out c
  | .numDot acc =>
    if isDigit c then some (.numDot0 (c :: acc), out) else none
  | .numDot0 acc =>
    if isDigit c then some (.numDot0 (c :: acc), out)
    else if c = 'e' || c = 'E' then some (.numE (c :: acc), out)
    else endNumber acc out c
  | .numE acc =>
    if c = '+' || c = '-' then some (.numESign (c :: acc), out)
    else if isDigit c then some (.numE0 (c :: acc), out)
    else none
  | .numESign acc =>
    if isDigit c then some (.numE0 (c :: acc), out) else none
  | .numE0 acc =>
    if isDigit c then some (.numE0 (c :: acc), out)
    else endNumber acc out c

/-- End of input (`scanner.eof`): only between tokens or at the end of a
complete number. -/
def lexFinish (st : LexState) (out : List Token) : Option (List Token) :=
  match st with
  | .idle => some out.reverse
  | .num0 acc => some (Token.number acc.reverse :: out).reverse
  | .num1 acc => some (Token.number acc.reverse :: out).reverse
  | .numDot0 acc => some (Token.number acc.reverse :: out).reverse
  | .numE0 acc => some (Token.number acc.reverse :: out).reverse
  | _ => none

/-- Run the scanner over the input. -/
def lexFrom : LexState → List Token → List Char → Option (List Token)
  | st, out, [] => lexFinish st out
  | st, out, c :: cs =>
    match lexStep st out c with
    | none => none
    | some (st1, out1) => lexFrom st1 out1 cs

/-- The tokens of a JSON text, or `none` on a lexical error. -/
def lex (raw : List Char) : Option (List Token) := lexFrom .idle [] raw

/-! ## JSON text: string unquoting -/

/-- Value of a hexadecimal digit. -/
def hexVal (c : Char) : Nat :=
  if '0' ≤ c && c ≤ '9' then c.toNat - 48
  else if 'a' ≤ c && c ≤ 'f' then c.toNat - 87
  else if 'A' ≤ c && c ≤ 'F' then c.toNat - 55
  else 0

/-- The number written by four hexadecimal digits (`getu4` on valid input). -/
def hex4 (a b c d : Char) : Nat :=
  hexVal a * 4096 + hexVal b * 256 + hexVal c * 16 + hexVal d

/-- The character denoted by a simple escape. -/
def escChar (c : Char) : Char :=
  if c = 'b' then Char.ofNat 8
  else if c = 'f' then Char.ofNat 12
  else if c = 'n' then Char.ofNat 10
  else if c = 'r' then Char.ofNat 13
  else if c = 't' then Char.ofNat 9
  else c

/-- The Unicode replacement character U+FFFD. -/
def replacementChar : Char := Char.ofNat 65533

/-- `utf16.IsSurrogate`. -/
def isSurrogate (r : Nat) : Bool := 55296 ≤ r && r < 57344

/-- The code unit written by a `\uXXXX` escape at the head of the input, if
there is one (`getu4`). -/
def getu4 : List Char → Option Nat
  | b :: u :: h1 :: h2 :: h3 :: h4 :: _ =>
    if b = backslashChar ∧ u = 'u' ∧ isHex h1 ∧ isHex h2 ∧ isHex h3 ∧ isHex h4 then
      some (hex4 h1 h2 h3 h4)
    else none
  | _ => none

/-- Decode the escapes of a scanned string body (`unquoteBytes`); the first
argument is the number of characters still to skip because an escape already
consumed them. A `\u` escape naming a high surrogate that is directly followed
by a `\u` escape naming a low surrogate yields the combined code point and
consumes both; any other surrogate escape yields U+FFFD and consumes only
itself. -/
def unquoteFrom : Nat → List Char → List Char
  | _, [] => []
  | skip + 1, _ :: rest => unquoteFrom skip rest
  | 0, c :: rest =>
    if c ≠ backslashChar then c :: unquoteFrom 0 rest
    else
      match rest with
      | [] => []
      | e :: _ =>
        if e ≠ 'u' then escChar e :: unquoteFrom 1 rest
        else
          match getu4 (c :: rest) with
          | none => []
          | some rr =>
            if isSurrogate rr then
              match getu4 (rest.drop 5) with
              | some rr1 =>
                if rr < 56320 ∧ 56320 ≤ rr1 ∧ rr1 < 57344 then
                  Char.ofNat ((rr - 55296) * 1024 + (rr1 - 56320) + 65536)
                    :: unquoteFrom 11 rest
                else replacementChar :: unquoteFrom 5 rest
              | none => replacementChar :: unquoteFrom 5 rest
            else Char.ofNat rr :: unquoteFrom 5 rest

/-- The string denoted by a scanned string body. -/
def unquote (body : List Char) : List Char := unquoteFrom 0 body

/-! ## JSON text: values -/

/-- A parsed JSON value. A number keeps its literal; an object keeps its
members in source order, repeated keys included. -/
inductive JSON where
  | null
  | bool (b : Bool)
  | num (lit : String)
  | str (s : String)
  | arr (elems : List JSON)
  | obj (members : List (String × JSON))
  deriving Repr

/-- The nesting limit of the scanner (`maxNestingDepth`). -/
def maxNestingDepth : Nat := 10000

mutual
/-- Parse one value from the token list; `depth` is the number of enclosing
arrays and objects. Returns the value and the remaining tokens. -/
def parseValue : Nat → Nat → List Token → Option (JSON × List Token)
  | 0, _, _ => none
  | fuel + 1, depth, toks =>
    match toks with
    | .litNull :: rest => some (.null, rest)
    | .litTrue :: rest => some (.bool true, rest)
    | .litFalse :: rest => some (.bool false, rest)
    | .number lit :: rest => some (.num (String.mk lit), rest)
    | .string body :: rest => some (.str (String.mk (unquote body)), rest)
    | .lbracket :: rest =>
      if depth < maxNestingDepth then
        match rest with
        | .rbracket :: rest1 => some (.arr [], rest1)
        | _ =>
          match parseElems fuel (depth + 1) rest with
          | some (xs, rest1) => some (.arr xs, rest1)
          | none => none
      else none
    | .lbrace :: rest =>
      if depth < maxNestingDepth then
        match rest with
        | .rbrace :: rest1 => some (.obj [], rest1)
        | _ =>
          match parseMembers fuel (depth + 1) rest with
          | some (kvs, rest1) => some (.obj kvs, rest1)
          | none => none
      else none
    | _ => none
/-- Parse `value (, value)* ]`. -/
def parseElems : Nat → Nat → List Token → Option (List JSON × List Token)
  | 0, _, _ => none
  | fuel + 1, depth, toks =>
    match parseValue fuel depth toks with
    | some (v, .comma :: rest) =>
      match parseElems fuel depth rest with
      | some (vs, rest1) => some (v :: vs, rest1)
      | none => none
    | some (v, .rbracket :: rest) => some ([v], rest)
    | _ => none
/-- Parse `string : value (, string : value)* }`. -/
def parseMembers : Nat → Nat → List Token → Option (List (String × JSON) × List Token)
  | 0, _, _ => none
  | fuel + 1, depth, toks =>
    match toks with
    | .string key :: .colon :: rest =>
      match parseValue fuel depth rest with
      | some (v, .comma :: rest1) =>
        match parseMembers fuel depth rest1 with
        | some (kvs, rest2) => some ((String.mk (unquote key), v) :: kvs, rest2)
        | none => none
      | some (v, .rbrace :: rest1) => some ([(String.mk (unquote key), v)], rest1)
      | _ => none
    | _ => none
end

/-- The value of a JSON text (`checkValid` followed by the decoder's reading of
the text): exactly one value, surrounded by optional whitespace. `none` is a
`*json.SyntaxError`. The fuel is the number of tokens plus one; every
recursive call of the parser consumes a token, so that this is enough
(`parse_of_parseValue`). -/
def parse (raw : List Char) : Option JSON :=
  match lex raw with
  | none => none
  | some toks =>
    match parseValue (toks.length + 1) 0 toks with
    | some (v, []) => some v
    | _ => none

/-! ## JSON text: a reference encoder for strings, and parser fuel -/

/-- The lower-case hexadecimal digit of a number below 16. -/
def hexDigit (n : Nat) : Char :=
  if n < 10 then Char.ofNat (48 + n) else Char.ofNat (87 + n)

/-- A JSON encoding of one character inside a string: the quote and the
backslash are escaped with a backslash, a control character is written as a
`\u00XX` escape, and any other character stands for itself. -/
def escapeChar (c : Char) : List Char :=
  if c = quoteChar then [backslashChar, quoteChar]
  else if c = backslashChar then [backslashChar, backslashChar]
  else if c.toNat < 32 then
    [backslashChar, 'u', '0', '0', hexDigit (c.toNat / 16), hexDigit (c.toNat % 16)]
  else [c]

/-- The escaped body of a JSON string. -/
def escape : List Char → List Char
  | [] => []
  | c :: cs => escapeChar c ++ escape cs

/-- A JSON text for the string `s`: its escaped body between quotes. -/
def encodeString (s : String) : List Char :=
  quoteChar :: (escape s.data ++ [quoteChar])

/-- What the three parsers promise about fuel: a success consumes at least
one token, and any fuel that is at least the number of tokens consumed gives
the same result. -/
def FuelOK {α : Type} (p : Nat → Nat → List Token → Option (α × List Token)) (n : Nat) : Prop :=
  ∀ d toks v rest, p n d toks = some (v, rest) →
    rest.length < toks.length ∧
      ∀ m, toks.length - rest.length ≤ m → p m d toks = some (v, rest)

/-- The encodings of the strings of a list, separated by commas. -/
def encodeStrings : List String → List Char
  | [] => []
  | [s] => encodeString s
  | s :: t :: rest => encodeString s ++ ',' :: encodeStrings (t :: rest)

/-- A JSON text for the array of the strings of `l`. -/
def encodeStringArray (l : List String) : List Char :=
  '[' :: (encodeStrings l ++ [']'])

/-- The tokens of `encodeStrings l`. -/
def stringTokens : List String → List Token
  | [] => []
  | [s] => [.string (escape s.data)]
  | s :: t :: rest => .string (escape s.data) :: .comma :: stringTokens (t :: rest)

/-! ## Decoding errors -/

/-- The errors `json.Unmarshal` returns here: a `*json.SyntaxError`, or a
`*json.UnmarshalTypeError` with its `Value`, `Type`, `Struct` and `Field`
(the byte offset is not modelled). -/
inductive JsonError where
  | syntaxError
  | unmarshalType (value : String) (goType : String) (structName : String) (field : String)
  deriving DecidableEq, Repr

/-- The decoder's `errorContext`: the struct being decoded and the path of
JSON field names that leads to the current value. -/
structure ErrCtx where
  structName : String
  fieldStack : List String
  deriving DecidableEq, Repr

/-- The context at the top of a document. -/
def ErrCtx.top : ErrCtx := ⟨"", []⟩

/-- The context inside the field `name` of a struct of type `structName`. -/
def ErrCtx.enter (ctx : ErrCtx) (structName name : String) : ErrCtx :=
  ⟨structName, ctx.fieldStack ++ [name]⟩

/-- An `UnmarshalTypeError` with the context added (`addErrorContext`). -/
def typeError (ctx : ErrCtx) (value goType : String) : JsonError :=
  .unmarshalType value goType ctx.structName (".".intercalate ctx.fieldStack)

/-- The decoder keeps the first error it saves (`saveError`). -/
def firstError (a b : Option JsonError) : Option JsonError :=
  match a with
  | some e => some e
  | none => b

/-- The `Value` an `UnmarshalTypeError` reports for a JSON value that does not
fit a target whose kind takes no value of that sort. -/
def kindName : JSON → String
  | .null => "null"
  | .bool _ => "bool"
  | .num _ => "number"
  | .str _ => "string"
  | .arr _ => "array"
  | .obj _ => "object"

/-- A decoder for a Go type: given the error context, the current value of
the target and a JSON value, the new value of the target and the first error
saved while decoding. The target is written even when an error is
returned. -/
abbrev Decoder (α : Type) := ErrCtx → α → JSON → α × Option JsonError

/-! ## Decoding: scalars, pointers, slices -/

/-- Decode into a Go `string`: `null` leaves it alone, a JSON string sets it,
anything else is a type error. -/
def decodeString : Decoder String := fun ctx cur j =>
  match j with
  | .null => (cur, none)
  | .str s => (s, none)
  | _ => (cur, some (typeError ctx (kindName j) "string"))

/-- The number written by a list of decimal digits. -/
def digitsToNat (ds : List Char) : Nat :=
  ds.foldl (fun n c => 10 * n + (c.toNat - 48)) 0

/-- `strconv.ParseInt(lit, 10, 64)` on a JSON number literal: an optional
minus sign followed by digits only, within the range of `int64`. -/
def parseInt64 (lit : String) : Option Int :=
  let cs := lit.data
  let neg := cs.head? = some '-'
  let ds := if neg then cs.tail else cs
  if ds ≠ [] ∧ ds.all isDigit then
    let n := digitsToNat ds
    if neg then (if n ≤ 2 ^ 63 then some (-(n : Int)) else none)
    else (if n < 2 ^ 63 then some (n : Int) else none)
  else none

/-- Decode into a Go `int64`. -/
def decodeInt64 : Decoder Int := fun ctx cur j =>
  match j with
  | .null => (cur, none)
  | .num lit =>
    match parseInt64 lit with
    | some n => (n, none)
    | none => (cur, some (typeError ctx ("number " ++ lit) "int64"))
  | _ => (cur, some (typeError ctx (kindName j) "int64"))

/-- Decode into a pointer `*T`: `null` sets it to `nil`; otherwise a `nil`
pointer is first pointed at a new zero value (`indirect`) and the value is
decoded into what the pointer points at. -/
def decodePtr {α : Type} (zero : α) (dec : Decoder α) : Decoder (Option α) :=
  fun ctx cur j =>
    match j with
    | .null => (none, none)
    | _ =>
      let r := dec ctx (cur.getD zero) j
      (some r.1, r.2)

/-- Decode the elements of a JSON array into the elements of a slice:
element `i` is decoded into the current element `i` when the slice already has
one, and into a zero value otherwise. All elements are decoded even after an
error. The elements are decoded under the error context of the array: the
index that recent releases of `encoding/json` put into the `Field` of an
error inside an element is not modelled. -/
def decodeElems {α : Type} (zero : α) (dec : Decoder α) (ctx : ErrCtx) :
    List α → List JSON → List α × Option JsonError
  | _, [] => ([], none)
  | cur, j :: js =>
    let r := dec ctx (cur.headD zero) j
    let rs := decodeElems zero dec ctx cur.tail js
    (r.1 :: rs.1, firstError r.2 rs.2)

/-- Decode into a slice `[]T` (`goType` is the name of the slice type):
`null` sets it to `nil`, a JSON array sets it to the decoded elements (an
empty array gives an empty, non-nil slice), anything else is a type error.
Elements past the current length start from the zero value, as they do for
every slice that was not shortened by an earlier array under the same key. -/
def decodeSlice {α : Type} (goType : String) (zero : α) (dec : Decoder α) :
    Decoder (Option (List α)) := fun ctx cur j =>
  match j with
  | .null => (none, none)
  | .arr elems =>
    let r := decodeElems zero dec ctx (cur.getD []) elems
    (some r.1, r.2)
  | _ => (cur, some (typeError ctx (kindName j) goType))

/-! ## Decoding: the empty interface -/

/-- A value held by a Go `any` after decoding: `nil`, `bool`, `float64`
(kept as the literal it was read from), `string`, `[]any` or
`map[string]any` (kept as an association list without repeated keys). -/
inductive GoAny where
  | nil
  | bool (b : Bool)
  | float64 (lit : String)
  | string (s : String)
  | slice (xs : List GoAny)
  | map (kvs : List (String × GoAny))
  deriving Repr

/-- The parts of a JSON number literal: whether it is negative, the digits
before and after the point, and the exponent. -/
def numberParts (lit : String) : Bool × List Char × List Char × Int :=
  let cs := lit.data
  let neg := cs.head? = some '-'
  let cs1 := if neg then cs.tail else cs
  let intDigits := cs1.takeWhile isDigit
  let cs2 := cs1.dropWhile isDigit
  let hasFrac := cs2.head? = some '.'
  let fracDigits := if hasFrac then cs2.tail.takeWhile isDigit else []
  let cs3 := if hasFrac then cs2.tail.dropWhile isDigit else cs2
  let cs4 := cs3.tail
  let expNeg := cs4.head? = some '-'
  let expDigits := if cs4.head? = some '-' ∨ cs4.head? = some '+' then cs4.tail else cs4
  let e : Int := digitsToNat expDigits
  (neg, intDigits, fracDigits, if expNeg then -e else e)

/-- Whether `strconv.ParseFloat(lit, 64)` reports a range error: the number
is, in absolute value, at least `2^1024 - 2^970`, the midpoint between the
largest `float64` and `2^1024`. -/
def float64Overflows (lit : String) : Bool :=
  let p := numberParts lit
  let n := digitsToNat (p.2.1 ++ p.2.2.1)
  let e : Int := p.2.2.2 - (p.2.2.1.length : Int)
  let bound : Nat := 2 ^ 1024 - 2 ^ 970
  if n = 0 then false
  else if 0 ≤ e then decide (bound ≤ n * 10 ^ e.toNat)
  else decide (bound * 10 ^ (-e).toNat ≤ n)

mutual
/-- The value `valueInterface` builds for a JSON value nested in an `any`,
and the first error saved on the way (a number outside the range of
`float64` is an error and leaves `nil`). -/
def valueInterface (ctx : ErrCtx) : JSON → GoAny × Option JsonError
  | .null => (.nil, none)
  | .bool b => (.bool b, none)
  | .str s => (.string s, none)
  | .num lit =>
    if float64Overflows lit then (.nil, some (typeError ctx ("number " ++ lit) "float64"))
    else (.float64 lit, none)
  | .arr elems =>
    let r := arrayInterface ctx elems
    (.slice r.1, r.2)
  | .obj members =>
    let r := objectInterface ctx members
    (.map r.1, r.2)
/-- The elements of `arrayInterface`. -/
def arrayInterface (ctx : ErrCtx) : List JSON → List GoAny × Option JsonError
  | [] => ([], none)
  | j :: js =>
    let r := valueInterface ctx j
    let rs := arrayInterface ctx js
    (r.1 :: rs.1, firstError r.2 rs.2)
/-- The entries of the map `objectInterface` builds: every member is
decoded, and of members with the same key the last one stays. -/
def objectInterface (ctx : ErrCtx) : List (String × JSON) → List (String × GoAny) × Option JsonError
  | [] => ([], none)
  | (k, j) :: kvs =>
    let r := valueInterface ctx j
    let rs := objectInterface ctx kvs
    (if rs.1.any (fun kv => kv.1 = k) then rs.1 else (k, r.1) :: rs.1, firstError r.2 rs.2)
end

/-- Decode into a Go `any`. -/
def decodeAny : Decoder GoAny := fun ctx cur j =>
  match j with
  | .num lit =>
    if float64Overflows lit then (cur, some (typeError ctx ("number " ++ lit) "float64"))
    else (.float64 lit, none)
  | _ => valueInterface ctx j

/-! ## Decoding: structs -/

/-- Case folding of one character of an object key, as far as it can matter
for a field name written in ASCII: ASCII letters fold to upper case, and the
Kelvin sign and the long s fold with `K` and `S`. -/
def foldChar (c : Char) : Char :=
  if 'a' ≤ c ∧ c ≤ 'z' then Char.ofNat (c.toNat - 32)
  else if c = Char.ofNat 8490 then 'K'
  else if c = Char.ofNat 383 then 'S'
  else c

/-- Folded form of a name (`foldName`). -/
def foldName (s : String) : List Char := s.data.map foldChar

/-- Whether an object key selects the field with JSON name `name`: an exact
match, or else a match under case folding. The field names of each struct
below stay distinct under folding, so at most one field matches a key. -/
def fieldMatch (name key : String) : Bool := foldName key = foldName name

/-- Decode the members of a JSON object into a struct, one after the other
in source order; `field` decodes one member into the field its key selects
and ignores a key that selects none. -/
def decodeMembers {α : Type} (field : α → String → JSON → α × Option JsonError) :
    α → List (String × JSON) → α × Option JsonError
  | cur, [] => (cur, none)
  | cur, (k, v) :: kvs =>
    let r := field cur k v
    let rs := decodeMembers field r.1 kvs
    (rs.1, firstError r.2 rs.2)

/-- Decode into a struct (`goType` is the name of the struct type): `null`
leaves it alone, a JSON object is decoded member by member, anything else is
a type error. -/
def decodeStruct {α : Type} (goType : String)
    (field : ErrCtx → α → String → JSON → α × Option JsonError) : Decoder α :=
  fun ctx cur j =>
    match j with
    | .null => (cur, none)
    | .obj members => decodeMembers (field ctx) cur members
    | _ => (cur, some (typeError ctx (kindName j) goType))

/-- `json.Unmarshal(raw, &v)`: a syntax error when `raw` is not one JSON value
(the target is then untouched), and otherwise the decoding of that value
into `v`. -/
def unmarshal {α : Type} (dec : Decoder α) (raw : List Char) (v : α) : α × Option JsonError :=
  match parse raw with
  | none => (v, some .syntaxError)
  | some j => dec ErrCtx.top v j

end GoJSON

/-! ## The model package -/

namespace model

/-- Struct `model.Stage` (`model/stage.go`). -/
structure Stage where
  ID : String
  Text : String
  deriving DecidableEq, Repr

/-- Struct `model.StageChange` (`model/stage.go`). -/
structure StageChange where
  ToStageID : String
  ToStageIndex : Int
  UpdatedAt : Option Int
  UserID : String
  deriving DecidableEq, Repr

/-- Struct `model.User` (`model/user.go`). -/
structure User where
  ID : String
  Name : String
  Username : String
  Email : String
  CreatedAt : Option Int
  DeactivatedAt : Option Int
  AccessRole : String
  Photo : String
  ExternalDirectoryID : String
  LinkedContactIds : Option (List String)
  JobTitle : String
  ManagerID : String
  deriving DecidableEq, Repr

/-- Struct `model.FeedbackForm` (`model/feedback_form.go`); it has no JSON
tags, so its JSON field names are its Go field names. -/
structure FeedbackForm where
  ID : String
  Type_ : String
  Text : String
  Instructions : String
  BaseTemplateID : String
  Forms : Option (List GoJSON.GoAny)
  UserID : String
  User : Option User
  PanelID : String
  InterviewID : String
  CreatedAt : Option Int
  UpdatedAt : Option Int
  CompletedAt : Option Int
  DeletedAt : Option Int
  deriving Repr

/-- Struct `model.Phone` (`model/phone.go`). -/
structure Phone where
  Type_ : String
  Value : String
  deriving DecidableEq, Repr

/-- Struct `model.Archived` (`model/archived.go`). -/
structure Archived where
  ArchivedAt : Option Int
  ReasonID : String
  deriving DecidableEq, Repr

/-- Struct `model.OpportunityURLs` (`model/opportunity.go`). -/
structure OpportunityURLs where
  List_ : String
  Show : String
  deriving DecidableEq, Repr

/-- Struct `model.OpportunityDataProtectionConsent` (`model/opportunity.go`). -/
structure OpportunityDataProtectionConsent where
  Allowed : Bool
  ExpiresAt : Option Int
  deriving DecidableEq, Repr

/-- Struct `model.OpportunityDataProtection` (`model/opportunity.go`). -/
structure OpportunityDataProtection where
  Contact : Option OpportunityDataProtectionConsent
  Store : Option OpportunityDataProtectionConsent
  deriving DecidableEq, Repr

/-- Struct `model.Opportunity` (`model/opportunity.go`). -/
structure Opportunity where
  ID : String
  Name : String
  Headline : String
  ContactID : String
  StageID : String
  Stage : Option Stage
  StageChanges : Option (List StageChange)
  Confidentiality : String
  Location : String
  Phones : Option (List Phone)
  Emails : Option (List String)
  Links : Option (List String)
  Archived : Option Archived
  Tags : Option (List String)
  Sources : Option (List String)
  SourcedByID : String
  SourcedBy : Option User
  Origin : String
  OwnerID : String
  Owner : Option User
  FollowerIDs : Option (List String)
  Followers : Option (List User)
  ApplicationIDs : Option (List String)
  CreatedAt : Option Int
  UpdatedAt : Option Int
  LastInteractionAt : Option Int
  LastAdvancedAt : Option Int
  SnoozedUntil : Option Int
  URLs : Option OpportunityURLs
  DataProtection : Option OpportunityDataProtection
  IsAnonymized : Bool
  DeletedByID : String
  DeletedAt : Option Int
  OpportunityLocation : String
  deriving DecidableEq, Repr

/-- The zero value of `model.Stage`. -/
def Stage.zero : Stage := ⟨"", ""⟩

/-- The zero value of `model.User`. -/
def User.zero : User := ⟨"", "", "", "", none, none, "", "", "", none, "", ""⟩

/-- The zero value of `model.FeedbackForm`. -/
def FeedbackForm.zero : FeedbackForm :=
  ⟨"", "", "", "", "", none, "", none, "", "", none, none, none, none⟩

/-- The zero value of `model.Opportunity`. -/
def Opportunity.zero : Opportunity :=
  { ID := "", Name := "", Headline := "", ContactID := "", StageID := "", Stage := none,
    StageChanges := none, Confidentiality := "", Location := "", Phones := none,
    Emails := none, Links := none, Archived := none, Tags := none, Sources := none,
    SourcedByID := "", SourcedBy := none, Origin := "", OwnerID := "", Owner := none,
    FollowerIDs := none, Followers := none, ApplicationIDs := none, CreatedAt := none,
    UpdatedAt := none, LastInteractionAt := none, LastAdvancedAt := none,
    SnoozedUntil := none, URLs := none, DataProtection := none, IsAnonymized := false,
    DeletedByID := "", DeletedAt := none, OpportunityLocation := "" }

end model

/-! ## Decoders of the model structs

Each `decodeField` follows the JSON tags of the struct: the member is decoded
into the field whose JSON name its key selects. -/

namespace GoJSON

open model

/-- One member of an object decoded into a `model.Stage`. -/
def stageField (ctx : ErrCtx) (s : Stage) (key : String) (v : JSON) : Stage × Option JsonError :=
  if fieldMatch "id" key then
    let r := decodeString (ctx.enter "Stage" "id") s.ID v
    ({ s with ID := r.1 }, r.2)
  else if fieldMatch "text" key then
    let r := decodeString (ctx.enter "Stage" "text") s.Text v
    ({ s with Text := r.1 }, r.2)
  else (s, none)

/-- Decoder of `model.Stage`. -/
def decodeStage : Decoder Stage := decodeStruct "model.Stage" stageField

/-- One member of an object decoded into a `model.User`. -/
def userField (ctx : ErrCtx) (u : User) (key : String) (v : JSON) : User × Option JsonError :=
  if fieldMatch "id" key then
    let r := decodeString (ctx.enter "User" "id") u.ID v
    ({ u with ID := r.1 }, r.2)
  else if fieldMatch "name" key then
    let r := decodeString (ctx.enter "User" "name") u.Name v
    ({ u with Name := r.1 }, r.2)
  else if fieldMatch "username" key then
    let r := decodeString (ctx.enter "User" "username") u.Username v
    ({ u with Username := r.1 }, r.2)
  else if fieldMatch "email" key then
    let r := decodeString (ctx.enter "User" "email") u.Email v
    ({ u with Email := r.1 }, r.2)
  else if fieldMatch "createdAt" key then
    let r := decodePtr 0 decodeInt64 (ctx.enter "User" "createdAt") u.CreatedAt v
    ({ u with CreatedAt := r.1 }, r.2)
  else if fieldMatch "deactivatedAt" key then
    let r := decodePtr 0 decodeInt64 (ctx.enter "User" "deactivatedAt") u.DeactivatedAt v
    ({ u with DeactivatedAt := r.1 }, r.2)
  else if fieldMatch "accessRole" key then
    let r := decodeString (ctx.enter "User" "accessRole") u.AccessRole v
    ({ u with AccessRole := r.1 }, r.2)
  else if fieldMatch "photo" key then
    let r := decodeString (ctx.enter "User" "photo") u.Photo v
    ({ u with Photo := r.1 }, r.2)
  else if fieldMatch "externalDirectoryId" key then
    let r := decodeString (ctx.enter "User" "externalDirectoryId") u.ExternalDirectoryID v
    ({ u with ExternalDirectoryID := r.1 }, r.2)
  else if fieldMatch "linkedContactIds" key then
    let r := decodeSlice "[]string" "" decodeString (ctx.enter "User" "linkedContactIds")
      u.LinkedContactIds v
    ({ u with LinkedContactIds := r.1 }, r.2)
  else if fieldMatch "jobTitle" key then
    let r := decodeString (ctx.enter "User" "jobTitle") u.JobTitle v
    ({ u with JobTitle := r.1 }, r.2)
  else if fieldMatch "manager" key then
    let r := decodeString (ctx.enter "User" "manager") u.ManagerID v
    ({ u with ManagerID := r.1 }, r.2)
  else (u, none)

/-- Decoder of `model.User`. -/
def decodeUser : Decoder User := decodeStruct "model.User" userField

/-- One member of an object decoded into a `model.FeedbackForm`. -/
def feedbackFormField (ctx : ErrCtx) (f : FeedbackForm) (key : String) (v : JSON) :
    FeedbackForm × Option JsonError :=
  if fieldMatch "ID" key then
    let r := decodeString (ctx.enter "FeedbackForm" "ID") f.ID v
    ({ f with ID := r.1 }, r.2)
  else if fieldMatch "Type" key then
    let r := decodeString (ctx.enter "FeedbackForm" "Type") f.Type_ v
    ({ f with Type_ := r.1 }, r.2)
  else if fieldMatch "Text" key then
    let r := decodeString (ctx.enter "FeedbackForm" "Text") f.Text v
    ({ f with Text := r.1 }, r.2)
  else if fieldMatch "Instructions" key then
    let r := decodeString (ctx.enter "FeedbackForm" "Instructions") f.Instructions v
    ({ f with Instructions := r.1 }, r.2)
  else if fieldMatch "BaseTemplateID" key then
    let r := decodeString (ctx.enter "FeedbackForm" "BaseTemplateID") f.BaseTemplateID v
    ({ f with BaseTemplateID := r.1 }, r.2)
  else if fieldMatch "Forms" key then
    let r := decodeSlice "[]interface {}" GoAny.nil decodeAny (ctx.enter "FeedbackForm" "Forms")
      f.Forms v
    ({ f with Forms := r.1 }, r.2)
  else if fieldMatch "UserID" key then
    let r := decodeString (ctx.enter "FeedbackForm" "UserID") f.UserID v
    ({ f with UserID := r.1 }, r.2)
  else if fieldMatch "User" key then
    let r := decodePtr User.zero decodeUser (ctx.enter "FeedbackForm" "User") f.User v
    ({ f with User := r.1 }, r.2)
  else if fieldMatch "PanelID" key then
    let r := decodeString (ctx.enter "FeedbackForm" "PanelID") f.PanelID v
    ({ f with PanelID := r.1 }, r.2)
  else if fieldMatch "InterviewID" key then
    let r := decodeString (ctx.enter "FeedbackForm" "InterviewID") f.InterviewID v
    ({ f with InterviewID := r.1 }, r.2)
  else if fieldMatch "CreatedAt" key then
    let r := decodePtr 0 decodeInt64 (ctx.enter "FeedbackForm" "CreatedAt") f.CreatedAt v
    ({ f with CreatedAt := r.1 }, r.2)
  else if fieldMatch "UpdatedAt" key then
    let r := decodePtr 0 decodeInt64 (ctx.enter "FeedbackForm" "UpdatedAt") f.UpdatedAt v
    ({ f with UpdatedAt := r.1 }, r.2)
  else if fieldMatch "CompletedAt" key then
    let r := decodePtr 0 decodeInt64 (ctx.enter "FeedbackForm" "CompletedAt") f.CompletedAt v
    ({ f with CompletedAt := r.1 }, r.2)
  else if fieldMatch "DeletedAt" key then
    let r := decodePtr 0 decodeInt64 (ctx.enter "FeedbackForm" "DeletedAt") f.DeletedAt v
    ({ f with DeletedAt := r.1 }, r.2)
  else (f, none)

/-- Decoder of `model.FeedbackForm`. -/
def decodeFeedbackForm : Decoder FeedbackForm :=
  decodeStruct "model.FeedbackForm" feedbackFormField

end GoJSON

/-! ## The resolvers (`internal/multimodel`) -/

namespace multimodel

open GoJSON model

/-- `unmarshalStageOrID` (`internal/multimodel/stage.go`). -/
def unmarshalStageOrID (raw : List Char) : String × Option Stage × Option JsonError :=
  if raw.length = 0 then ("", none, none)
  else
    -- Try unmarshalling as a stage first
    let r := unmarshal decodeStage raw Stage.zero
    match r.2 with
    | some _ =>
      -- Can't unmarshal as a stage; try unmarshalling as an ID.
      let r1 := unmarshal decodeString raw ""
      match r1.2 with
      | some err => ("", none, some err)
      | none => (r1.1, none, none)
    | none => (r.1.ID, some r.1, none)

/-- `unmarshalUserOrID` (`internal/multimodel/user.go`). -/
def unmarshalUserOrID (raw : List Char) : String × Option User × Option JsonError :=
  if raw.length = 0 then ("", none, none)
  else
    let r := unmarshal decodeUser raw User.zero
    match r.2 with
    | some _ =>
      let r1 := unmarshal decodeString raw ""
      match r1.2 with
      | some err => ("", none, some err)
      | none => (r1.1, none, none)
    | none => (r.1.ID, some r.1, none)

/-- Go's `append(s, x)` for one element. -/
def goAppend {α : Type} (s : Option (List α)) (x : α) : Option (List α) :=
  some (s.getD [] ++ [x])

/-- The loop `for _, x := range xs { ids = append(ids, x.ID) }`. -/
def appendIDs {α : Type} (getID : α → String) (xs : Option (List α))
    (ids : Option (List String)) : Option (List String) :=
  (xs.getD []).foldl (fun acc x => goAppend acc (getID x)) ids

/-- `unmarshalArrayOfUsersOrIDs` (`internal/multimodel/user.go`). -/
def unmarshalArrayOfUsersOrIDs (raw : List Char) :
    Option (List String) × Option (List User) × Option JsonError :=
  if raw.length = 0 then (none, none, none)
  else
    -- Try unmarshalling as an array of users first
    let r := unmarshal (decodeSlice "[]model.User" User.zero decodeUser) raw none
    match r.2 with
    | some _ =>
      -- Can't unmarshal as users; try unmarshalling as IDs.
      let r1 := unmarshal (decodeSlice "[]string" "" decodeString) raw none
      match r1.2 with
      | some err => (none, none, some err)
      | none => (r1.1, none, none)
    | none => (appendIDs User.ID r.1 none, r.1, none)

/-- `unmarshalArrayOfFeedbackFormsOrIDs` (`internal/multimodel/feedback_form.go`). -/
def unmarshalArrayOfFeedbackFormsOrIDs (raw : List Char) :
    Option (List String) × Option (List FeedbackForm) × Option JsonError :=
  if raw.length = 0 then (none, none, none)
  else
    let r := unmarshal (decodeSlice "[]model.FeedbackForm" FeedbackForm.zero decodeFeedbackForm)
      raw none
    match r.2 with
    | some _ =>
      let r1 := unmarshal (decodeSlice "[]string" "" decodeString) raw none
      match r1.2 with
      | some err => (none, none, some err)
      | none => (r1.1, none, none)
    | none => (appendIDs FeedbackForm.ID r.1 none, r.1, none)

/-- Struct `multimodel.Opportunity` (`internal/multimodel/opportunity.go`): the
opportunity with its expandable fields `Stage`, `SourcedBy`, `Owner` and
`Followers` left as raw JSON. -/
structure Opportunity where
  ID : String
  Name : String
  Headline : String
  ContactID : String
  Stage : List Char
  StageChanges : Option (List StageChange)
  Confidentiality : String
  Location : String
  Phones : Option (List Phone)
  Emails : Option (List String)
  Links : Option (List String)
  Archived : Option Archived
  Tags : Option (List String)
  Sources : Option (List String)
  SourcedBy : List Char
  Origin : String
  Owner : List Char
  Followers : List Char
  ApplicationIDs : Option (List String)
  CreatedAt : Option Int
  UpdatedAt : Option Int
  LastInteractionAt : Option Int
  LastAdvancedAt : Option Int
  SnoozedUntil : Option Int
  URLs : Option OpportunityURLs
  DataProtection : Option OpportunityDataProtection
  IsAnonymized : Bool
  DeletedByID : String
  DeletedAt : Option Int
  OpportunityLocation : String
  deriving DecidableEq, Repr

/-- The zero value of `multimodel.Opportunity`. -/
def Opportunity.zero : Opportunity :=
  { ID := "", Name := "", Headline := "", ContactID := "", Stage := [], StageChanges := none,
    Confidentiality := "", Location := "", Phones := none, Emails := none, Links := none,
    Archived := none, Tags := none, Sources := none, SourcedBy := [], Origin := "",
    Owner := [], Followers := [], ApplicationIDs := none, CreatedAt := none,
    UpdatedAt := none, LastInteractionAt := none, LastAdvancedAt := none,
    SnoozedUntil := none, URLs := none, DataProtection := none, IsAnonymized := false,
    DeletedByID := "", DeletedAt := none, OpportunityLocation := "" }

/-- `(*Opportunity).ToModel` (`internal/multimodel/opportunity.go`): `result` is
the model the pointer argument points at before the call; the function
returns the model it points at afterwards and the error. -/
def Opportunity.ToModel (o : Opportunity) (result : model.Opportunity) :
    model.Opportunity × Option JsonError :=
  -- Fields that map 1:1
  let result := { result with
    ID := o.ID, Name := o.Name, Headline := o.Headline, ContactID := o.ContactID,
    StageChanges := o.StageChanges, Confidentiality := o.Confidentiality,
    Location := o.Location, Phones := o.Phones, Emails := o.Emails, Links := o.Links,
    Archived := o.Archived, Tags := o.Tags, Sources := o.Sources, Origin := o.Origin,
    ApplicationIDs := o.ApplicationIDs, CreatedAt := o.CreatedAt, UpdatedAt := o.UpdatedAt,
    LastInteractionAt := o.LastInteractionAt, LastAdvancedAt := o.LastAdvancedAt,
    SnoozedUntil := o.SnoozedUntil, URLs := o.URLs, DataProtection := o.DataProtection,
    IsAnonymized := o.IsAnonymized, DeletedByID := o.DeletedByID, DeletedAt := o.DeletedAt,
    OpportunityLocation := o.OpportunityLocation }
  let stageR := unmarshalStageOrID o.Stage
  match stageR.2.2 with
  | some err => (result, some err)
  | none =>
    let result := { result with StageID := stageR.1, Stage := stageR.2.1 }
    let sourcedByR := unmarshalUserOrID o.SourcedBy
    match sourcedByR.2.2 with
    | some err => (result, some err)
    | none =>
      let result := { result with SourcedByID := sourcedByR.1, SourcedBy := sourcedByR.2.1 }
      let ownerR := unmarshalUserOrID o.Owner
      match ownerR.2.2 with
      | some err => (result, some err)
      | none =>
        let result := { result with OwnerID := ownerR.1, Owner := ownerR.2.1 }
        let followersR := unmarshalArrayOfUsersOrIDs o.Followers
        match followersR.2.2 with
        | some err => (result, some err)
        | none =>
          let result := { result with FollowerIDs := followersR.1, Followers := followersR.2.1 }
          (result, none)

end multimodel

/-! ## Specification-side definitions -/

namespace multimodel

open GoJSON model

/-- The string a JSON value is, when it is a JSON string. -/
def asString? : JSON → Option String
  | .str s => some s
  | _ => none

/-- The last member of an object that satisfies `p`. -/
def lastMember (p : String × JSON → Bool) : List (String × JSON) → Option (String × JSON)
  | [] => none
  | kv :: rest =>
    match lastMember p rest with
    | some x => some x
    | none => if p kv then some kv else none

/-- The keys that spell `id` in some letter case. -/
def isIDKey (k : String) : Bool := k = "id" || k = "Id" || k = "iD" || k = "ID"

/-- The identifier member of an object, read as the decoder reads it: the
value of the last member whose key spells `id` in some letter case and whose
value is a JSON string. -/
def idMember (members : List (String × JSON)) : Option String :=
  (lastMember (fun kv => isIDKey kv.1 && (asString? kv.2).isSome) members).bind
    (fun kv => asString? kv.2)

/-- The 26 fields that `ToModel` copies hold the same values in the raw
opportunity `o` and in the model `m`. -/
def fixedFieldsEq (o : Opportunity) (m : model.Opportunity) : Prop :=
  m.ID = o.ID ∧ m.Name = o.Name ∧ m.Headline = o.Headline ∧ m.ContactID = o.ContactID
    ∧ m.StageChanges = o.StageChanges ∧ m.Confidentiality = o.Confidentiality
    ∧ m.Location = o.Location ∧ m.Phones = o.Phones ∧ m.Emails = o.Emails ∧ m.Links = o.Links
    ∧ m.Archived = o.Archived ∧ m.Tags = o.Tags ∧ m.Sources = o.Sources ∧ m.Origin = o.Origin
    ∧ m.ApplicationIDs = o.ApplicationIDs ∧ m.CreatedAt = o.CreatedAt
    ∧ m.UpdatedAt = o.UpdatedAt ∧ m.LastInteractionAt = o.LastInteractionAt
    ∧ m.LastAdvancedAt = o.LastAdvancedAt ∧ m.SnoozedUntil = o.SnoozedUntil ∧ m.URLs = o.URLs
    ∧ m.DataProtection = o.DataProtection ∧ m.IsAnonymized = o.IsAnonymized
    ∧ m.DeletedByID = o.DeletedByID ∧ m.DeletedAt = o.DeletedAt
    ∧ m.OpportunityLocation = o.OpportunityLocation

instance (o : Opportunity) (m : model.Opportunity) : Decidable (fixedFieldsEq o m) := by
  unfold fixedFieldsEq
  infer_instance

end multimodel

/-! ## Payloads of the repository's tests, and a few more -/

namespace testdata

open GoJSON

/-- The stage object of `TestStageUnmarshalling`. -/
def stageObject : List Char :=
  "\x7b\n\t\"id\": \"8d49b010-cc6a-4f40-ace5-e86061c677ed\",\n\t\"text\": \"Interview\"\n\x7d".data

/-- The members of `stageObject`. -/
def stageMembers : List (String × JSON) :=
  [("id", .str "8d49b010-cc6a-4f40-ace5-e86061c677ed"), ("text", .str "Interview")]

/-- The user object of `TestUserUnmarshalling`. -/
def userObject : List Char :=
  ("\x7b\n\t\"id\": \"8d49b010-cc6a-4f40-ace5-e86061c677ed\",\n\t\"name\": \"Chandler Bing\","
    ++ "\n\t\"username\": \"chandler\",\n\t\"email\": \"chandler@example.com\","
    ++ "\n\t\"createdAt\": 1407357447018,\n\t\"deactivatedAt\": 1409556487918,"
    ++ "\n\t\"externalDirectoryId\": \"2277399\",\n\t\"accessRole\": \"super admin\","
    ++ "\n\t\"photo\": \"https://gravatar.com/avatar/gp781413e3bb44143bddf43589b03038?s=26&d=404\","
    ++ "\n\t\"linkedContactIds\": [\n\t\t\"38f608d5-9a60-4960-83c1-99d18f40c428\"\n\t]\n\x7d").data

/-- The members of `userObject`. -/
def userMembers : List (String × JSON) :=
  [("id", .str "8d49b010-cc6a-4f40-ace5-e86061c677ed"), ("name", .str "Chandler Bing"),
    ("username", .str "chandler"), ("email", .str "chandler@example.com"),
    ("createdAt", .num "1407357447018"), ("deactivatedAt", .num "1409556487918"),
    ("externalDirectoryId", .str "2277399"), ("accessRole", .str "super admin"),
    ("photo", .str "https://gravatar.com/avatar/gp781413e3bb44143bddf43589b03038?s=26&d=404"),
    ("linkedContactIds", .arr [.str "38f608d5-9a60-4960-83c1-99d18f40c428"])]

/-- The user of `userObject`. -/
def chandler : model.User :=
  { ID := "8d49b010-cc6a-4f40-ace5-e86061c677ed", Name := "Chandler Bing",
    Username := "chandler", Email := "chandler@example.com",
    CreatedAt := some 1407357447018, DeactivatedAt := some 1409556487918,
    AccessRole := "super admin",
    Photo := "https://gravatar.com/avatar/gp781413e3bb44143bddf43589b03038?s=26&d=404",
    ExternalDirectoryID := "2277399",
    LinkedContactIds := some ["38f608d5-9a60-4960-83c1-99d18f40c428"],
    JobTitle := "", ManagerID := "" }

/-- The array of one user object of `TestUserArrayUnmarshalling`. -/
def userArray : List Char := "[".data ++ userObject ++ "]".data

/-- The array of one identifier of `TestUserArrayUnmarshalling`. -/
def idArray : List Char := "[\n\t\"8d49b010-cc6a-4f40-ace5-e86061c677ed\"\n]".data

/-- An array of two feedback-form objects. -/
def formArray : List Char :=
  "[\x7b\"id\": \"f1\", \"text\": \"Onsite\"\x7d, \x7b\"id\": \"f2\", \"createdAt\": 7\x7d]".data

/-- The elements of `formArray`. -/
def formElems : List JSON :=
  [.obj [("id", .str "f1"), ("text", .str "Onsite")], .obj [("id", .str "f2"), ("createdAt", .num "7")]]

/-- An array that mixes an identifier and an object. -/
def mixedArray : List Char := "[\"a\", \x7b\"id\": \"b\"\x7d]".data

/-- An object whose identifier key is written in upper case. -/
def upperIDObject : List Char := "\x7b\"ID\": \"x\"\x7d".data

/-- A raw opportunity whose stage is a bare identifier and whose owner is
the payload `[]`, which no scalar resolver accepts. -/
def badOwner : multimodel.Opportunity :=
  { multimodel.Opportunity.zero with
    ID := "o1", Name := "Chandler", Stage := "\"s1\"".data, Owner := "[]".data }

/-- A raw opportunity with every expandable field embedded. -/
def expanded : multimodel.Opportunity :=
  { multimodel.Opportunity.zero with
    ID := "o1", Stage := stageObject, SourcedBy := "\"u0\"".data, Owner := userObject,
    Followers := userArray }

end testdata

/-! ## The interview and feedback-form projectors (`internal/multimodel`) -/

namespace model

/-- Struct `model.Interviewer` (`model/interview.go`). -/
structure Interviewer where
  ID : String
  Name : String
  Email : String
  deriving DecidableEq, Repr

/-- Struct `model.PostingCategories` (`model/posting.go`). -/
structure PostingCategories where
  Team : String
  Department : String
  Location : String
  AllLocations : Option (List String)
  Commitment : String
  Level : String
  deriving DecidableEq, Repr

/-- The anonymous struct of `model.PostingContent.Lists` (`model/posting.go`). -/
structure PostingContentList where
  Title : String
  Content : String
  deriving DecidableEq, Repr

/-- Struct `model.PostingContent` (`model/posting.go`). -/
structure PostingContent where
  Description : String
  DescriptionHtml : String
  Lists : Option (List PostingContentList)
  Closing : String
  ClosingHtml : String
  deriving DecidableEq, Repr

/-- Struct `model.PostingURLs` (`model/posting.go`). -/
structure PostingURLs where
  List_ : String
  Show : String
  Apply : String
  deriving DecidableEq, Repr

/-- Struct `model.Posting` (`model/posting.go`). -/
structure Posting where
  ID : String
  Text : String
  CreatedAt : Option Int
  UpdatedAt : Option Int
  State : String
  DistributionChannels : Option (List String)
  Confidentiality : String
  UserID : String
  User : Option model.User
  OwnerID : String
  Owner : Option model.User
  HiringManagerID : String
  HiringManager : Option model.User
  Categories : Option PostingCategories
  Tags : Option (List String)
  Content : Option PostingContent
  Country : String
  FollowerIds : Option (List String)
  Followers : Option (List model.User)
  RequisitionCode : String
  RequisitionCodes : Option (List String)
  URLs : Option PostingURLs
  WorkplaceType : String
  deriving DecidableEq, Repr

/-- Struct `model.Interview` (`model/interview.go`). -/
structure Interview where
  ID : String
  PanelID : String
  Subject : String
  Note : String
  Interviewers : Option (List Interviewer)
  Timezone : String
  CreatedAt : Option Int
  Date : Option Int
  Duration : Int
  Location : String
  FeedbackTemplateID : String
  FeedbackFormIDs : Option (List String)
  FeedbackForms : Option (List FeedbackForm)
  FeedbackReminder : String
  UserID : String
  User : Option model.User
  StageID : String
  Stage : Option model.Stage
  CanceledAt : Option Int
  PostingIDs : Option (List String)
  Postings : Option (List Posting)
  deriving Repr

/-- The zero value of `model.Interview`. -/
def Interview.zero : Interview :=
  { ID := "", PanelID := "", Subject := "", Note := "", Interviewers := none, Timezone := "",
    CreatedAt := none, Date := none, Duration := 0, Location := "", FeedbackTemplateID := "",
    FeedbackFormIDs := none, FeedbackForms := none, FeedbackReminder := "", UserID := "",
    User := none, StageID := "", Stage := none, CanceledAt := none, PostingIDs := none,
    Postings := none }

end model

namespace multimodel

open GoJSON model

/-- Struct `multimodel.FeedbackForm` (`internal/multimodel/feedback_form.go`):
the feedback form with its expandable field `user` left as raw JSON (the Go
field is named `UserID`). -/
structure FeedbackForm where
  ID : String
  Type_ : String
  Text : String
  Instructions : String
  BaseTemplateID : String
  Forms : Option (List GoAny)
  UserID : List Char
  PanelID : String
  InterviewID : String
  CreatedAt : Option Int
  UpdatedAt : Option Int
  CompletedAt : Option Int
  DeletedAt : Option Int
  deriving Repr

/-- The zero value of `multimodel.FeedbackForm`. -/
def FeedbackForm.zero : FeedbackForm :=
  ⟨"", "", "", "", "", none, [], "", "", none, none, none, none⟩

/-- `(*FeedbackForm).ToModel` (`internal/multimodel/feedback_form.go`). -/
def FeedbackForm.ToModel (f : FeedbackForm) (result : model.FeedbackForm) :
    model.FeedbackForm × Option JsonError :=
  -- Fields that map 1:1
  let result := { result with
    ID := f.ID, Type_ := f.Type_, Text := f.Text, Instructions := f.Instructions,
    BaseTemplateID := f.BaseTemplateID, Forms := f.Forms, PanelID := f.PanelID,
    InterviewID := f.InterviewID, CreatedAt := f.CreatedAt, UpdatedAt := f.UpdatedAt,
    CompletedAt := f.CompletedAt, DeletedAt := f.DeletedAt }
  -- Parse the user field
  let userR := unmarshalUserOrID f.UserID
  match userR.2.2 with
  | some err => (result, some err)
  | none => ({ result with UserID := userR.1, User := userR.2.1 }, none)

/-- Struct `multimodel.Interview` (`internal/multimodel/interview.go`): the
interview with its expandable fields `FeedbackForms`, `User` and `Stage` left
as raw JSON. -/
structure Interview where
  ID : String
  PanelID : String
  Subject : String
  Note : String
  Interviewers : Option (List Interviewer)
  Timezone : String
  CreatedAt : Option Int
  Date : Option Int
  Duration : Int
  Location : String
  FeedbackTemplateID : String
  FeedbackForms : List Char
  FeedbackReminder : String
  User : List Char
  Stage : List Char
  CanceledAt : Option Int
  PostingIDs : Option (List String)
  Postings : Option (List Posting)
  deriving DecidableEq, Repr

/-- The zero value of `multimodel.Interview`. -/
def Interview.zero : Interview :=
  { ID := "", PanelID := "", Subject := "", Note := "", Interviewers := none, Timezone := "",
    CreatedAt := none, Date := none, Duration := 0, Location := "", FeedbackTemplateID := "",
    FeedbackForms := [], FeedbackReminder := "", User := [], Stage := [], CanceledAt := none,
    PostingIDs := none, Postings := none }

/-- `(*Interview).ToModel` (`internal/multimodel/interview.go`). -/
def Interview.ToModel (o : Interview) (result : model.Interview) :
    model.Interview × Option JsonError :=
  -- Fields that map 1:1
  let result := { result with
    ID := o.ID, PanelID := o.PanelID, Subject := o.Subject, Note := o.Note,
    Interviewers := o.Interviewers, Timezone := o.Timezone, CreatedAt := o.CreatedAt,
    Date := o.Date, Duration := o.Duration, Location := o.Location,
    FeedbackTemplateID := o.FeedbackTemplateID, FeedbackReminder := o.FeedbackReminder,
    CanceledAt := o.CanceledAt, PostingIDs := o.PostingIDs, Postings := o.Postings }
  let formsR := unmarshalArrayOfFeedbackFormsOrIDs o.FeedbackForms
  match formsR.2.2 with
  | some err => (result, some err)
  | none =>
    let result := { result with FeedbackFormIDs := formsR.1, FeedbackForms := formsR.2.1 }
    let userR := unmarshalUserOrID o.User
    match userR.2.2 with
    | some err => (result, some err)
    | none =>
      let result := { result with UserID := userR.1, User := userR.2.1 }
      let stageR := unmarshalStageOrID o.Stage
      match stageR.2.2 with
      | some err => (result, some err)
      | none => ({ result with StageID := stageR.1, Stage := stageR.2.1 }, none)

/-- The 12 fields that `FeedbackForm.ToModel` copies hold the same values in
the raw form `f` and in the model `m`. -/
def formFixedFieldsEq (f : FeedbackForm) (m : model.FeedbackForm) : Prop :=
  m.ID = f.ID ∧ m.Type_ = f.Type_ ∧ m.Text = f.Text ∧ m.Instructions = f.Instructions
    ∧ m.BaseTemplateID = f.BaseTemplateID ∧ m.Forms = f.Forms ∧ m.PanelID = f.PanelID
    ∧ m.InterviewID = f.InterviewID ∧ m.CreatedAt = f.CreatedAt ∧ m.UpdatedAt = f.UpdatedAt
    ∧ m.CompletedAt = f.CompletedAt ∧ m.DeletedAt = f.DeletedAt

/-- The 15 fields that `Interview.ToModel` copies hold the same values in the
raw interview `o` and in the model `m`. -/
def interviewFixedFieldsEq (o : Interview) (m : model.Interview) : Prop :=
  m.ID = o.ID ∧ m.PanelID = o.PanelID ∧ m.Subject = o.Subject ∧ m.Note = o.Note
    ∧ m.Interviewers = o.Interviewers ∧ m.Timezone = o.Timezone ∧ m.CreatedAt = o.CreatedAt
    ∧ m.Date = o.Date ∧ m.Duration = o.Duration ∧ m.Location = o.Location
    ∧ m.FeedbackTemplateID = o.FeedbackTemplateID ∧ m.FeedbackReminder = o.FeedbackReminder
    ∧ m.CanceledAt = o.CanceledAt ∧ m.PostingIDs = o.PostingIDs ∧ m.Postings = o.Postings

end multimodel

namespace GoJSON

/-- The scanner states that can be reached from `idle`: inside `true`, `false`
or `null` no blank is expected. -/
def LexState.wf : LexState → Prop
  | .inLit expect _ => ∀ c ∈ expect, isSpace c = false
  | _ => True

end GoJSON

/-! ## JSON text: rendering, and the stream decoder (`json.Decoder`) -/

namespace GoJSON

mutual
/-- A compact JSON text of a value: what the model keeps of the bytes of a
value that Go stores unparsed in a `json.RawMessage`. -/
def render : JSON → List Char
  | .null => ['n', 'u', 'l', 'l']
  | .bool true => ['t', 'r', 'u', 'e']
  | .bool false => ['f', 'a', 'l', 's', 'e']
  | .num lit => lit.data
  | .str s => encodeString s
  | .arr elems => '[' :: (renderElems elems ++ [']'])
  | .obj members => '{' :: (renderMembers members ++ ['}'])
/-- The elements of an array, separated by commas. -/
def renderElems : List JSON → List Char
  | [] => []
  | x :: rest => if rest.isEmpty then render x else render x ++ ',' :: renderElems rest
/-- The members of an object, separated by commas. -/
def renderMembers : List (String × JSON) → List Char
  | [] => []
  | (k, v) :: rest =>
    if rest.isEmpty then encodeString k ++ ':' :: render v
    else encodeString k ++ ':' :: (render v ++ ',' :: renderMembers rest)
end

/-- Decode into a `json.RawMessage`: its `UnmarshalJSON` is called with the
text of the value, also for `null`, and keeps it. The model keeps the compact
rendering of the value, a JSON text with the same value. -/
def decodeRawMessage : Decoder (List Char) := fun _ _ j => (render j, none)

/-- Decode into a Go `bool`. -/
def decodeBool : Decoder Bool := fun ctx cur j =>
  match j with
  | .null => (cur, none)
  | .bool b => (b, none)
  | _ => (cur, some (typeError ctx (kindName j) "bool"))

/-- Decode into a Go `int` (64 bits wide). -/
def decodeInt : Decoder Int := fun ctx cur j =>
  match j with
  | .null => (cur, none)
  | .num lit =>
    match parseInt64 lit with
    | some n => (n, none)
    | none => (cur, some (typeError ctx ("number " ++ lit) "int"))
  | _ => (cur, some (typeError ctx (kindName j) "int"))

/-- The entries of the scanner's `parseState` stack. -/
inductive ParseState where
  | objectKey
  | objectValue
  | arrayValue
  deriving DecidableEq, Repr

/-- The step functions of the scanner (`scanner.go`): `zero`, `digits`, `dot`,
`dot0`, `exp`, `expSign`, `exp0` are `state0`, `state1`, `stateDot`, `stateDot0`,
`stateE`, `stateESign`, `stateE0`; `lit` is inside `true`, `false` or `null`
with the characters still expected. -/
inductive ScanStep where
  | beginValue
  | beginValueOrEmpty
  | beginStringOrEmpty
  | beginString
  | endValue
  | endTop
  | inString
  | inStringEsc
  | inStringEscU (remaining : Nat)
  | neg
  | zero
  | digits
  | dot
  | dot0
  | exp
  | expSign
  | exp0
  | lit (expect : List Char)
  | error
  deriving DecidableEq, Repr

/-- The scan codes the stream decoder tells apart; every other code is
`scanOther`. -/
inductive ScanCode where
  | scanOther
  | scanEndObject
  | scanEndArray
  | scanEnd
  | scanError
  deriving DecidableEq, Repr

/-- The scanner: its step function and its stack of open objects and arrays,
innermost first. -/
structure Scanner where
  step : ScanStep
  parseState : List ParseState
  deriving DecidableEq, Repr

/-- The scanner after `reset`. -/
def Scanner.reset : Scanner := ⟨.beginValue, []⟩

/-- The scanner records an error (`scanner.error`). -/
def Scanner.fail (s : Scanner) : Scanner × ScanCode := ({ s with step := .error }, .scanError)

/-- `pushParseState`. -/
def Scanner.push (s : Scanner) (ps : ParseState) (next : ScanStep) : Scanner × ScanCode :=
  if (ps :: s.parseState).length ≤ maxNestingDepth then
    (⟨next, ps :: s.parseState⟩, .scanOther)
  else (⟨.error, ps :: s.parseState⟩, .scanError)

/-- The scanner after `popParseState` left the stack `rest`. -/
def Scanner.popped (rest : List ParseState) : Scanner :=
  ⟨if rest.isEmpty then .endTop else .endValue, rest⟩

/-- `stateEndTop`: the top-level value is complete; a byte that is not a blank
is complained about on the next call. -/
def stateEndTop (s : Scanner) (c : Char) : Scanner × ScanCode :=
  if isSpace c then (s, .scanEnd) else ({ s with step := .error }, .scanEnd)

/-- `stateEndValue`. -/
def stateEndValue (s : Scanner) (c : Char) : Scanner × ScanCode :=
  match s.parseState with
  | [] => stateEndTop { s with step := .endTop } c
  | ps :: rest =>
    if isSpace c then ({ s with step := .endValue }, .scanOther)
    else
      match ps with
      | .objectKey =>
        if c = ':' then (⟨.beginValue, .objectValue :: rest⟩, .scanOther) else s.fail
      | .objectValue =>
        if c = ',' then (⟨.beginString, .objectKey :: rest⟩, .scanOther)
        else if c = '}' then (Scanner.popped rest, .scanEndObject)
        else s.fail
      | .arrayValue =>
        if c = ',' then ({ s with step := .beginValue }, .scanOther)
        else if c = ']' then (Scanner.popped rest, .scanEndArray)
        else s.fail

/-- `stateBeginValue`. -/
def stateBeginValue (s : Scanner) (c : Char) : Scanner × ScanCode :=
  if isSpace c then (s, .scanOther)
  else if c = '{' then s.push .objectKey .beginStringOrEmpty
  else if c = '[' then s.push .arrayValue .beginValueOrEmpty
  else if c = quoteChar then ({ s with step := .inString }, .scanOther)
  else if c = '-' then ({ s with step := .neg }, .scanOther)
  else if c = '0' then ({ s with step := .zero }, .scanOther)
  else if c = 't' then ({ s with step := .lit ['r', 'u', 'e'] }, .scanOther)
  else if c = 'f' then ({ s with step := .lit ['a', 'l', 's', 'e'] }, .scanOther)
  else if c = 'n' then ({ s with step := .lit ['u', 'l', 'l'] }, .scanOther)
  else if isDigit19 c then ({ s with step := .digits }, .scanOther)
  else s.fail

/-- `stateBeginString`. -/
def stateBeginString (s : Scanner) (c : Char) : Scanner × ScanCode :=
  if isSpace c then (s, .scanOther)
  else if c = quoteChar then ({ s with step := .inString }, .scanOther)
  else s.fail

/-- `stateESign`. -/
def stateESign (s : Scanner) (c : Char) : Scanner × ScanCode :=
  if isDigit c then ({ s with step := .exp0 }, .scanOther) else s.fail

/-- `state0`. -/
def state0 (s : Scanner) (c : Char) : Scanner × ScanCode :=
  if c = '.' then ({ s with step := .dot }, .scanOther)
  else if c = 'e' || c = 'E' then ({ s with step := .exp }, .scanOther)
  else stateEndValue s c

/-- One step of the scanner on the byte `c` (`s.step(s, c)`). -/
def Scanner.next (s : Scanner) (c : Char) : Scanner × ScanCode :=
  match s.step with
  | .beginValue => stateBeginValue s c
  | .beginValueOrEmpty =>
    if isSpace c then (s, .scanOther)
    else if c = ']' then stateEndValue s c
    else stateBeginValue s c
  | .beginStringOrEmpty =>
    if isSpace c then (s, .scanOther)
    else if c = '}' then stateEndValue { s with parseState := .objectValue :: s.parseState.tail } c
    else stateBeginString s c
  | .beginString => stateBeginString s c
  | .endValue => stateEndValue s c
  | .endTop => stateEndTop s c
  | .inString =>
    if c = quoteChar then ({ s with step := .endValue }, .scanOther)
    else if c = backslashChar then ({ s with step := .inStringEsc }, .scanOther)
    else if c.toNat < 32 then s.fail
    else (s, .scanOther)
  | .inStringEsc =>
    if isSimpleEscape c then ({ s with step := .inString }, .scanOther)
    else if c = 'u' then ({ s with step := .inStringEscU 4 }, .scanOther)
    else s.fail
  | .inStringEscU k =>
    if isHex c then
      (if k ≤ 1 then ({ s with step := .inString }, .scanOther)
       else ({ s with step := .inStringEscU (k - 1) }, .scanOther))
    else s.fail
  | .neg =>
    if c = '0' then ({ s with step := .zero }, .scanOther)
    else if isDigit19 c then ({ s with step := .digits }, .scanOther)
    else s.fail
  | .digits =>
    if isDigit c then (s, .scanOther) else state0 s c
  | .zero => state0 s c
  | .dot =>
    if isDigit c then ({ s with step := .dot0 }, .scanOther) else s.fail
  | .dot0 =>
    if isDigit c then (s, .scanOther)
    else if c = 'e' || c = 'E' then ({ s with step := .exp }, .scanOther)
    else stateEndValue s c
  | .exp =>
    if c = '+' || c = '-' then ({ s with step := .expSign }, .scanOther)
    else stateESign s c
  | .expSign => stateESign s c
  | .exp0 =>
    if isDigit c then (s, .scanOther) else stateEndValue s c
  | .lit expect =>
    match expect with
    | [] => s.fail
    | [e] => if c = e then ({ s with step := .endValue }, .scanOther) else s.fail
    | e :: more => if c = e then ({ s with step := .lit more }, .scanOther) else s.fail
  | .error => (s, .scanError)

/-- The errors of `(*json.Decoder).Decode`: the errors of `Unmarshal`, `io.EOF`
when the stream holds no value, and `io.ErrUnexpectedEOF` when it ends inside
one. -/
inductive StreamError where
  | json (e : JsonError)
  | eof
  | unexpectedEOF
  deriving DecidableEq, Repr

/-- `(*Decoder).readValue` on a stream that delivers `body` and then ends:
`n` bytes are scanned so far and `rest` is still to come. The result is the
length of the text of the first value. -/
def readValueFrom (body : List Char) : Scanner → Nat → List Char → Except StreamError Nat
  | s, n, [] =>
    if (s.next ' ').2 = .scanEnd then .ok n
    else if body.any (fun c => !isSpace c) then .error .unexpectedEOF
    else .error .eof
  | s, n, c :: rest =>
    let r := s.next c
    match r.2 with
    | .scanEnd => .ok n
    | .scanEndObject =>
      if (stateEndValue r.1 ' ').2 = .scanEnd then .ok (n + 1)
      else readValueFrom body (stateEndValue r.1 ' ').1 (n + 1) rest
    | .scanEndArray =>
      if (stateEndValue r.1 ' ').2 = .scanEnd then .ok (n + 1)
      else readValueFrom body (stateEndValue r.1 ' ').1 (n + 1) rest
    | .scanError => .error (.json .syntaxError)
    | .scanOther => readValueFrom body r.1 (n + 1) rest

/-- `readValue` on a fresh decoder. -/
def readValue (body : List Char) : Except StreamError Nat :=
  readValueFrom body Scanner.reset 0 body

/-- The first JSON value of a stream: the value of the text `readValue`
delimits (the scanner has already checked that text). -/
def streamValue (body : List Char) : Except StreamError JSON :=
  match readValue body with
  | .error e => .error e
  | .ok n =>
    match parse (body.take n) with
    | none => .error (.json .syntaxError)
    | some j => .ok j

/-- `json.NewDecoder(body).Decode(&v)`: the first value of the stream is
decoded into `v`; what follows it in the stream is not looked at. -/
def decodeStream {α : Type} (dec : Decoder α) (body : List Char) (v : α) :
    α × Option StreamError :=
  match streamValue body with
  | .error e => (v, some e)
  | .ok j =>
    let r := dec ErrCtx.top v j
    (r.1, r.2.map StreamError.json)

end GoJSON

/-! ## Decoders of the remaining structs of an opportunity -/

namespace model

/-- The zero value of `model.StageChange`. -/
def StageChange.zero : StageChange := ⟨"", 0, none, ""⟩

/-- The zero value of `model.Phone`. -/
def Phone.zero : Phone := ⟨"", ""⟩

/-- The zero value of `model.Archived`. -/
def Archived.zero : Archived := ⟨none, ""⟩

/-- The zero value of `model.OpportunityURLs`. -/
def OpportunityURLs.zero : OpportunityURLs := ⟨"", ""⟩

/-- The zero value of `model.OpportunityDataProtectionConsent`. -/
def OpportunityDataProtectionConsent.zero : OpportunityDataProtectionConsent := ⟨false, none⟩

/-- The zero value of `model.OpportunityDataProtection`. -/
def OpportunityDataProtection.zero : OpportunityDataProtection := ⟨none, none⟩

end model

namespace GoJSON

open model

/-- One member of an object decoded into a `model.StageChange`. -/
def stageChangeField (ctx : ErrCtx) (s : StageChange) (key : String) (v : JSON) :
    StageChange × Option JsonError :=
  if fieldMatch "toStageId" key then
    let r := decodeString (ctx.enter "StageChange" "toStageId") s.ToStageID v
    ({ s with ToStageID := r.1 }, r.2)
  else if fieldMatch "toStageIndex" key then
    let r := decodeInt (ctx.enter "StageChange" "toStageIndex") s.ToStageIndex v
    ({ s with ToStageIndex := r.1 }, r.2)
  else if fieldMatch "updatedAt" key then
    let r := decodePtr 0 decodeInt64 (ctx.enter "StageChange" "updatedAt") s.UpdatedAt v
    ({ s with UpdatedAt := r.1 }, r.2)
  else if fieldMatch "userId" key then
    let r := decodeString (ctx.enter "StageChange" "userId") s.UserID v
    ({ s with UserID := r.1 }, r.2)
  else (s, none)

/-- Decoder of `model.StageChange`. -/
def decodeStageChange : Decoder StageChange := decodeStruct "model.StageChange" stageChangeField

/-- One member of an object decoded into a `model.Phone`. -/
def phoneField (ctx : ErrCtx) (p : Phone) (key : String) (v : JSON) : Phone × Option JsonError :=
  if fieldMatch "type" key then
    let r := decodeString (ctx.enter "Phone" "type") p.Type_ v
    ({ p with Type_ := r.1 }, r.2)
  else if fieldMatch "value" key then
    let r := decodeString (ctx.enter "Phone" "value") p.Value v
    ({ p with Value := r.1 }, r.2)
  else (p, none)

/-- Decoder of `model.Phone`. -/
def decodePhone : Decoder Phone := decodeStruct "model.Phone" phoneField

/-- One member of an object decoded into a `model.Archived`. -/
def archivedField (ctx : ErrCtx) (a : Archived) (key : String) (v : JSON) :
    Archived × Option JsonError :=
  if fieldMatch "archivedAt" key then
    let r := decodePtr 0 decodeInt64 (ctx.enter "Archived" "archivedAt") a.ArchivedAt v
    ({ a with ArchivedAt := r.1 }, r.2)
  else if fieldMatch "reason" key then
    let r := decodeString (ctx.enter "Archived" "reason") a.ReasonID v
    ({ a with ReasonID := r.1 }, r.2)
  else (a, none)

/-- Decoder of `model.Archived`. -/
def decodeArchived : Decoder Archived := decodeStruct "model.Archived" archivedField

/-- One member of an object decoded into a `model.OpportunityURLs`. -/
def opportunityURLsField (ctx : ErrCtx) (u : OpportunityURLs) (key : String) (v : JSON) :
    OpportunityURLs × Option JsonError :=
  if fieldMatch "list" key then
    let r := decodeString (ctx.enter "OpportunityURLs" "list") u.List_ v
    ({ u with List_ := r.1 }, r.2)
  else if fieldMatch "show" key then
    let r := decodeString (ctx.enter "OpportunityURLs" "show") u.Show v
    ({ u with Show := r.1 }, r.2)
  else (u, none)

/-- Decoder of `model.OpportunityURLs`. -/
def decodeOpportunityURLs : Decoder OpportunityURLs :=
  decodeStruct "model.OpportunityURLs" opportunityURLsField

/-- One member of an object decoded into a `model.OpportunityDataProtectionConsent`. -/
def consentField (ctx : ErrCtx) (c : OpportunityDataProtectionConsent) (key : String)
    (v : JSON) : OpportunityDataProtectionConsent × Option JsonError :=
  if fieldMatch "allowed" key then
    let r := decodeBool (ctx.enter "OpportunityDataProtectionConsent" "allowed") c.Allowed v
    ({ c with Allowed := r.1 }, r.2)
  else if fieldMatch "expiresAt" key then
    let r := decodePtr 0 decodeInt64 (ctx.enter "OpportunityDataProtectionConsent" "expiresAt")
      c.ExpiresAt v
    ({ c with ExpiresAt := r.1 }, r.2)
  else (c, none)

/-- Decoder of `model.OpportunityDataProtectionConsent`. -/
def decodeConsent : Decoder OpportunityDataProtectionConsent :=
  decodeStruct "model.OpportunityDataProtectionConsent" consentField

/-- One member of an object decoded into a `model.OpportunityDataProtection`. -/
def dataProtectionField (ctx : ErrCtx) (d : OpportunityDataProtection) (key : String)
    (v : JSON) : OpportunityDataProtection × Option JsonError :=
  if fieldMatch "contact" key then
    let r := decodePtr OpportunityDataProtectionConsent.zero decodeConsent
      (ctx.enter "OpportunityDataProtection" "contact") d.Contact v
    ({ d with Contact := r.1 }, r.2)
  else if fieldMatch "store" key then
    let r := decodePtr OpportunityDataProtectionConsent.zero decodeConsent
      (ctx.enter "OpportunityDataProtection" "store") d.Store v
    ({ d with Store := r.1 }, r.2)
  else (d, none)

/-- Decoder of `model.OpportunityDataProtection`. -/
def decodeDataProtection : Decoder OpportunityDataProtection :=
  decodeStruct "model.OpportunityDataProtection" dataProtectionField

/-- One member of an object decoded into a `multimodel.Opportunity`: the
members `stage`, `sourcedBy`, `owner` and `followers` are kept as raw JSON. -/
def rawOpportunityField (ctx : ErrCtx) (o : multimodel.Opportunity) (key : String) (v : JSON) :
    multimodel.Opportunity × Option JsonError :=
  if fieldMatch "id" key then
    let r := decodeString (ctx.enter "Opportunity" "id") o.ID v
    ({ o with ID := r.1 }, r.2)
  else if fieldMatch "name" key then
    let r := decodeString (ctx.enter "Opportunity" "name") o.Name v
    ({ o with Name := r.1 }, r.2)
  else if fieldMatch "headline" key then
    let r := decodeString (ctx.enter "Opportunity" "headline") o.Headline v
    ({ o with Headline := r.1 }, r.2)
  else if fieldMatch "contact" key then
    let r := decodeString (ctx.enter "Opportunity" "contact") o.ContactID v
    ({ o with ContactID := r.1 }, r.2)
  else if fieldMatch "stage" key then
    let r := decodeRawMessage (ctx.enter "Opportunity" "stage") o.Stage v
    ({ o with Stage := r.1 }, r.2)
  else if fieldMatch "stageChanges" key then
    let r := decodeSlice "[]model.StageChange" StageChange.zero decodeStageChange
      (ctx.enter "Opportunity" "stageChanges") o.StageChanges v
    ({ o with StageChanges := r.1 }, r.2)
  else if fieldMatch "confidentiality" key then
    let r := decodeString (ctx.enter "Opportunity" "confidentiality") o.Confidentiality v
    ({ o with Confidentiality := r.1 }, r.2)
  else if fieldMatch "location" key then
    let r := decodeString (ctx.enter "Opportunity" "location") o.Location v
    ({ o with Location := r.1 }, r.2)
  else if fieldMatch "phones" key then
    let r := decodeSlice "[]model.Phone" Phone.zero decodePhone
      (ctx.enter "Opportunity" "phones") o.Phones v
    ({ o with Phones := r.1 }, r.2)
  else if fieldMatch "emails" key then
    let r := decodeSlice "[]string" "" decodeString (ctx.enter "Opportunity" "emails") o.Emails v
    ({ o with Emails := r.1 }, r.2)
  else if fieldMatch "links" key then
    let r := decodeSlice "[]string" "" decodeString (ctx.enter "Opportunity" "links") o.Links v
    ({ o with Links := r.1 }, r.2)
  else if fieldMatch "archived" key then
    let r := decodePtr Archived.zero decodeArchived (ctx.enter "Opportunity" "archived")
      o.Archived v
    ({ o with Archived := r.1 }, r.2)
  else if fieldMatch "tags" key then
    let r := decodeSlice "[]string" "" decodeString (ctx.enter "Opportunity" "tags") o.Tags v
    ({ o with Tags := r.1 }, r.2)
  else if fieldMatch "sources" key then
    let r := decodeSlice "[]string" "" decodeString (ctx.enter "Opportunity" "sources")
      o.Sources v
    ({ o with Sources := r.1 }, r.2)
  else if fieldMatch "sourcedBy" key then
    let r := decodeRawMessage (ctx.enter "Opportunity" "sourcedBy") o.SourcedBy v
    ({ o with SourcedBy := r.1 }, r.2)
  else if fieldMatch "origin" key then
    let r := decodeString (ctx.enter "Opportunity" "origin") o.Origin v
    ({ o with Origin := r.1 }, r.2)
  else if fieldMatch "owner" key then
    let r := decodeRawMessage (ctx.enter "Opportunity" "owner") o.Owner v
    ({ o with Owner := r.1 }, r.2)
  else if fieldMatch "followers" key then
    let r := decodeRawMessage (ctx.enter "Opportunity" "followers") o.Followers v
    ({ o with Followers := r.1 }, r.2)
  else if fieldMatch "applications" key then
    let r := decodeSlice "[]string" "" decodeString (ctx.enter "Opportunity" "applications")
      o.ApplicationIDs v
    ({ o with ApplicationIDs := r.1 }, r.2)
  else if fieldMatch "createdAt" key then
    let r := decodePtr 0 decodeInt64 (ctx.enter "Opportunity" "createdAt") o.CreatedAt v
    ({ o with CreatedAt := r.1 }, r.2)
  else if fieldMatch "updatedAt" key then
    let r := decodePtr 0 decodeInt64 (ctx.enter "Opportunity" "updatedAt") o.UpdatedAt v
    ({ o with UpdatedAt := r.1 }, r.2)
  else if fieldMatch "lastInteractionAt" key then
    let r := decodePtr 0 decodeInt64 (ctx.enter "Opportunity" "lastInteractionAt")
      o.LastInteractionAt v
    ({ o with LastInteractionAt := r.1 }, r.2)
  else if fieldMatch "lastAdvancedAt" key then
    let r := decodePtr 0 decodeInt64 (ctx.enter "Opportunity" "lastAdvancedAt")
      o.LastAdvancedAt v
    ({ o with LastAdvancedAt := r.1 }, r.2)
  else if fieldMatch "snoozedUntil" key then
    let r := decodePtr 0 decodeInt64 (ctx.enter "Opportunity" "snoozedUntil") o.SnoozedUntil v
    ({ o with SnoozedUntil := r.1 }, r.2)
  else if fieldMatch "urls" key then
    let r := decodePtr OpportunityURLs.zero decodeOpportunityURLs
      (ctx.enter "Opportunity" "urls") o.URLs v
    ({ o with URLs := r.1 }, r.2)
  else if fieldMatch "dataProtection" key then
    let r := decodePtr OpportunityDataProtection.zero decodeDataProtection
      (ctx.enter "Opportunity" "dataProtection") o.DataProtection v
    ({ o with DataProtection := r.1 }, r.2)
  else if fieldMatch "isAnonymized" key then
    let r := decodeBool (ctx.enter "Opportunity" "isAnonymized") o.IsAnonymized v
    ({ o with IsAnonymized := r.1 }, r.2)
  else if fieldMatch "deletedBy" key then
    let r := decodeString (ctx.enter "Opportunity" "deletedBy") o.DeletedByID v
    ({ o with DeletedByID := r.1 }, r.2)
  else if fieldMatch "deletedAt" key then
    let r := decodePtr 0 decodeInt64 (ctx.enter "Opportunity" "deletedAt") o.DeletedAt v
    ({ o with DeletedAt := r.1 }, r.2)
  else if fieldMatch "oppoLocation" key then
    let r := decodeString (ctx.enter "Opportunity" "oppoLocation") o.OpportunityLocation v
    ({ o with OpportunityLocation := r.1 }, r.2)
  else (o, none)

/-- Decoder of `multimodel.Opportunity`. -/
def decodeRawOpportunity : Decoder multimodel.Opportunity :=
  decodeStruct "multimodel.Opportunity" rawOpportunityField

/-- One member of an object decoded into a `multimodel.FeedbackForm`: the
member `user` is kept as raw JSON. -/
def rawFeedbackFormField (ctx : ErrCtx) (f : multimodel.FeedbackForm) (key : String)
    (v : JSON) : multimodel.FeedbackForm × Option JsonError :=
  if fieldMatch "id" key then
    let r := decodeString (ctx.enter "FeedbackForm" "id") f.ID v
    ({ f with ID := r.1 }, r.2)
  else if fieldMatch "type" key then
    let r := decodeString (ctx.enter "FeedbackForm" "type") f.Type_ v
    ({ f with Type_ := r.1 }, r.2)
  else if fieldMatch "text" key then
    let r := decodeString (ctx.enter "FeedbackForm" "text") f.Text v
    ({ f with Text := r.1 }, r.2)
  else if fieldMatch "instructions" key then
    let r := decodeString (ctx.enter "FeedbackForm" "instructions") f.Instructions v
    ({ f with Instructions := r.1 }, r.2)
  else if fieldMatch "baseTemplate" key then
    let r := decodeString (ctx.enter "FeedbackForm" "baseTemplate") f.BaseTemplateID v
    ({ f with BaseTemplateID := r.1 }, r.2)
  else if fieldMatch "forms" key then
    let r := decodeSlice "[]interface {}" GoAny.nil decodeAny (ctx.enter "FeedbackForm" "forms")
      f.Forms v
    ({ f with Forms := r.1 }, r.2)
  else if fieldMatch "user" key then
    let r := decodeRawMessage (ctx.enter "FeedbackForm" "user") f.UserID v
    ({ f with UserID := r.1 }, r.2)
  else if fieldMatch "panel" key then
    let r := decodeString (ctx.enter "FeedbackForm" "panel") f.PanelID v
    ({ f with PanelID := r.1 }, r.2)
  else if fieldMatch "interview" key then
    let r := decodeString (ctx.enter "FeedbackForm" "interview") f.InterviewID v
    ({ f with InterviewID := r.1 }, r.2)
  else if fieldMatch "createdAt" key then
    let r := decodePtr 0 decodeInt64 (ctx.enter "FeedbackForm" "createdAt") f.CreatedAt v
    ({ f with CreatedAt := r.1 }, r.2)
  else if fieldMatch "updatedAt" key then
    let r := decodePtr 0 decodeInt64 (ctx.enter "FeedbackForm" "updatedAt") f.UpdatedAt v
    ({ f with UpdatedAt := r.1 }, r.2)
  else if fieldMatch "completedAt" key then
    let r := decodePtr 0 decodeInt64 (ctx.enter "FeedbackForm" "completedAt") f.CompletedAt v
    ({ f with CompletedAt := r.1 }, r.2)
  else if fieldMatch "deletedAt" key then
    let r := decodePtr 0 decodeInt64 (ctx.enter "FeedbackForm" "deletedAt") f.DeletedAt v
    ({ f with DeletedAt := r.1 }, r.2)
  else (f, none)

/-- Decoder of `multimodel.FeedbackForm`. -/
def decodeRawFeedbackForm : Decoder multimodel.FeedbackForm :=
  decodeStruct "multimodel.FeedbackForm" rawFeedbackFormField

end GoJSON

/-! ## The client package (`lever`): requests, responses and `exec` -/

namespace lever

/-- What the model keeps of an `*http.Response`: the status code, the status
line and the bytes its body delivers before it ends. -/
structure HTTPResponse where
  StatusCode : Int
  Status : String
  Body : List Char
  deriving DecidableEq, Repr

end lever

namespace model

/-- Struct `model.LeverError` (`model/error.go`). -/
structure LeverError where
  HTTPResponse : Option lever.HTTPResponse
  Code : String
  Message : String
  deriving DecidableEq, Repr

/-- The zero value of `model.LeverError`. -/
def LeverError.zero : LeverError := ⟨none, "", ""⟩

end model

namespace GoJSON

open model

/-- One member of an object decoded into a `model.LeverError`; the field
`HTTPResponse` is tagged `json:"-"`. -/
def leverErrorField (ctx : ErrCtx) (e : LeverError) (key : String) (v : JSON) :
    LeverError × Option JsonError :=
  if fieldMatch "code" key then
    let r := decodeString (ctx.enter "LeverError" "code") e.Code v
    ({ e with Code := r.1 }, r.2)
  else if fieldMatch "message" key then
    let r := decodeString (ctx.enter "LeverError" "message") e.Message v
    ({ e with Message := r.1 }, r.2)
  else (e, none)

/-- Decoder of `model.LeverError`. -/
def decodeLeverError : Decoder LeverError := decodeStruct "model.LeverError" leverErrorField

end GoJSON

namespace lever

open GoJSON model

/-- The Go `error` values the client returns: an error of `send` (building or
sending the request), the errors of the JSON decoders, and `*model.LeverError`. -/
inductive GoError where
  | send (msg : String)
  | json (e : JsonError)
  | eof
  | unexpectedEOF
  | leverError (e : LeverError)
  deriving DecidableEq, Repr

/-- The error value of a stream decoder as a Go `error`. -/
def GoError.ofStream : StreamError → GoError
  | .json e => .json e
  | .eof => .eof
  | .unexpectedEOF => .unexpectedEOF

/-- Whether the error is a `*model.LeverError` (what `errors.As` tells). -/
def GoError.isLeverError : GoError → Bool
  | .leverError _ => true
  | _ => false

/-- The status code a remote error carries. -/
def GoError.statusCode : GoError → Option Int
  | .leverError e => e.HTTPResponse.map HTTPResponse.StatusCode
  | _ => none

/-- Go's `fmt.Sprintf("%d", n)`. -/
def formatInt (n : Int) : String :=
  if n < 0 then "-" ++ Nat.repr n.natAbs else Nat.repr n.toNat

/-- Go's `url.Values`, a `map[string][]string`: the values of each key, none
for a key the map does not hold. -/
abbrev Values := String → List String

/-- `Values.Add`. -/
def Values.Add (q : Values) (key value : String) : Values :=
  fun k => if k = key then q k ++ [value] else q k

/-- The loop `for _, v := range vs { query.Add(key, v) }`. -/
def Values.AddAll (q : Values) (key : String) (vs : Option (List String)) : Values :=
  (vs.getD []).foldl (fun acc v => Values.Add acc key v) q

def paramOffset : String := "offset"
def paramLimit : String := "limit"
def paramInclude : String := "include"
def paramExpand : String := "expand"

/-- Struct `BaseRequest` (`reqresp.go`). -/
structure BaseRequest where
  Include : Option (List String)
  Expand : Option (List String)
  deriving DecidableEq, Repr

/-- `(*BaseRequest).AddAPIQueryParams`: `query` is the map before the call, the
result the map after it. -/
def BaseRequest.AddAPIQueryParams (br : BaseRequest) (query : Values) : Values :=
  Values.AddAll (Values.AddAll query paramInclude br.Include) paramExpand br.Expand

/-- Struct `BaseListRequest` (`reqresp.go`). -/
structure BaseListRequest where
  BaseRequest : BaseRequest
  Limit : Int
  Offset : String
  deriving DecidableEq, Repr

/-- `(*BaseListRequest).AddAPIQueryParams`. -/
def BaseListRequest.AddAPIQueryParams (blr : BaseListRequest) (query : Values) : Values :=
  let query := blr.BaseRequest.AddAPIQueryParams query
  let query := if blr.Offset ≠ "" then Values.Add query paramOffset blr.Offset else query
  if blr.Limit > 0 then Values.Add query paramLimit (formatInt blr.Limit) else query

/-- Struct `BaseResponse` (`reqresp.go`). -/
structure BaseResponse where
  HTTPResponse : Option HTTPResponse
  deriving DecidableEq, Repr

/-- Struct `BaseListResponse` (`reqresp.go`). -/
structure BaseListResponse where
  BaseResponse : BaseResponse
  Next : String
  HasNext : Bool
  deriving DecidableEq, Repr

/-- The zero value of `BaseListResponse`. -/
def BaseListResponse.zero : BaseListResponse := ⟨⟨none⟩, "", false⟩

/-- `(*BaseResponse).SetHTTPResponse`, promoted to `BaseListResponse`. -/
def BaseListResponse.SetHTTPResponse (r : BaseListResponse) (resp : HTTPResponse) :
    BaseListResponse :=
  { r with BaseResponse := ⟨some resp⟩ }

/-- `(*Client).exec` (`client.go`). `sent` is what `c.send` returned: an error,
or the HTTP response; `dec` and `setHTTPResponse` are the JSON decoder and the
method `SetHTTPResponse` of the type of `resp`. The result is the response
value after the call and the error. -/
def exec {ρ : Type} (sent : Except GoError HTTPResponse) (dec : Decoder ρ)
    (setHTTPResponse : ρ → HTTPResponse → ρ) (resp : ρ) : ρ × Option GoError :=
  match sent with
  | .error err => (resp, some err)
  | .ok httpResp =>
    if 200 ≤ httpResp.StatusCode ∧ httpResp.StatusCode < 300 then
      let r := decodeStream dec httpResp.Body resp
      match r.2 with
      | some err => (r.1, some (GoError.ofStream err))
      | none => (setHTTPResponse r.1 httpResp, none)
    else
      let r := decodeStream decodeLeverError httpResp.Body LeverError.zero
      match r.2 with
      | some err => (resp, some (GoError.ofStream err))
      | none => (resp, some (.leverError { r.1 with HTTPResponse := some httpResp }))

/-- Struct `GetStageResponse` (`stages.go`). -/
structure GetStageResponse where
  BaseResponse : BaseResponse
  Stage : Stage
  deriving DecidableEq, Repr

/-- The zero value of `GetStageResponse`. -/
def GetStageResponse.zero : GetStageResponse := ⟨⟨none⟩, Stage.zero⟩

/-- `SetHTTPResponse` of `GetStageResponse`. -/
def GetStageResponse.SetHTTPResponse (r : GetStageResponse) (resp : HTTPResponse) :
    GetStageResponse :=
  { r with BaseResponse := ⟨some resp⟩ }

/-- One member of an object decoded into a `GetStageResponse`. -/
def getStageResponseField (ctx : ErrCtx) (r : GetStageResponse) (key : String) (v : JSON) :
    GetStageResponse × Option JsonError :=
  if fieldMatch "data" key then
    let d := decodeStage (ctx.enter "GetStageResponse" "data") r.Stage v
    ({ r with Stage := d.1 }, d.2)
  else (r, none)

/-- Decoder of `GetStageResponse`. -/
def decodeGetStageResponse : Decoder GetStageResponse :=
  decodeStruct "lever.GetStageResponse" getStageResponseField

/-- `(*Client).GetStage` (`stages.go`). -/
def GetStage (sent : Except GoError HTTPResponse) : Option GetStageResponse × Option GoError :=
  let r := exec sent decodeGetStageResponse GetStageResponse.SetHTTPResponse GetStageResponse.zero
  match r.2 with
  | some err => (none, some err)
  | none => (some r.1, none)

/-- Struct `listOpportunitiesResponseJSON` (`opportunities.go`);
`listDeletedOpportunitiesResponseJSON` has the same fields and tags. -/
structure listOpportunitiesResponseJSON where
  BaseListResponse : BaseListResponse
  Opportunities : Option (List multimodel.Opportunity)
  deriving DecidableEq, Repr

/-- The zero value of `listOpportunitiesResponseJSON`. -/
def listOpportunitiesResponseJSON.zero : listOpportunitiesResponseJSON :=
  ⟨BaseListResponse.zero, none⟩

/-- `SetHTTPResponse` of `listOpportunitiesResponseJSON`. -/
def listOpportunitiesResponseJSON.SetHTTPResponse (r : listOpportunitiesResponseJSON)
    (resp : HTTPResponse) : listOpportunitiesResponseJSON :=
  { r with BaseListResponse := r.BaseListResponse.SetHTTPResponse resp }

/-- One member of an object decoded into a list response of raw opportunities
(`structName` is the name of the response struct): `next` and `hasNext` are
the fields of the embedded `BaseListResponse`. -/
def listOpportunitiesField (structName : String) (ctx : ErrCtx)
    (r : listOpportunitiesResponseJSON) (key : String) (v : JSON) :
    listOpportunitiesResponseJSON × Option JsonError :=
  if fieldMatch "next" key then
    let d := decodeString (ctx.enter structName "next") r.BaseListResponse.Next v
    ({ r with BaseListResponse := { r.BaseListResponse with Next := d.1 } }, d.2)
  else if fieldMatch "hasNext" key then
    let d := decodeBool (ctx.enter structName "hasNext") r.BaseListResponse.HasNext v
    ({ r with BaseListResponse := { r.BaseListResponse with HasNext := d.1 } }, d.2)
  else if fieldMatch "data" key then
    let d := decodeSlice "[]multimodel.Opportunity" multimodel.Opportunity.zero
      decodeRawOpportunity (ctx.enter structName "data") r.Opportunities v
    ({ r with Opportunities := d.1 }, d.2)
  else (r, none)

/-- Decoder of `listOpportunitiesResponseJSON`. -/
def decodeListOpportunitiesResponseJSON : Decoder listOpportunitiesResponseJSON :=
  decodeStruct "lever.listOpportunitiesResponseJSON"
    (listOpportunitiesField "listOpportunitiesResponseJSON")

/-- Decoder of `listDeletedOpportunitiesResponseJSON`. -/
def decodeListDeletedOpportunitiesResponseJSON : Decoder listOpportunitiesResponseJSON :=
  decodeStruct "lever.listDeletedOpportunitiesResponseJSON"
    (listOpportunitiesField "listDeletedOpportunitiesResponseJSON")

/-- Struct `ListOpportunitiesResponse` (`opportunities.go`);
`ListDeletedOpportunitiesResponse` has the same fields. -/
structure ListOpportunitiesResponse where
  BaseListResponse : BaseListResponse
  Opportunities : Option (List model.Opportunity)
  deriving DecidableEq, Repr

/-- The conversion loop of the list methods:
`for i := range data { err := data[i].ToModel(&opportunities[i]); if err != nil { return nil, err } }`
over a fresh slice of zero models; it yields the filled slice, or the error
that ended it. -/
def toModels : List multimodel.Opportunity → Except JsonError (List model.Opportunity)
  | [] => .ok []
  | o :: rest =>
    match (o.ToModel model.Opportunity.zero).2 with
    | some err => .error err
    | none =>
      match toModels rest with
      | .error err => .error err
      | .ok ms => .ok ((o.ToModel model.Opportunity.zero).1 :: ms)

/-- The list method on the decoder `dec` of its JSON response type. -/
def listOpportunitiesWith (dec : Decoder listOpportunitiesResponseJSON)
    (sent : Except GoError HTTPResponse) : Option ListOpportunitiesResponse × Option GoError :=
  let respJSON := exec sent dec listOpportunitiesResponseJSON.SetHTTPResponse
    listOpportunitiesResponseJSON.zero
  match respJSON.2 with
  | some err => (none, some err)
  | none =>
    -- Convert the response to the client type
    match toModels (respJSON.1.Opportunities.getD []) with
    | .error err => (none, some (.json err))
    | .ok opportunities =>
      (some ⟨respJSON.1.BaseListResponse, some opportunities⟩, none)

/-- `(*Client).ListOpportunities` (`opportunities.go`). -/
def ListOpportunities (sent : Except GoError HTTPResponse) :
    Option ListOpportunitiesResponse × Option GoError :=
  listOpportunitiesWith decodeListOpportunitiesResponseJSON sent

/-- `(*Client).ListDeletedOpportunities` (`opportunities.go`). -/
def ListDeletedOpportunities (sent : Except GoError HTTPResponse) :
    Option ListOpportunitiesResponse × Option GoError :=
  listOpportunitiesWith decodeListDeletedOpportunitiesResponseJSON sent

/-- `(*Client).DownloadResume` (`resumes.go`). -/
def DownloadResume (sent : Except GoError HTTPResponse) : Option HTTPResponse × Option GoError :=
  match sent with
  | .error err => (none, some err)
  | .ok httpResp =>
    if httpResp.StatusCode ≥ 300 then
      let r := decodeStream decodeLeverError httpResp.Body
        { LeverError.zero with HTTPResponse := some httpResp }
      match r.2 with
      | some _ =>
        (none, some (.leverError { r.1 with
          Code := httpResp.Status,
          Message := "Unexpected HTTP response status code: " ++ formatInt httpResp.StatusCode }))
      | none => (none, some (.leverError r.1))
    else (some httpResp, none)

end lever

/-! ## Specification-side definitions: nested projection of feedback forms -/

namespace multimodel

open GoJSON model

/-- Every raw feedback form projected with `FeedbackForm.ToModel` onto a fresh
model, in order, up to the first error. -/
def formsToModels : List FeedbackForm → Except JsonError (List model.FeedbackForm)
  | [] => .ok []
  | f :: rest =>
    match (f.ToModel model.FeedbackForm.zero).2 with
    | some err => .error err
    | none =>
      match formsToModels rest with
      | .error err => .error err
      | .ok ms => .ok ((f.ToModel model.FeedbackForm.zero).1 :: ms)

/-- The nested projection the specification describes for a `feedbackForms`
payload: each element is decoded as a `multimodel.FeedbackForm` and projected
with `FeedbackForm.ToModel`. -/
def nestedFeedbackForms (raw : List Char) :
    Option (List model.FeedbackForm) × Option JsonError :=
  let r := unmarshal (decodeSlice "[]multimodel.FeedbackForm" FeedbackForm.zero
    decodeRawFeedbackForm) raw none
  match r.2 with
  | some err => (none, some err)
  | none =>
    match formsToModels (r.1.getD []) with
    | .error err => (none, some err)
    | .ok ms => (some ms, none)

end multimodel

namespace testdata

open GoJSON model

/-- A `feedbackForms` payload: one feedback-form object whose user is a bare id. -/
def formsBareUser : List Char :=
  "[\x7b\"id\": \"f1\", \"user\": \"u1\"\x7d]".data

/-- A `feedbackForms` payload: one feedback-form object whose user is embedded. -/
def formsEmbeddedUser : List Char :=
  "[\x7b\"id\": \"f1\", \"user\": \x7b\"id\": \"u1\", \"name\": \"Chandler Bing\"\x7d\x7d]".data

/-- The embedded user of `formsEmbeddedUser`. -/
def formUser : model.User := { User.zero with ID := "u1", Name := "Chandler Bing" }

/-- An interview with the given `feedbackForms` payload. -/
def interviewWithForms (forms : List Char) : multimodel.Interview :=
  { multimodel.Interview.zero with ID := "i1", FeedbackForms := forms }

/-- The text `null`. -/
def nullPayload : List Char := "null".data

/-- An opportunity object as the server returns it for a created candidate
(after `TestCreateCandidate`): `sourcedBy` is JSON null. -/
def candidateObject : List Char :=
  ("\x7b\"id\": \"cb45668d-38b6-43dd-9ba5-bd325d50dbfc\", \"stage\": \"applicant-new\", " ++
   "\"sourcedBy\": null, \"owner\": \"68d28c32-e972-4f0f-81c7-83f2e9430293\", " ++
   "\"followers\": [\"68d28c32-e972-4f0f-81c7-83f2e9430293\"]\x7d").data

/-- The raw opportunity `candidateObject` decodes to. -/
def candidate : multimodel.Opportunity :=
  { multimodel.Opportunity.zero with
    ID := "cb45668d-38b6-43dd-9ba5-bd325d50dbfc",
    Stage := "\"applicant-new\"".data,
    SourcedBy := nullPayload,
    Owner := "\"68d28c32-e972-4f0f-81c7-83f2e9430293\"".data,
    Followers := "[\"68d28c32-e972-4f0f-81c7-83f2e9430293\"]".data }

/-- A payload that is neither an id, nor an object, nor an array. -/
def malformed : List Char := ['7']

/-- An opportunity whose stage is malformed. -/
def badStage : multimodel.Opportunity :=
  { multimodel.Opportunity.zero with ID := "o1", Stage := malformed }

/-- An opportunity whose `sourcedBy` is malformed in the same way. -/
def badSourcedBy : multimodel.Opportunity :=
  { multimodel.Opportunity.zero with ID := "o1", SourcedBy := malformed }

/-- An opportunity whose owner is malformed in the same way. -/
def badOwnerNumber : multimodel.Opportunity :=
  { multimodel.Opportunity.zero with ID := "o1", Owner := malformed }

/-- An opportunity whose followers are malformed in the same way. -/
def badFollowers : multimodel.Opportunity :=
  { multimodel.Opportunity.zero with ID := "o1", Followers := malformed }

/-- The stage object with indented formatting. -/
def stageIndented : List Char :=
  "\x7b\n\t\"id\": \"lead-new\",\n\t\"text\": \"New lead\"\n\x7d".data

/-- The stage object with compact formatting. -/
def stageCompact : List Char :=
  "\x7b\"id\":\"lead-new\",\"text\":\"New lead\"\x7d".data

/-- A payload of one blank. -/
def blankPayload : List Char := [' ']

/-- The response of the server for a stage that does not exist (after
`TestStages`). -/
def notFound : lever.HTTPResponse :=
  { StatusCode := 404, Status := "404 Not Found",
    Body := "\x7b\"code\": \"ResourceNotFound\", \"message\": \"Stage was not found\"\x7d".data }

/-- A response with a stage. -/
def stageFound : lever.HTTPResponse :=
  { StatusCode := 200, Status := "200 OK",
    Body := "\x7b\"data\": \x7b\"id\": \"lead-new\", \"text\": \"New lead\"\x7d\x7d\n".data }

/-- A response of a gateway in front of the server: not JSON. -/
def badGateway : lever.HTTPResponse :=
  { StatusCode := 502, Status := "502 Bad Gateway", Body := "<html>Bad Gateway</html>".data }

/-- A response without a body. -/
def unavailable : lever.HTTPResponse :=
  { StatusCode := 503, Status := "503 Service Unavailable", Body := [] }

/-- A page of two opportunities, the second with an embedded stage. -/
def page : lever.HTTPResponse :=
  { StatusCode := 200, Status := "200 OK",
    Body := ("\x7b\"data\": [\x7b\"id\": \"o1\", \"stage\": \"lead-new\"\x7d, " ++
      "\x7b\"id\": \"o2\", \"stage\": \x7b\"id\": \"offer\", \"text\": \"Offer\"\x7d, " ++
      "\"followers\": [\"u1\"]\x7d], \"hasNext\": true, \"next\": \"tok\"\x7d").data }

/-- The raw opportunities of `page`. -/
def pageData : List multimodel.Opportunity :=
  [ { multimodel.Opportunity.zero with ID := "o1", Stage := "\"lead-new\"".data },
    { multimodel.Opportunity.zero with
      ID := "o2",
      Stage := "\x7b\"id\":\"offer\",\"text\":\"Offer\"\x7d".data,
      Followers := "[\"u1\"]".data } ]

/-- A page whose second opportunity has a malformed owner and whose third has
a malformed stage. -/
def badPage : lever.HTTPResponse :=
  { StatusCode := 200, Status := "200 OK",
    Body := ("\x7b\"data\": [\x7b\"id\": \"o1\"\x7d, \x7b\"id\": \"o2\", \"owner\": 7\x7d, " ++
      "\x7b\"id\": \"o3\", \"stage\": []\x7d], \"hasNext\": false\x7d").data }

/-- The raw opportunities of `badPage`. -/
def badPageData : List multimodel.Opportunity :=
  [ { multimodel.Opportunity.zero with ID := "o1" },
    { multimodel.Opportunity.zero with ID := "o2", Owner := ['7'] },
    { multimodel.Opportunity.zero with ID := "o3", Stage := ['[', ']'] } ]

/-- A list request for the page after `tok`. -/
def nextPageRequest : lever.BaseListRequest :=
  { BaseRequest := { Include := none, Expand := some ["stage", "owner"] },
    Limit := 25, Offset := "tok" }

/-- An empty query. -/
def noQuery : lever.Values := fun _ => []

end testdata

namespace lever

open GoJSON

/-- A body of an error response: a JSON text of the object with the members
`code` and `message`. -/
def errorBody (code message : String) : List Char :=
  render (.obj [("code", .str code), ("message", .str message)])

end lever

/-! ## Go strings as bytes, `encoding/base64`, `net/url` escaping, header keys -/

namespace GoBytes

/-- The bytes of one code point in UTF-8. -/
def utf8EncodeChar (c : Char) : List Nat :=
  if c.toNat < 128 then [c.toNat]
  else if c.toNat < 2048 then [192 + c.toNat / 64, 128 + c.toNat % 64]
  else if c.toNat < 65536 then
    [224 + c.toNat / 4096, 128 + c.toNat / 64 % 64, 128 + c.toNat % 64]
  else
    [240 + c.toNat / 262144, 128 + c.toNat / 4096 % 64, 128 + c.toNat / 64 % 64,
      128 + c.toNat % 64]

/-- `[]byte(s)`: the bytes of a string (the model holds strings of code
points, so these are the bytes of valid UTF-8 strings). -/
def stringBytes (s : String) : List Nat := s.data.flatMap utf8EncodeChar

end GoBytes

namespace base64

/-- The alphabet of `base64.StdEncoding`. -/
def encodeStd : List Char :=
  "ABCDEFGHIJKLMNOPQRSTUVWXYZabcdefghijklmnopqrstuvwxyz0123456789+/".data

/-- The padding character of `base64.StdEncoding`. -/
def StdPadding : Char := '='

/-- The character for the 6-bit value `v` (`enc.encode[v]`). -/
def encodeValue (v : Nat) : Char := encodeStd.getD v StdPadding

/-- `(*Encoding).Encode` of `StdEncoding`: every three bytes give four
characters, and a last block of one or two bytes is padded. -/
def encode : List Nat → List Char
  | a :: b :: c :: rest =>
    encodeValue ((a * 65536 + b * 256 + c) / 262144 % 64)
      :: encodeValue ((a * 65536 + b * 256 + c) / 4096 % 64)
      :: encodeValue ((a * 65536 + b * 256 + c) / 64 % 64)
      :: encodeValue ((a * 65536 + b * 256 + c) % 64)
      :: encode rest
  | [a, b] =>
    [encodeValue ((a * 65536 + b * 256) / 262144 % 64),
      encodeValue ((a * 65536 + b * 256) / 4096 % 64),
      encodeValue ((a * 65536 + b * 256) / 64 % 64), StdPadding]
  | [a] =>
    [encodeValue (a * 65536 / 262144 % 64), encodeValue (a * 65536 / 4096 % 64),
      StdPadding, StdPadding]
  | [] => []

/-- `base64.StdEncoding.EncodeToString`. -/
def EncodeToString (src : List Nat) : String := String.mk (encode src)

/-- The 6-bit value of a character of the alphabet. -/
def decodeValue (c : Char) : Option Nat :=
  if encodeStd.indexOf c < 64 then some (encodeStd.indexOf c) else none

/-- Decoding of padded base64 (RFC 4648, section 4), the inverse the
specification of the encoding refers to: groups of four characters give three
bytes, and only the last group may end in one or two padding characters. -/
def decode : List Char → Option (List Nat)
  | [] => some []
  | [_] => none
  | [_, _] => none
  | [_, _, _] => none
  | c0 :: c1 :: c2 :: c3 :: rest =>
    match decodeValue c0, decodeValue c1 with
    | some v0, some v1 =>
      if c2 = StdPadding then
        (if c3 = StdPadding ∧ rest = [] then some [v0 * 4 + v1 / 16] else none)
      else
        match decodeValue c2 with
        | none => none
        | some v2 =>
          if c3 = StdPadding then
            (if rest = [] then some [v0 * 4 + v1 / 16, v1 % 16 * 16 + v2 / 4] else none)
          else
            match decodeValue c3, decode rest with
            | some v3, some bytes =>
              some ((v0 * 4 + v1 / 16) :: (v1 % 16 * 16 + v2 / 4) :: (v2 % 4 * 64 + v3) :: bytes)
            | _, _ => none
    | _, _ => none

end base64

namespace url

/-- The ASCII letters and digits. -/
def isAlnum (c : Nat) : Bool :=
  ('a'.toNat ≤ c && c ≤ 'z'.toNat) || ('A'.toNat ≤ c && c ≤ 'Z'.toNat)
    || ('0'.toNat ≤ c && c ≤ '9'.toNat)

/-- `shouldEscape(c, encodePathSegment)` (`net/url`): letters, digits and
the marks `-_.~` are never escaped; of the reserved characters
`$&+,/:;=?@` a path segment escapes `/`, `;`, `,` and `?`; every other byte
is escaped. -/
def shouldEscape (c : Nat) : Bool :=
  if isAlnum c then false
  else if c = '-'.toNat || c = '_'.toNat || c = '.'.toNat || c = '~'.toNat then false
  else if c = '$'.toNat || c = '&'.toNat || c = '+'.toNat || c = ','.toNat || c = '/'.toNat
      || c = ':'.toNat || c = ';'.toNat || c = '='.toNat || c = '?'.toNat || c = '@'.toNat then
    c = '/'.toNat || c = ';'.toNat || c = ','.toNat || c = '?'.toNat
  else true

/-- The hexadecimal digits of an escape. -/
def upperhex : List Char := "0123456789ABCDEF".data

/-- One byte of `escape(s, encodePathSegment)`. -/
def escapeByte (c : Nat) : List Char :=
  if shouldEscape c then ['%', upperhex.getD (c / 16) '0', upperhex.getD (c % 16) '0']
  else [Char.ofNat c]

/-- `url.PathEscape`. -/
def PathEscape (s : String) : String :=
  String.mk ((GoBytes.stringBytes s).flatMap escapeByte)

/-- The value of a hexadecimal digit (`unhex`), if it is one. -/
def unhex (c : Char) : Option Nat :=
  if '0' ≤ c ∧ c ≤ '9' then some (c.toNat - '0'.toNat)
  else if 'a' ≤ c ∧ c ≤ 'f' then some (c.toNat - 'a'.toNat + 10)
  else if 'A' ≤ c ∧ c ≤ 'F' then some (c.toNat - 'A'.toNat + 10)
  else none

/-- Percent-unescaping of a path segment, the inverse the specification of
the escaping refers to (`url.PathUnescape`): `%XX` gives the byte `XX`, any
other character gives its bytes, and a `%` not followed by two hexadecimal
digits is an error. -/
def percentUnescape : List Char → Option (List Nat)
  | [] => some []
  | [c] => if c = '%' then none else some (GoBytes.utf8EncodeChar c)
  | [c, d] =>
    if c = '%' then none
    else (percentUnescape [d]).map (fun bytes => GoBytes.utf8EncodeChar c ++ bytes)
  | c :: h1 :: h2 :: rest =>
    if c = '%' then
      match unhex h1, unhex h2, percentUnescape rest with
      | some x, some y, some bytes => some ((x * 16 + y) :: bytes)
      | _, _, _ => none
    else
      (percentUnescape (h1 :: h2 :: rest)).map (fun bytes => GoBytes.utf8EncodeChar c ++ bytes)

end url

namespace textproto

/-- `validHeaderFieldByte`: the token characters of RFC 7230. -/
def validHeaderFieldByte (c : Char) : Bool :=
  url.isAlnum c.toNat
    || c = '!' || c = '#' || c = '$' || c = '%' || c = '&' || c = Char.ofNat 39 || c = '*'
    || c = '+' || c = '-' || c = '.' || c = '^' || c = '_' || c = Char.ofNat 96 || c = '|'
    || c = '~'

/-- The loop of `canonicalMIMEHeaderKey`: the first letter and every letter
after a dash in upper case, every other letter in lower case. -/
def canonicalLoop : Bool → List Char → List Char
  | _, [] => []
  | upper, c :: cs =>
    if upper && ('a' ≤ c && c ≤ 'z') then
      Char.ofNat (c.toNat - 32) :: canonicalLoop (Char.ofNat (c.toNat - 32) = '-') cs
    else if !upper && ('A' ≤ c && c ≤ 'Z') then
      Char.ofNat (c.toNat + 32) :: canonicalLoop (Char.ofNat (c.toNat + 32) = '-') cs
    else c :: canonicalLoop (c = '-') cs

/-- `textproto.CanonicalMIMEHeaderKey`: a key with a byte that is not a token
character is returned unchanged. -/
def CanonicalMIMEHeaderKey (s : String) : String :=
  if s.data.all validHeaderFieldByte then String.mk (canonicalLoop true s.data) else s

end textproto

/-! ## `net/http`: headers and requests -/

namespace http

/-- `http.Header`, a `map[string][]string`: the values of a key, `none` for a
key the map does not hold. -/
abbrev Header := String → Option (List String)

/-- An empty header map. -/
def Header.empty : Header := fun _ => none

/-- `Header.Set`: the values of the canonical form of `key` are replaced by
the single value. -/
def Header.Set (h : Header) (key value : String) : Header :=
  fun k => if k = textproto.CanonicalMIMEHeaderKey key then some [value] else h k

/-- What the model keeps of an `*http.Request`: the method, the URL without
its query, the values encoded into the query of the URL, the headers and the
body (`none` for a nil body). -/
structure Request where
  Method : String
  URL : String
  Query : lever.Values
  Header : Header
  Body : Option (List Char)

/-- `validMethod`: a method is a non-empty token. -/
def validMethod (method : String) : Bool :=
  !method.data.isEmpty && method.data.all textproto.validHeaderFieldByte

/-- `http.NewRequestWithContext` with a context that is not nil, on a URL that
`url.Parse` has already accepted: an empty method means GET, and a method
that is not a token is an error. Of the error the model keeps the origin. -/
def NewRequestWithContext (method url : String) (query : lever.Values)
    (body : Option (List Char)) : Except lever.GoError Request :=
  if validMethod (if method = "" then "GET" else method) then
    .ok ⟨if method = "" then "GET" else method, url, query, Header.empty, body⟩
  else .error (.send "net/http: invalid method")

def MethodGet : String := "GET"
def MethodPost : String := "POST"
def MethodPut : String := "PUT"

end http

/-! ## The client package (`lever`): the client, its options and `send` -/

namespace Go

/-- The outcome of a call that may end in the run-time panic of a nil pointer
dereference instead of returning. -/
inductive Outcome (α : Type) where
  | returns (a : α)
  | nilDereference
  deriving DecidableEq, Repr

end Go

namespace lever

open GoJSON model

def defaultAccept : String := "application/json"
def defaultBaseURL : String := "https://api.lever.co/v1"
def defaultUserAgent : String := "lever-data-api-go/0.0.1"
def mimeTypeApplicationJSON : String := "application/json"
def headerAccept : String := "Accept"
def headerAuthorization : String := "Authorization"
def headerContentType : String := "Content-Type"
def headerUserAgent : String := "User-Agent"
def paramPerformAs : String := "perform_as"

/-- Interface `RequestInterface` (`reqresp.go`): an interface value is the
table of the five methods of the request behind it. `GetBody` gives the bytes
the returned reader delivers (`none` for a nil reader) or the error. -/
structure RequestInterface where
  GetPath : String
  GetHTTPMethod : String
  GetContentType : String
  GetBody : Except GoError (Option (List Char))
  AddAPIQueryParams : Values → Values

/-- `(*BaseRequest).GetHTTPMethod`. -/
def BaseRequest.GetHTTPMethod (_ : BaseRequest) : String := http.MethodGet

/-- `(*BaseRequest).GetBody`. -/
def BaseRequest.GetBody (_ : BaseRequest) : Except GoError (Option (List Char)) := .ok none

/-- `(*BaseRequest).GetContentType`. -/
def BaseRequest.GetContentType (_ : BaseRequest) : String := mimeTypeApplicationJSON

/-- Struct `Client` (`client.go`); `httpClient` is the method `Do` of the HTTP
client. -/
structure Client where
  baseURL : String
  httpClient : http.Request → Except GoError HTTPResponse
  preSend : List (http.Request → http.Request × Option GoError)

/-- `NewClient`; `net` is `Do` of the default `&http.Client{}`. -/
def NewClient (net : http.Request → Except GoError HTTPResponse) (opts : List (Client → Client)) :
    Client :=
  opts.foldl (fun c opt => opt c) ⟨defaultBaseURL, net, []⟩

/-- `WithBaseURL`. -/
def WithBaseURL (baseURL : String) : Client → Client :=
  fun c => { c with baseURL := baseURL }

/-- `WithHTTPClient`. -/
def WithHTTPClient (httpClient : http.Request → Except GoError HTTPResponse) : Client → Client :=
  fun c => { c with httpClient := httpClient }

/-- `WithHeader`: the option appends to `preSend` a function that sets the
header on the request and returns nil. -/
def WithHeader (header value : String) : Client → Client :=
  fun c => { c with
    preSend := c.preSend ++ [fun req => ({ req with Header := req.Header.Set header value }, none)] }

/-- `WithAPIKey`. -/
def WithAPIKey (apiKey : String) : Client → Client :=
  let authValue := "Basic " ++ base64.EncodeToString (GoBytes.stringBytes (apiKey ++ ":"))
  WithHeader headerAuthorization authValue

/-- `WithUserAgent`. -/
def WithUserAgent (userAgent : String) : Client → Client :=
  WithHeader headerUserAgent userAgent

/-- The loop over `c.preSend` in `send`: it stops at the first error. -/
def runPreSend : List (http.Request → http.Request × Option GoError) → http.Request →
    Except GoError http.Request
  | [], httpReq => .ok httpReq
  | preSend :: rest, httpReq =>
    match (preSend httpReq).2 with
    | some err => .error err
    | none => runPreSend rest (preSend httpReq).1

/-- `(*Client).send` (`client.go`) up to the call of `c.httpClient.Do`: the
request that is sent, or the error that ends `send` before. `urlQuery` is
`url.Parse` followed by `Query()`: the values of the query of a URL, or the
error of `url.Parse`. -/
def buildRequest (c : Client) (req : RequestInterface)
    (urlQuery : String → Except GoError Values) : Except GoError http.Request :=
  let reqURLStr := c.baseURL ++ "/" ++ req.GetPath
  match urlQuery reqURLStr with
  | .error err => .error err
  | .ok query =>
    -- Add include=, expand=, limit=, and offset= query parameters to the URL.
    let query := req.AddAPIQueryParams query
    let method := req.GetHTTPMethod
    match req.GetBody with
    | .error err => .error err
    | .ok body =>
      match http.NewRequestWithContext method reqURLStr query body with
      | .error err => .error err
      | .ok httpReq =>
        -- Set default headers
        let header := (httpReq.Header.Set headerAccept defaultAccept).Set headerUserAgent
          defaultUserAgent
        -- Is there a body?
        let header := if body.isSome then header.Set headerContentType req.GetContentType
          else header
        -- Call preSend functions to modify the request.
        runPreSend c.preSend { httpReq with Header := header }

/-- `(*Client).send`. -/
def send (c : Client) (req : RequestInterface) (urlQuery : String → Except GoError Values) :
    Except GoError HTTPResponse :=
  match buildRequest c req urlQuery with
  | .error err => .error err
  | .ok httpReq => c.httpClient httpReq

/-! ### Requests of the opportunity endpoints -/

/-- Struct `GetOpportunityRequest` (`opportunities.go`). -/
structure GetOpportunityRequest where
  BaseRequest : BaseRequest
  OpportunityID : String
  deriving DecidableEq, Repr

/-- `(*GetOpportunityRequest).GetPath`. -/
def GetOpportunityRequest.GetPath (r : GetOpportunityRequest) : String :=
  "opportunities/" ++ url.PathEscape r.OpportunityID

/-- Struct `GetStageRequest` (`stages.go`). -/
structure GetStageRequest where
  BaseRequest : BaseRequest
  ID : String
  deriving DecidableEq, Repr

/-- `(*GetStageRequest).GetPath`. -/
def GetStageRequest.GetPath (r : GetStageRequest) : String :=
  "stages/" ++ url.PathEscape r.ID

/-- Struct `GetUserRequest` (`users.go`). -/
structure GetUserRequest where
  BaseRequest : BaseRequest
  UserId : String
  deriving DecidableEq, Repr

/-- `(*GetUserRequest).GetPath`. -/
def GetUserRequest.GetPath (r : GetUserRequest) : String :=
  "users/" ++ url.PathEscape r.UserId

/-- Struct `UpdateOpportunityStageRequest` (`opportunities.go`). -/
structure UpdateOpportunityStageRequest where
  BaseRequest : BaseRequest
  OpportunityID : String
  StageID : String
  PerformAsID : String
  deriving DecidableEq, Repr

/-- `(*UpdateOpportunityStageRequest).GetPath`. -/
def UpdateOpportunityStageRequest.GetPath (r : UpdateOpportunityStageRequest) : String :=
  "opportunities/" ++ url.PathEscape r.OpportunityID ++ "/stage"

/-- `(*UpdateOpportunityStageRequest).GetMethod`. -/
def UpdateOpportunityStageRequest.GetMethod (_ : UpdateOpportunityStageRequest) : String :=
  http.MethodPut

/-- `(*UpdateOpportunityStageRequest).AddAPIQueryParams`. -/
def UpdateOpportunityStageRequest.AddAPIQueryParams (r : UpdateOpportunityStageRequest)
    (query : Values) : Values :=
  let query := r.BaseRequest.AddAPIQueryParams query
  if r.PerformAsID ≠ "" then Values.Add query paramPerformAs r.PerformAsID else query

/-- The type declares no `GetHTTPMethod`: the method of that name in its
method set is the one promoted from the embedded `BaseRequest`. -/
def UpdateOpportunityStageRequest.GetHTTPMethod (r : UpdateOpportunityStageRequest) : String :=
  r.BaseRequest.GetHTTPMethod

/-- The request as a `RequestInterface`: `GetPath` and `AddAPIQueryParams` are
declared by the type, `GetHTTPMethod` and `GetContentType` are promoted from
`BaseRequest`; `body` is what the declared `GetBody` returns, the JSON
encoding of the body. -/
def UpdateOpportunityStageRequest.asRequest (r : UpdateOpportunityStageRequest)
    (body : Except GoError (Option (List Char))) : RequestInterface :=
  ⟨r.GetPath, r.GetHTTPMethod, r.BaseRequest.GetContentType, body, r.AddAPIQueryParams⟩

/-- Struct `UpdateOpportunityArchivedStateRequest` (`opportunities.go`). -/
structure UpdateOpportunityArchivedStateRequest where
  BaseRequest : BaseRequest
  OpportunityID : String
  ReasonID : String
  CleanInterviews : Bool
  RequisitionID : String
  PerformAsID : String
  deriving DecidableEq, Repr

/-- `(*UpdateOpportunityArchivedStateRequest).GetPath`. -/
def UpdateOpportunityArchivedStateRequest.GetPath (r : UpdateOpportunityArchivedStateRequest) :
    String :=
  "opportunities/" ++ url.PathEscape r.OpportunityID ++ "/archived"

/-- `(*UpdateOpportunityArchivedStateRequest).GetMethod`. -/
def UpdateOpportunityArchivedStateRequest.GetMethod (_ : UpdateOpportunityArchivedStateRequest) :
    String :=
  http.MethodPut

/-- `(*UpdateOpportunityArchivedStateRequest).AddAPIQueryParams`. -/
def UpdateOpportunityArchivedStateRequest.AddAPIQueryParams
    (r : UpdateOpportunityArchivedStateRequest) (query : Values) : Values :=
  let query := r.BaseRequest.AddAPIQueryParams query
  if r.PerformAsID ≠ "" then Values.Add query paramPerformAs r.PerformAsID else query

/-- The type declares no `GetHTTPMethod`: the one of `BaseRequest` is promoted. -/
def UpdateOpportunityArchivedStateRequest.GetHTTPMethod
    (r : UpdateOpportunityArchivedStateRequest) : String :=
  r.BaseRequest.GetHTTPMethod

/-- The request as a `RequestInterface`. -/
def UpdateOpportunityArchivedStateRequest.asRequest (r : UpdateOpportunityArchivedStateRequest)
    (body : Except GoError (Option (List Char))) : RequestInterface :=
  ⟨r.GetPath, r.GetHTTPMethod, r.BaseRequest.GetContentType, body, r.AddAPIQueryParams⟩

/-- Struct `AddOpportunityLinksRequest` (`opportunities.go`). -/
structure AddOpportunityLinksRequest where
  BaseRequest : BaseRequest
  OpportunityID : String
  Links : Option (List String)
  PerformAsID : String
  deriving DecidableEq, Repr

/-- `(*AddOpportunityLinksRequest).GetPath`. -/
def AddOpportunityLinksRequest.GetPath (r : AddOpportunityLinksRequest) : String :=
  "opportunities/" ++ url.PathEscape r.OpportunityID ++ "/addLinks"

/-- `(*AddOpportunityLinksRequest).GetMethod`. -/
def AddOpportunityLinksRequest.GetMethod (_ : AddOpportunityLinksRequest) : String :=
  http.MethodPost

/-- `(*AddOpportunityLinksRequest).AddAPIQueryParams`. -/
def AddOpportunityLinksRequest.AddAPIQueryParams (r : AddOpportunityLinksRequest)
    (query : Values) : Values :=
  let query := r.BaseRequest.AddAPIQueryParams query
  if r.PerformAsID ≠ "" then Values.Add query paramPerformAs r.PerformAsID else query

/-- The type declares no `GetHTTPMethod`: the one of `BaseRequest` is promoted. -/
def AddOpportunityLinksRequest.GetHTTPMethod (r : AddOpportunityLinksRequest) : String :=
  r.BaseRequest.GetHTTPMethod

/-- The request as a `RequestInterface`. -/
def AddOpportunityLinksRequest.asRequest (r : AddOpportunityLinksRequest)
    (body : Except GoError (Option (List Char))) : RequestInterface :=
  ⟨r.GetPath, r.GetHTTPMethod, r.BaseRequest.GetContentType, body, r.AddAPIQueryParams⟩

/-- Struct `RemoveOpportunityLinksRequest` (`opportunities.go`). -/
structure RemoveOpportunityLinksRequest where
  BaseRequest : BaseRequest
  OpportunityID : String
  Links : Option (List String)
  PerformAsID : String
  deriving DecidableEq, Repr

/-- `(*RemoveOpportunityLinksRequest).GetPath`. -/
def RemoveOpportunityLinksRequest.GetPath (r : RemoveOpportunityLinksRequest) : String :=
  "opportunities/" ++ url.PathEscape r.OpportunityID ++ "/removeLinks"

/-- `(*RemoveOpportunityLinksRequest).GetMethod`. -/
def RemoveOpportunityLinksRequest.GetMethod (_ : RemoveOpportunityLinksRequest) : String :=
  http.MethodPost

/-- `(*RemoveOpportunityLinksRequest).RemoveAPIQueryParams`. -/
def RemoveOpportunityLinksRequest.RemoveAPIQueryParams (r : RemoveOpportunityLinksRequest)
    (query : Values) : Values :=
  let query := r.BaseRequest.AddAPIQueryParams query
  if r.PerformAsID ≠ "" then Values.Add query paramPerformAs r.PerformAsID else query

/-- The type declares no `GetHTTPMethod`: the one of `BaseRequest` is promoted. -/
def RemoveOpportunityLinksRequest.GetHTTPMethod (r : RemoveOpportunityLinksRequest) : String :=
  r.BaseRequest.GetHTTPMethod

/-- The type declares no `AddAPIQueryParams`: the one of `BaseRequest` is
promoted. -/
def RemoveOpportunityLinksRequest.AddAPIQueryParams (r : RemoveOpportunityLinksRequest)
    (query : Values) : Values :=
  r.BaseRequest.AddAPIQueryParams query

/-- The request as a `RequestInterface`. -/
def RemoveOpportunityLinksRequest.asRequest (r : RemoveOpportunityLinksRequest)
    (body : Except GoError (Option (List Char))) : RequestInterface :=
  ⟨r.GetPath, r.GetHTTPMethod, r.BaseRequest.GetContentType, body, r.AddAPIQueryParams⟩

/-- Struct `AddOpportunityTagsRequest` (`opportunities.go`). -/
structure AddOpportunityTagsRequest where
  BaseRequest : BaseRequest
  OpportunityID : String
  Tags : Option (List String)
  PerformAsID : String
  deriving DecidableEq, Repr

/-- `(*AddOpportunityTagsRequest).GetPath`. -/
def AddOpportunityTagsRequest.GetPath (r : AddOpportunityTagsRequest) : String :=
  "opportunities/" ++ url.PathEscape r.OpportunityID ++ "/addTags"

/-- `(*AddOpportunityTagsRequest).GetMethod`. -/
def AddOpportunityTagsRequest.GetMethod (_ : AddOpportunityTagsRequest) : String :=
  http.MethodPost

/-- `(*AddOpportunityTagsRequest).AddAPIQueryParams`. -/
def AddOpportunityTagsRequest.AddAPIQueryParams (r : AddOpportunityTagsRequest)
    (query : Values) : Values :=
  let query := r.BaseRequest.AddAPIQueryParams query
  if r.PerformAsID ≠ "" then Values.Add query paramPerformAs r.PerformAsID else query

/-- The type declares no `GetHTTPMethod`: the one of `BaseRequest` is promoted. -/
def AddOpportunityTagsRequest.GetHTTPMethod (r : AddOpportunityTagsRequest) : String :=
  r.BaseRequest.GetHTTPMethod

/-- The request as a `RequestInterface`. -/
def AddOpportunityTagsRequest.asRequest (r : AddOpportunityTagsRequest)
    (body : Except GoError (Option (List Char))) : RequestInterface :=
  ⟨r.GetPath, r.GetHTTPMethod, r.BaseRequest.GetContentType, body, r.AddAPIQueryParams⟩

/-- Struct `RemoveOpportunityTagsRequest` (`opportunities.go`). -/
structure RemoveOpportunityTagsRequest where
  BaseRequest : BaseRequest
  OpportunityID : String
  Tags : Option (List String)
  PerformAsID : String
  deriving DecidableEq, Repr

/-- `(*RemoveOpportunityTagsRequest).GetPath`. -/
def RemoveOpportunityTagsRequest.GetPath (r : RemoveOpportunityTagsRequest) : String :=
  "opportunities/" ++ url.PathEscape r.OpportunityID ++ "/removeTags"

/-- `(*RemoveOpportunityTagsRequest).GetMethod`. -/
def RemoveOpportunityTagsRequest.GetMethod (_ : RemoveOpportunityTagsRequest) : String :=
  http.MethodPost

/-- `(*RemoveOpportunityTagsRequest).RemoveAPIQueryParams`. -/
def RemoveOpportunityTagsRequest.RemoveAPIQueryParams (r : RemoveOpportunityTagsRequest)
    (query : Values) : Values :=
  let query := r.BaseRequest.AddAPIQueryParams query
  if r.PerformAsID ≠ "" then Values.Add query paramPerformAs r.PerformAsID else query

/-- The type declares no `GetHTTPMethod`: the one of `BaseRequest` is promoted. -/
def RemoveOpportunityTagsRequest.GetHTTPMethod (r : RemoveOpportunityTagsRequest) : String :=
  r.BaseRequest.GetHTTPMethod

/-- The type declares no `AddAPIQueryParams`: the one of `BaseRequest` is
promoted. -/
def RemoveOpportunityTagsRequest.AddAPIQueryParams (r : RemoveOpportunityTagsRequest)
    (query : Values) : Values :=
  r.BaseRequest.AddAPIQueryParams query

/-- The request as a `RequestInterface`. -/
def RemoveOpportunityTagsRequest.asRequest (r : RemoveOpportunityTagsRequest)
    (body : Except GoError (Option (List Char))) : RequestInterface :=
  ⟨r.GetPath, r.GetHTTPMethod, r.BaseRequest.GetContentType, body, r.AddAPIQueryParams⟩

/-- Struct `AddOpportunitySourcesRequest` (`opportunities.go`). -/
structure AddOpportunitySourcesRequest where
  BaseRequest : BaseRequest
  OpportunityID : String
  Sources : Option (List String)
  PerformAsID : String
  deriving DecidableEq, Repr

/-- `(*AddOpportunitySourcesRequest).GetPath`. -/
def AddOpportunitySourcesRequest.GetPath (r : AddOpportunitySourcesRequest) : String :=
  "opportunities/" ++ url.PathEscape r.OpportunityID ++ "/addSources"

/-- `(*AddOpportunitySourcesRequest).GetMethod`. -/
def AddOpportunitySourcesRequest.GetMethod (_ : AddOpportunitySourcesRequest) : String :=
  http.MethodPost

/-- `(*AddOpportunitySourcesRequest).AddAPIQueryParams`. -/
def AddOpportunitySourcesRequest.AddAPIQueryParams (r : AddOpportunitySourcesRequest)
    (query : Values) : Values :=
  let query := r.BaseRequest.AddAPIQueryParams query
  if r.PerformAsID ≠ "" then Values.Add query paramPerformAs r.PerformAsID else query

/-- The type declares no `GetHTTPMethod`: the one of `BaseRequest` is promoted. -/
def AddOpportunitySourcesRequest.GetHTTPMethod (r : AddOpportunitySourcesRequest) : String :=
  r.BaseRequest.GetHTTPMethod

/-- The request as a `RequestInterface`. -/
def AddOpportunitySourcesRequest.asRequest (r : AddOpportunitySourcesRequest)
    (body : Except GoError (Option (List Char))) : RequestInterface :=
  ⟨r.GetPath, r.GetHTTPMethod, r.BaseRequest.GetContentType, body, r.AddAPIQueryParams⟩

/-- Struct `RemoveOpportunitySourcesRequest` (`opportunities.go`). -/
structure RemoveOpportunitySourcesRequest where
  BaseRequest : BaseRequest
  OpportunityID : String
  Sources : Option (List String)
  PerformAsID : String
  deriving DecidableEq, Repr

/-- `(*RemoveOpportunitySourcesRequest).GetPath`. -/
def RemoveOpportunitySourcesRequest.GetPath (r : RemoveOpportunitySourcesRequest) : String :=
  "opportunities/" ++ url.PathEscape r.OpportunityID ++ "/removeSources"

/-- `(*RemoveOpportunitySourcesRequest).GetMethod`. -/
def RemoveOpportunitySourcesRequest.GetMethod (_ : RemoveOpportunitySourcesRequest) : String :=
  http.MethodPost

/-- `(*RemoveOpportunitySourcesRequest).RemoveAPIQueryParams`. -/
def RemoveOpportunitySourcesRequest.RemoveAPIQueryParams (r : RemoveOpportunitySourcesRequest)
    (query : Values) : Values :=
  let query := r.BaseRequest.AddAPIQueryParams query
  if r.PerformAsID ≠ "" then Values.Add query paramPerformAs r.PerformAsID else query

/-- The type declares no `GetHTTPMethod`: the one of `BaseRequest` is promoted. -/
def RemoveOpportunitySourcesRequest.GetHTTPMethod (r : RemoveOpportunitySourcesRequest) :
    String :=
  r.BaseRequest.GetHTTPMethod

/-- The type declares no `AddAPIQueryParams`: the one of `BaseRequest` is
promoted. -/
def RemoveOpportunitySourcesRequest.AddAPIQueryParams (r : RemoveOpportunitySourcesRequest)
    (query : Values) : Values :=
  r.BaseRequest.AddAPIQueryParams query

/-- The request as a `RequestInterface`. -/
def RemoveOpportunitySourcesRequest.asRequest (r : RemoveOpportunitySourcesRequest)
    (body : Except GoError (Option (List Char))) : RequestInterface :=
  ⟨r.GetPath, r.GetHTTPMethod, r.BaseRequest.GetContentType, body, r.AddAPIQueryParams⟩

end lever

namespace model

/-- Struct `model.ContactLocation` (`model/contact.go`). -/
structure ContactLocation where
  Name : String
  deriving DecidableEq, Repr

/-- Struct `model.Contact` (`model/contact.go`). -/
structure Contact where
  ID : String
  Name : String
  Headline : String
  Location : Option ContactLocation
  Emails : Option (List String)
  IsAnonymized : Bool
  Phones : Option (List Phone)
  deriving DecidableEq, Repr

end model

namespace lever

open GoJSON model

/-- Struct `UpdateContactRequest` (`contacts.go`). -/
structure UpdateContactRequest where
  BaseRequest : BaseRequest
  Contact : Option model.Contact
  deriving DecidableEq, Repr

/-- `(*UpdateContactRequest).GetPath`; it reads the id through the pointer
`r.Contact`. -/
def UpdateContactRequest.GetPath (r : UpdateContactRequest) : Go.Outcome String :=
  match r.Contact with
  | none => .nilDereference
  | some contact => .returns ("contacts/" ++ url.PathEscape contact.ID)

/-- `(*UpdateContactRequest).GetMethod`. -/
def UpdateContactRequest.GetMethod (_ : UpdateContactRequest) : String := http.MethodPut

/-- The type declares no `GetHTTPMethod`: the one of `BaseRequest` is promoted. -/
def UpdateContactRequest.GetHTTPMethod (r : UpdateContactRequest) : String :=
  r.BaseRequest.GetHTTPMethod

/-- The type declares no `AddAPIQueryParams`: the one of `BaseRequest` is
promoted. -/
def UpdateContactRequest.AddAPIQueryParams (r : UpdateContactRequest) (query : Values) :
    Values :=
  r.BaseRequest.AddAPIQueryParams query

/-- The request, with a contact, as a `RequestInterface`. -/
def UpdateContactRequest.asRequest (r : UpdateContactRequest) (contact : model.Contact)
    (body : Except GoError (Option (List Char))) : RequestInterface :=
  ⟨"contacts/" ++ url.PathEscape contact.ID, r.GetHTTPMethod, r.BaseRequest.GetContentType, body,
    r.AddAPIQueryParams⟩

end lever

/-! ## The client package (`lever`): single opportunities, and the error text -/

namespace lever

open GoJSON model

/-- Go's `fmt.Sprintf("%03d", n)`: the decimal digits padded with zeros to the
width 3, of which a minus sign takes one. -/
def formatInt03 (n : Int) : String :=
  if n < 0 then
    "-" ++ String.mk (List.replicate (2 - (Nat.repr n.natAbs).length) '0') ++ Nat.repr n.natAbs
  else String.mk (List.replicate (3 - (Nat.repr n.toNat).length) '0') ++ Nat.repr n.toNat

end lever

namespace model

/-- `(*LeverError).Error` (`model/error.go`); it reads the status code through
the pointer `e.HTTPResponse`. -/
def LeverError.Error (e : LeverError) : Go.Outcome String :=
  match e.HTTPResponse with
  | none => .nilDereference
  | some httpResponse =>
    .returns ("LeverError: " ++ lever.formatInt03 httpResponse.StatusCode ++ " " ++ e.Code
      ++ ": " ++ e.Message)

end model

namespace lever

open GoJSON model

/-- The call `o.ToModel(&result)` on a pointer `o` (`(*Opportunity).ToModel`):
the method reads the fields of `*o`, first `o.ID`. -/
def toModelAt (o : Option multimodel.Opportunity) (result : model.Opportunity) :
    Go.Outcome (model.Opportunity × Option JsonError) :=
  match o with
  | none => .nilDereference
  | some opportunity => .returns (opportunity.ToModel result)

/-- Struct `getOpportunityResponseJSON` (`opportunities.go`). -/
structure getOpportunityResponseJSON where
  BaseResponse : BaseResponse
  Opportunity : Option multimodel.Opportunity
  deriving DecidableEq, Repr

/-- The zero value of `getOpportunityResponseJSON`. -/
def getOpportunityResponseJSON.zero : getOpportunityResponseJSON := ⟨⟨none⟩, none⟩

/-- `SetHTTPResponse` of `getOpportunityResponseJSON`. -/
def getOpportunityResponseJSON.SetHTTPResponse (r : getOpportunityResponseJSON)
    (resp : HTTPResponse) : getOpportunityResponseJSON :=
  { r with BaseResponse := ⟨some resp⟩ }

/-- One member of an object decoded into a `getOpportunityResponseJSON`. -/
def getOpportunityField (ctx : ErrCtx) (r : getOpportunityResponseJSON) (key : String)
    (v : JSON) : getOpportunityResponseJSON × Option JsonError :=
  if fieldMatch "data" key then
    let d := decodePtr multimodel.Opportunity.zero decodeRawOpportunity
      (ctx.enter "getOpportunityResponseJSON" "data") r.Opportunity v
    ({ r with Opportunity := d.1 }, d.2)
  else (r, none)

/-- Decoder of `getOpportunityResponseJSON`. -/
def decodeGetOpportunityResponseJSON : Decoder getOpportunityResponseJSON :=
  decodeStruct "lever.getOpportunityResponseJSON" getOpportunityField

/-- Struct `GetOpportunityResponse` (`opportunities.go`). -/
structure GetOpportunityResponse where
  BaseResponse : BaseResponse
  Opportunity : Option model.Opportunity
  deriving DecidableEq, Repr

/-- `(*Client).GetOpportunity` (`opportunities.go`); `sent` is what `c.send`
returned. -/
def GetOpportunity (sent : Except GoError HTTPResponse) :
    Go.Outcome (Option GetOpportunityResponse × Option GoError) :=
  let respJSON := exec sent decodeGetOpportunityResponseJSON
    getOpportunityResponseJSON.SetHTTPResponse getOpportunityResponseJSON.zero
  match respJSON.2 with
  | some err => .returns (none, some err)
  | none =>
    -- Convert the response to the client type
    match toModelAt respJSON.1.Opportunity model.Opportunity.zero with
    | .nilDereference => .nilDereference
    | .returns r =>
      match r.2 with
      | some err => .returns (none, some (.json err))
      | none => .returns (some ⟨respJSON.1.BaseResponse, some r.1⟩, none)

/-- Struct `createOpportunityResponseJSON` (`opportunities.go`). -/
structure createOpportunityResponseJSON where
  BaseResponse : BaseResponse
  Deduped : Bool
  Opportunity : Option multimodel.Opportunity
  deriving DecidableEq, Repr

/-- The zero value of `createOpportunityResponseJSON`. -/
def createOpportunityResponseJSON.zero : createOpportunityResponseJSON := ⟨⟨none⟩, false, none⟩

/-- `SetHTTPResponse` of `createOpportunityResponseJSON`. -/
def createOpportunityResponseJSON.SetHTTPResponse (r : createOpportunityResponseJSON)
    (resp : HTTPResponse) : createOpportunityResponseJSON :=
  { r with BaseResponse := ⟨some resp⟩ }

/-- One member of an object decoded into a `createOpportunityResponseJSON`. -/
def createOpportunityField (ctx : ErrCtx) (r : createOpportunityResponseJSON) (key : String)
    (v : JSON) : createOpportunityResponseJSON × Option JsonError :=
  if fieldMatch "deduped" key then
    let d := decodeBool (ctx.enter "createOpportunityResponseJSON" "deduped") r.Deduped v
    ({ r with Deduped := d.1 }, d.2)
  else if fieldMatch "data" key then
    let d := decodePtr multimodel.Opportunity.zero decodeRawOpportunity
      (ctx.enter "createOpportunityResponseJSON" "data") r.Opportunity v
    ({ r with Opportunity := d.1 }, d.2)
  else (r, none)

/-- Decoder of `createOpportunityResponseJSON`. -/
def decodeCreateOpportunityResponseJSON : Decoder createOpportunityResponseJSON :=
  decodeStruct "lever.createOpportunityResponseJSON" createOpportunityField

/-- Struct `CreateOpportunityResponse` (`opportunities.go`). -/
structure CreateOpportunityResponse where
  BaseResponse : BaseResponse
  Deduped : Bool
  Opportunity : Option model.Opportunity
  deriving DecidableEq, Repr

/-- `(*Client).CreateOpportunity` (`opportunities.go`); `sent` is what `c.send`
returned. -/
def CreateOpportunity (sent : Except GoError HTTPResponse) :
    Go.Outcome (Option CreateOpportunityResponse × Option GoError) :=
  let respJSON := exec sent decodeCreateOpportunityResponseJSON
    createOpportunityResponseJSON.SetHTTPResponse createOpportunityResponseJSON.zero
  match respJSON.2 with
  | some err => .returns (none, some err)
  | none =>
    -- Convert the response to the client type.
    match toModelAt respJSON.1.Opportunity model.Opportunity.zero with
    | .nilDereference => .nilDereference
    | .returns r =>
      match r.2 with
      | some err => .returns (none, some (.json err))
      | none => .returns (some ⟨respJSON.1.BaseResponse, respJSON.1.Deduped, some r.1⟩, none)

end lever

/-! ## Specification-side definitions: client options, mistyped members -/

namespace lever

open GoJSON model

/-- The options a caller can pass to `NewClient`. -/
inductive ClientOption where
  | baseURL (baseURL : String)
  | httpClient (httpClient : http.Request → Except GoError HTTPResponse)
  | apiKey (apiKey : String)
  | userAgent (userAgent : String)
  | header (header value : String)

/-- The option as the function `NewClient` applies. -/
def ClientOption.apply : ClientOption → Client → Client
  | .baseURL u => WithBaseURL u
  | .httpClient h => WithHTTPClient h
  | .apiKey k => WithAPIKey k
  | .userAgent ua => WithUserAgent ua
  | .header h v => WithHeader h v

/-- The header an option names, with the value it gives it; the header
`WithAPIKey` names is `Authorization`. -/
def ClientOption.headerSet : ClientOption → Option (String × String)
  | .apiKey k =>
    some ("Authorization", "Basic " ++ base64.EncodeToString (GoBytes.stringBytes (k ++ ":")))
  | .userAgent ua => some ("User-Agent", ua)
  | .header h v => some (h, v)
  | _ => none

/-- The headers the options name, in option order. -/
def headerOptions (opts : List ClientOption) : List (String × String) :=
  opts.filterMap ClientOption.headerSet

/-- The value of the last option that names the header with the canonical
key `key`. -/
def lastHeaderValue (key : String) (hs : List (String × String)) : Option String :=
  ((hs.filter (fun kv => textproto.CanonicalMIMEHeaderKey kv.1 = key)).getLast?).map Prod.snd

end lever

namespace multimodel

open GoJSON model

/-- A JSON value that is neither null nor a string. -/
def notStringOrNull : JSON → Bool
  | .null => false
  | .str _ => false
  | _ => true

/-- A JSON value that is neither null nor a number. -/
def notNumberOrNull : JSON → Bool
  | .null => false
  | .num _ => false
  | _ => true

/-- A JSON value that is neither null nor an array. -/
def notArrayOrNull : JSON → Bool
  | .null => false
  | .arr _ => false
  | _ => true

/-- A member of a stage object with a known key and a non-null value of the
wrong JSON type: both fields of a stage are strings. -/
def stageMemberMistyped (kv : String × JSON) : Bool :=
  (fieldMatch "id" kv.1 || fieldMatch "text" kv.1) && notStringOrNull kv.2

/-- The string fields of a user, by JSON name. -/
def userStringFields : List String :=
  ["id", "name", "username", "email", "accessRole", "photo", "externalDirectoryId", "jobTitle",
    "manager"]

/-- A member of a user object with a known key and a non-null value of the
wrong JSON type: strings, the two timestamps (numbers), and the linked contact
ids (an array). -/
def userMemberMistyped (kv : String × JSON) : Bool :=
  (userStringFields.any (fun name => fieldMatch name kv.1) && notStringOrNull kv.2)
    || ((fieldMatch "createdAt" kv.1 || fieldMatch "deactivatedAt" kv.1) && notNumberOrNull kv.2)
    || (fieldMatch "linkedContactIds" kv.1 && notArrayOrNull kv.2)

end multimodel

namespace testdata

open GoJSON model lever

/-- The API key of `TestClientOptions`. -/
def testApiKey : String := "EXAMPLE_API_KEY"

/-- A network that answers every request with an empty object. -/
def emptyObjectNet : http.Request → Except GoError HTTPResponse :=
  fun _ => .ok ⟨200, "200 OK", ['\x7b', '\x7d']⟩

/-- A URL parser that accepts every URL and finds no query in it. -/
def anyURL : String → Except GoError Values := fun _ => .ok (fun _ => [])

/-- The request of `TestClientOptions`: no body, the path `req_path`. -/
def testRequest : RequestInterface :=
  ⟨"req_path", "GET", "application/json", .ok none, (⟨none, none⟩ : BaseRequest).AddAPIQueryParams⟩

/-- A request with a JSON body. -/
def bodyRequest : RequestInterface :=
  ⟨"req_path", "POST", "application/json", .ok (some ['\x7b', '\x7d']),
    (⟨none, none⟩ : BaseRequest).AddAPIQueryParams⟩

/-- The options of the client of `TestClientOptions`. -/
def testOptions : List ClientOption :=
  [.httpClient emptyObjectNet, .baseURL "http://localhost/custom_path", .apiKey testApiKey,
    .userAgent "TestClient"]

/-- Options that name `Content-Type` and, twice, `accept`. -/
def headerTestOptions : List ClientOption :=
  [.header "accept" "text/plain", .header "content-type" "text/plain", .header "ACCEPT" "*/*"]

/-- A request to move an opportunity to a stage on behalf of a user. -/
def stageUpdate : UpdateOpportunityStageRequest :=
  ⟨⟨none, none⟩, "o1", "offer", "u1"⟩

/-- A request to remove a link on behalf of a user. -/
def linkRemoval : RemoveOpportunityLinksRequest :=
  ⟨⟨none, none⟩, "o1", some ["http://example.com"], "u1"⟩

/-- A request to add a link on behalf of a user. -/
def linkAddition : AddOpportunityLinksRequest :=
  ⟨⟨none, none⟩, "o1", some ["http://example.com"], "u1"⟩

/-- A 200 response whose body has no `data` member. -/
def noData : HTTPResponse := ⟨200, "200 OK", ['\x7b', '\x7d']⟩

/-- A 200 response whose `data` member is null. -/
def nullData : HTTPResponse :=
  ⟨200, "200 OK", "\x7b\"deduped\": true, \"data\": null\x7d".data⟩

/-- A 200 response with an opportunity. -/
def someData : HTTPResponse :=
  ⟨200, "200 OK", "\x7b\"data\": \x7b\"id\": \"o1\", \"stage\": \"lead-new\"\x7d\x7d".data⟩

/-- A stage object whose id is a number. -/
def stageNumberID : List Char := "\x7b\"id\": 5\x7d".data

/-- A stage object whose text is an array. -/
def stageArrayText : List Char := "\x7b\"id\":\"a\",\"text\":[]\x7d".data

/-- A user object whose `createdAt` is a string. -/
def userStringCreatedAt : List Char := "\x7b\"id\": \"u1\", \"createdAt\": \"now\"\x7d".data

/-- An identifier with a slash, a question mark, a hash, a blank and a
letter outside ASCII. -/
def hostileID : String := "a/b?c#d e%é"

end testdata

namespace lever

/-- The function `WithHeader` appends to `preSend`, for the header and value
of the pair. -/
def headerSetter (kv : String × String) : http.Request → http.Request × Option GoError :=
  fun req => ({ req with Header := req.Header.Set kv.1 kv.2 }, none)

end lever

/-! ## Theorems -/

namespace GoJSON

/-- A hexadecimal digit is accepted by the scanner. -/
theorem isHex_hexDigit (n : Nat) (h : n < 16) : isHex (hexDigit n) = true := by
  interval_cases n <;> decide

/-- A hexadecimal digit has the value it was made from. -/
theorem hexVal_hexDigit (n : Nat) (h : n < 16) : hexVal (hexDigit n) = n := by
  interval_cases n <;> decide

/-- Inside a string, the scanner reads the encoding of one character. -/
theorem lexFrom_escapeChar (c : Char) (acc : List Char) (out : List Token) (rest : List Char) :
    lexFrom (.inString acc) out (escapeChar c ++ rest)
      = lexFrom (.inString ((escapeChar c).reverse ++ acc)) out rest := by
  unfold escapeChar
  split_ifs with h1 h2 h3
  · subst h1
    simp [lexFrom, lexStep, isSimpleEscape, quoteChar, backslashChar]
  · subst h2
    simp [lexFrom, lexStep, isSimpleEscape, quoteChar, backslashChar]
  · have hx := isHex_hexDigit (c.toNat / 16) (by omega)
    have hy := isHex_hexDigit (c.toNat % 16) (by omega)
    have hq : ¬ backslashChar = quoteChar := by decide
    have hu : ¬ isSimpleEscape 'u' = true := by decide
    have h0 : isHex '0' = true := by decide
    simp [lexFrom, lexStep, hx, hy, hq, hu, h0]
  · simp [lexFrom, lexStep, h1, h2, h3]

/-- Inside a string, the scanner reads an escaped body. -/
theorem lexFrom_escape (cs : List Char) (acc : List Char) (out : List Token) (rest : List Char) :
    lexFrom (.inString acc) out (escape cs ++ rest)
      = lexFrom (.inString ((escape cs).reverse ++ acc)) out rest := by
  induction cs generalizing acc with
  | nil => rfl
  | cons c cs ih =>
    simp only [escape, List.append_assoc, lexFrom_escapeChar, ih, List.reverse_append]

/-- The encoding of a string is one string token. -/
theorem lex_encodeString (s : String) :
    lex (encodeString s) = some [.string (escape s.data)] := by
  have hq : idleStep [] quoteChar = some (.inString [], []) := by decide
  simp [lex, encodeString, lexFrom, lexStep, hq, lexFrom_escape, lexFinish]

/-- Unquoting the encoding of one character gives the character back. -/
theorem unquoteFrom_escapeChar (c : Char) (rest : List Char) :
    unquoteFrom 0 (escapeChar c ++ rest) = c :: unquoteFrom 0 rest := by
  unfold escapeChar
  split_ifs with h1 h2 h3
  · subst h1
    have e1 : escChar quoteChar = quoteChar := by decide
    simp [unquoteFrom, quoteChar, backslashChar, escChar]
  · subst h2
    simp [unquoteFrom, quoteChar, backslashChar, escChar]
  · have hx := isHex_hexDigit (c.toNat / 16) (by omega)
    have hy := isHex_hexDigit (c.toNat % 16) (by omega)
    have vx := hexVal_hexDigit (c.toNat / 16) (by omega)
    have vy := hexVal_hexDigit (c.toNat % 16) (by omega)
    have h0 : isHex '0' = true := by decide
    have v0 : hexVal '0' = 0 := by decide
    have hval : hex4 '0' '0' (hexDigit (c.toNat / 16)) (hexDigit (c.toNat % 16)) = c.toNat := by
      simp only [hex4, v0, vx, vy]; omega
    have hns : isSurrogate c.toNat = false := by
      simp [isSurrogate]; omega
    simp [unquoteFrom, getu4, h0, hx, hy, hval, hns, Char.ofNat_toNat]
  · simp [unquoteFrom, h2]

/-- Unquoting an escaped body gives the body back. -/
theorem unquote_escape (cs : List Char) : unquote (escape cs) = cs := by
  induction cs with
  | nil => rfl
  | cons c cs ih =>
    simp only [unquote] at ih ⊢
    simp only [escape, unquoteFrom_escapeChar, ih]

/-- Every string has a JSON text: `encodeString s` is valid and its value is
the JSON string `s`. -/
theorem parse_encodeString (s : String) : parse (encodeString s) = some (.str s) := by
  simp [parse, lex_encodeString, parseValue, unquote_escape]

/-- One more unit of fuel keeps the promise of `parseValue`. -/
theorem parseValue_fuelOK_step (n : Nat) (he : FuelOK parseElems n) (hm : FuelOK parseMembers n) :
    FuelOK parseValue (n + 1) := by
  intro d toks v rest h
  rcases toks with _ | ⟨t, ts⟩
  · simp [parseValue] at h
  · cases t with
    | litNull =>
      simp only [parseValue, Option.some.injEq, Prod.mk.injEq] at h
      obtain ⟨rfl, rfl⟩ := h
      refine ⟨by simp, ?_⟩
      intro m hm1
      obtain ⟨m, rfl⟩ : ∃ k, m = k + 1 := ⟨m - 1, by simp at hm1; omega⟩
      simp [parseValue]
    | litTrue =>
      simp only [parseValue, Option.some.injEq, Prod.mk.injEq] at h
      obtain ⟨rfl, rfl⟩ := h
      refine ⟨by simp, ?_⟩
      intro m hm1
      obtain ⟨m, rfl⟩ : ∃ k, m = k + 1 := ⟨m - 1, by simp at hm1; omega⟩
      simp [parseValue]
    | litFalse =>
      simp only [parseValue, Option.some.injEq, Prod.mk.injEq] at h
      obtain ⟨rfl, rfl⟩ := h
      refine ⟨by simp, ?_⟩
      intro m hm1
      obtain ⟨m, rfl⟩ : ∃ k, m = k + 1 := ⟨m - 1, by simp at hm1; omega⟩
      simp [parseValue]
    | number lit =>
      simp only [parseValue, Option.some.injEq, Prod.mk.injEq] at h
      obtain ⟨rfl, rfl⟩ := h
      refine ⟨by simp, ?_⟩
      intro m hm1
      obtain ⟨m, rfl⟩ : ∃ k, m = k + 1 := ⟨m - 1, by simp at hm1; omega⟩
      simp [parseValue]
    | string body =>
      simp only [parseValue, Option.some.injEq, Prod.mk.injEq] at h
      obtain ⟨rfl, rfl⟩ := h
      refine ⟨by simp, ?_⟩
      intro m hm1
      obtain ⟨m, rfl⟩ : ∃ k, m = k + 1 := ⟨m - 1, by simp at hm1; omega⟩
      simp [parseValue]
    | rbracket => simp [parseValue] at h
    | rbrace => simp [parseValue] at h
    | comma => simp [parseValue] at h
    | colon => simp [parseValue] at h
    | lbracket =>
      simp only [parseValue] at h
      split_ifs at h with hd
      split at h
      · simp only [Option.some.injEq, Prod.mk.injEq] at h
        obtain ⟨rfl, rfl⟩ := h
        refine ⟨by simp; omega, ?_⟩
        intro m hm1
        obtain ⟨m, rfl⟩ : ∃ k, m = k + 1 := ⟨m - 1, by simp at hm1; omega⟩
        simp [parseValue, hd]
      · rename_i hnot
        cases hpe : parseElems n (d + 1) ts with
        | none => simp [hpe] at h
        | some r =>
          obtain ⟨xs, rest1⟩ := r
          simp only [hpe, Option.some.injEq, Prod.mk.injEq] at h
          obtain ⟨rfl, rfl⟩ := h
          obtain ⟨hlt, hfuel⟩ := he _ _ _ _ hpe
          refine ⟨by simp; omega, ?_⟩
          intro m hm1
          obtain ⟨m, rfl⟩ : ∃ k, m = k + 1 := ⟨m - 1, by simp at hm1; omega⟩
          have := hfuel m (by simp at hm1; omega)
          simp only [parseValue, hd, if_true]
          rw [this]
    | lbrace =>
      simp only [parseValue] at h
      split_ifs at h with hd
      split at h
      · simp only [Option.some.injEq, Prod.mk.injEq] at h
        obtain ⟨rfl, rfl⟩ := h
        refine ⟨by simp; omega, ?_⟩
        intro m hm1
        obtain ⟨m, rfl⟩ : ∃ k, m = k + 1 := ⟨m - 1, by simp at hm1; omega⟩
        simp [parseValue, hd]
      · rename_i hnot
        cases hpe : parseMembers n (d + 1) ts with
        | none => simp [hpe] at h
        | some r =>
          obtain ⟨xs, rest1⟩ := r
          simp only [hpe, Option.some.injEq, Prod.mk.injEq] at h
          obtain ⟨rfl, rfl⟩ := h
          obtain ⟨hlt, hfuel⟩ := hm _ _ _ _ hpe
          refine ⟨by simp; omega, ?_⟩
          intro m hm1
          obtain ⟨m, rfl⟩ : ∃ k, m = k + 1 := ⟨m - 1, by simp at hm1; omega⟩
          have := hfuel m (by simp at hm1; omega)
          simp only [parseValue, hd, if_true]
          rw [this]

/-- One more unit of fuel keeps the promise of `parseElems`. -/
theorem parseElems_fuelOK_step (n : Nat) (hv : FuelOK parseValue n) (he : FuelOK parseElems n) :
    FuelOK parseElems (n + 1) := by
  intro d toks vs rest h
  simp only [parseElems] at h
  cases hpv : parseValue n d toks with
  | none => simp [hpv] at h
  | some r =>
    obtain ⟨v, rest0⟩ := r
    obtain ⟨hlt, hfuel⟩ := hv _ _ _ _ hpv
    rw [hpv] at h
    rcases rest0 with _ | ⟨t, rest1⟩
    · simp at h
    · cases t with
      | comma =>
        simp only at h
        cases hpe : parseElems n d rest1 with
        | none => simp [hpe] at h
        | some r1 =>
          obtain ⟨vs1, rest2⟩ := r1
          simp only [hpe, Option.some.injEq, Prod.mk.injEq] at h
          obtain ⟨rfl, rfl⟩ := h
          obtain ⟨hlt1, hfuel1⟩ := he _ _ _ _ hpe
          simp only [List.length_cons] at hlt
          refine ⟨by omega, ?_⟩
          intro m hm1
          obtain ⟨m, rfl⟩ : ∃ k, m = k + 1 := ⟨m - 1, by omega⟩
          have h1 := hfuel m (by simp only [List.length_cons]; omega)
          have h2 := hfuel1 m (by omega)
          simp only [parseElems, h1, h2]
      | rbracket =>
        simp only [Option.some.injEq, Prod.mk.injEq] at h
        obtain ⟨rfl, rfl⟩ := h
        simp only [List.length_cons] at hlt
        refine ⟨by omega, ?_⟩
        intro m hm1
        obtain ⟨m, rfl⟩ : ∃ k, m = k + 1 := ⟨m - 1, by omega⟩
        have h1 := hfuel m (by simp only [List.length_cons]; omega)
        simp only [parseElems, h1]
      | _ => simp at h

/-- One more unit of fuel keeps the promise of `parseMembers`. -/
theorem parseMembers_fuelOK_step (n : Nat) (hv : FuelOK parseValue n)
    (hm : FuelOK parseMembers n) : FuelOK parseMembers (n + 1) := by
  intro d toks kvs rest h
  rcases toks with _ | ⟨t0, _ | ⟨t1, ts⟩⟩
  · simp [parseMembers] at h
  · cases t0 <;> simp [parseMembers] at h
  · cases t0 <;> cases t1 <;> try (simp [parseMembers] at h; done)
    rename_i key
    simp only [parseMembers] at h
    cases hpv : parseValue n d ts with
    | none => simp [hpv] at h
    | some r =>
      obtain ⟨v, rest0⟩ := r
      obtain ⟨hlt, hfuel⟩ := hv _ _ _ _ hpv
      rw [hpv] at h
      rcases rest0 with _ | ⟨t, rest1⟩
      · simp at h
      · cases t with
        | comma =>
          simp only at h
          cases hpe : parseMembers n d rest1 with
          | none => simp [hpe] at h
          | some r1 =>
            obtain ⟨vs1, rest2⟩ := r1
            simp only [hpe, Option.some.injEq, Prod.mk.injEq] at h
            obtain ⟨rfl, rfl⟩ := h
            obtain ⟨hlt1, hfuel1⟩ := hm _ _ _ _ hpe
            simp only [List.length_cons] at hlt ⊢
            refine ⟨by omega, ?_⟩
            intro m hm1
            obtain ⟨m, rfl⟩ : ∃ k, m = k + 1 := ⟨m - 1, by omega⟩
            have h1 := hfuel m (by simp only [List.length_cons]; omega)
            have h2 := hfuel1 m (by omega)
            simp only [parseMembers, h1, h2]
        | rbrace =>
          simp only [Option.some.injEq, Prod.mk.injEq] at h
          obtain ⟨rfl, rfl⟩ := h
          simp only [List.length_cons] at hlt ⊢
          refine ⟨by omega, ?_⟩
          intro m hm1
          obtain ⟨m, rfl⟩ : ∃ k, m = k + 1 := ⟨m - 1, by omega⟩
          have h1 := hfuel m (by simp only [List.length_cons]; omega)
          simp only [parseMembers, h1]
        | _ => simp at h

/-- The three parsers keep their promise about fuel at every amount of fuel. -/
theorem parse_fuelOK (n : Nat) :
    FuelOK parseValue n ∧ FuelOK parseElems n ∧ FuelOK parseMembers n := by
  induction n with
  | zero =>
    refine ⟨?_, ?_, ?_⟩ <;> intro d toks v rest h
    · simp [parseValue] at h
    · simp [parseElems] at h
    · simp [parseMembers] at h
  | succ n ih =>
    exact ⟨parseValue_fuelOK_step n ih.2.1 ih.2.2, parseElems_fuelOK_step n ih.1 ih.2.1,
      parseMembers_fuelOK_step n ih.1 ih.2.2⟩

/-- The fuel `parse` gives the parser is enough: a text whose tokens form one
value under some amount of fuel is parsed to that value. -/
theorem parse_of_parseValue {raw : List Char} {toks : List Token} {n : Nat} {v : JSON}
    (hlex : lex raw = some toks) (h : parseValue n 0 toks = some (v, [])) :
    parse raw = some v := by
  have := ((parse_fuelOK n).1 0 toks v [] h).2 (toks.length + 1) (by simp)
  simp [parse, hlex, this]

/-- Between tokens, the scanner reads the encoding of a string as one token. -/
theorem lexFrom_encodeString (s : String) (out : List Token) (rest : List Char) :
    lexFrom .idle out (encodeString s ++ rest)
      = lexFrom .idle (.string (escape s.data) :: out) rest := by
  have hq : idleStep out quoteChar = some (.inString [], out) := by
    simp [idleStep, isSpace, quoteChar]
  simp [encodeString, lexFrom, lexStep, hq, lexFrom_escape]

/-- Between tokens, the scanner reads comma-separated encoded strings. -/
theorem lexFrom_encodeStrings (l : List String) (out : List Token) (rest : List Char) :
    lexFrom .idle out (encodeStrings l ++ rest)
      = lexFrom .idle ((stringTokens l).reverse ++ out) rest := by
  induction l generalizing out with
  | nil => rfl
  | cons s t ih =>
    cases t with
    | nil => simp [encodeStrings, stringTokens, lexFrom_encodeString]
    | cons t ts =>
      have hc : ∀ o, idleStep o ',' = some (.idle, .comma :: o) := by
        intro o; simp [idleStep, isSpace]
      rw [encodeStrings, List.append_assoc, lexFrom_encodeString]
      simp only [List.cons_append, lexFrom, lexStep, hc]
      have h2 := ih (.comma :: .string (escape s.data) :: out)
      simp only [HAppend.hAppend, Append.append] at h2 ⊢
      rw [h2]
      simp [stringTokens]

/-- The tokens of the encoding of an array of strings. -/
theorem lex_encodeStringArray (l : List String) :
    lex (encodeStringArray l) = some (.lbracket :: (stringTokens l ++ [.rbracket])) := by
  have hl : idleStep [] '[' = some (.idle, [.lbracket]) := by decide
  have hr : ∀ o, idleStep o ']' = some (.idle, .rbracket :: o) := by
    intro o; simp [idleStep, isSpace]
  simp [lex, encodeStringArray, lexFrom, lexStep, hl, hr, lexFrom_encodeStrings, lexFinish]

/-- The parser reads the tokens of a non-empty list of strings, given
fuel for each of them. -/
theorem parseElems_stringTokens (s : String) (l : List String) (d : Nat) (rest : List Token)
    (fuel : Nat) (hf : l.length + 2 ≤ fuel) :
    parseElems fuel d (stringTokens (s :: l) ++ .rbracket :: rest)
      = some ((s :: l).map JSON.str, rest) := by
  induction l generalizing s fuel with
  | nil =>
    obtain ⟨f, rfl⟩ : ∃ k, fuel = k + 2 := ⟨fuel - 2, by simp at hf; omega⟩
    simp [stringTokens, parseElems, parseValue, unquote_escape]
  | cons t ts ih =>
    obtain ⟨f, rfl⟩ : ∃ k, fuel = k + 2 := ⟨fuel - 2, by simp at hf; omega⟩
    have := ih t (f + 1) (by simp at hf ⊢; omega)
    rw [stringTokens, List.cons_append, List.cons_append, parseElems]
    simp only [parseValue, unquote_escape]
    rw [this]
    rfl

/-- Every non-empty list of strings has a JSON text: `encodeStringArray l` is
valid and its value is the array of the JSON strings of `l`. -/
theorem parse_encodeStringArray (l : List String) (hl : l ≠ []) :
    parse (encodeStringArray l) = some (.arr (l.map JSON.str)) := by
  obtain ⟨s, t, rfl⟩ := List.exists_cons_of_ne_nil hl
  apply parse_of_parseValue (lex_encodeStringArray _) (n := t.length + 3)
  have := parseElems_stringTokens s t 1 [] (t.length + 2) (le_refl _)
  have hd : 0 < maxNestingDepth := by decide
  cases t with
  | nil => simp [parseValue, hd, stringTokens] at this ⊢; simp [this]
  | cons u us => simp [parseValue, hd, stringTokens] at this ⊢; simp [this]

end GoJSON

namespace multimodel

open GoJSON model testdata

/-- The empty text is not a JSON value. -/
theorem parse_nil : parse [] = none := rfl

/-- A payload that parses is not empty. -/
theorem length_ne_zero_of_parse {raw : List Char} {j : JSON} (h : parse raw = some j) :
    raw.length ≠ 0 := by
  intro hlen
  have hnil : raw = [] := List.length_eq_zero.mp hlen
  rw [hnil, parse_nil] at h
  exact Option.noConfusion h

/-- No first error means no error on either side. -/
theorem firstError_eq_none {a b : Option JsonError} :
    firstError a b = none ↔ a = none ∧ b = none := by
  cases a <;> simp [firstError]

/-- Decoding into a fresh slice decodes every element into a zero value. -/
theorem decodeElems_fresh_values {α : Type} (zero : α) (dec : Decoder α) (ctx : ErrCtx)
    (elems : List JSON) :
    (decodeElems zero dec ctx [] elems).1 = elems.map (fun e => (dec ctx zero e).1) := by
  induction elems with
  | nil => rfl
  | cons e es ih => simp [decodeElems, ih]

/-- Decoding into a fresh slice saves no error when no element does. -/
theorem decodeElems_fresh_ok {α : Type} (zero : α) (dec : Decoder α) (ctx : ErrCtx)
    (elems : List JSON) (h : ∀ e ∈ elems, (dec ctx zero e).2 = none) :
    (decodeElems zero dec ctx [] elems).2 = none := by
  induction elems with
  | nil => rfl
  | cons e es ih =>
    simp only [decodeElems, List.headD_nil, List.tail_nil, firstError_eq_none]
    exact ⟨h e (List.mem_cons_self _ _), ih (fun x hx => h x (List.mem_cons_of_mem _ hx))⟩

/-- Decoding a slice saves an error as soon as one element cannot be decoded. -/
theorem decodeElems_error {α : Type} (zero : α) (dec : Decoder α) (ctx : ErrCtx)
    (elems : List JSON) (h : ∃ e ∈ elems, ∀ c, (dec ctx c e).2 ≠ none) (cur : List α) :
    (decodeElems zero dec ctx cur elems).2 ≠ none := by
  induction elems generalizing cur with
  | nil => obtain ⟨e, he, _⟩ := h; cases he
  | cons x xs ih =>
    obtain ⟨e, he, herr⟩ := h
    simp only [decodeElems, ne_eq, firstError_eq_none, not_and]
    intro hx
    rcases List.mem_cons.mp he with rfl | hmem
    · exact absurd hx (herr _)
    · exact ih ⟨e, hmem, herr⟩ _

/-- Decoding an array of JSON strings into a fresh `[]string` gives those
strings and no error. -/
theorem decodeElems_strings (ctx : ErrCtx) (l : List String) :
    decodeElems "" decodeString ctx [] (l.map JSON.str) = (l, none) := by
  induction l with
  | nil => rfl
  | cons x xs ih => simp [decodeElems, ih, decodeString, firstError]

/-- The identifiers collected by the loop over the decoded objects. -/
theorem appendIDs_getD {α : Type} (getID : α → String) (xs : List α)
    (ids : Option (List String)) :
    (appendIDs getID (some xs) ids).getD [] = ids.getD [] ++ xs.map getID := by
  induction xs generalizing ids with
  | nil => simp [appendIDs]
  | cons x xs ih =>
    have := ih (goAppend ids (getID x))
    simp only [appendIDs, Option.getD_some, List.foldl_cons] at this ⊢
    rw [this]
    simp [goAppend]

/-- On a JSON array, `unmarshalArrayOfUsersOrIDs` returns what its two decode
attempts give. -/
theorem unmarshalArrayOfUsersOrIDs_arr {raw : List Char} {elems : List JSON}
    (h : parse raw = some (.arr elems)) :
    unmarshalArrayOfUsersOrIDs raw =
      match (decodeElems User.zero decodeUser ErrCtx.top [] elems).2 with
      | some _ =>
        match (decodeElems "" decodeString ErrCtx.top [] elems).2 with
        | some err => (none, none, some err)
        | none => (some (decodeElems "" decodeString ErrCtx.top [] elems).1, none, none)
      | none =>
        (appendIDs User.ID (some (decodeElems User.zero decodeUser ErrCtx.top [] elems).1) none,
          some (decodeElems User.zero decodeUser ErrCtx.top [] elems).1, none) := by
  have hne := length_ne_zero_of_parse h
  simp only [unmarshalArrayOfUsersOrIDs, hne, if_false, unmarshal, h, decodeSlice,
    Option.getD_none]

/-- On a JSON array, `unmarshalArrayOfFeedbackFormsOrIDs` returns what its two
decode attempts give. -/
theorem unmarshalArrayOfFeedbackFormsOrIDs_arr {raw : List Char} {elems : List JSON}
    (h : parse raw = some (.arr elems)) :
    unmarshalArrayOfFeedbackFormsOrIDs raw =
      match (decodeElems model.FeedbackForm.zero decodeFeedbackForm ErrCtx.top [] elems).2 with
      | some _ =>
        match (decodeElems "" decodeString ErrCtx.top [] elems).2 with
        | some err => (none, none, some err)
        | none => (some (decodeElems "" decodeString ErrCtx.top [] elems).1, none, none)
      | none =>
        (appendIDs model.FeedbackForm.ID
            (some (decodeElems model.FeedbackForm.zero decodeFeedbackForm ErrCtx.top [] elems).1) none,
          some (decodeElems model.FeedbackForm.zero decodeFeedbackForm ErrCtx.top [] elems).1, none) := by
  have hne := length_ne_zero_of_parse h
  simp only [unmarshalArrayOfFeedbackFormsOrIDs, hne, if_false, unmarshal, h, decodeSlice,
    Option.getD_none]

/-- A JSON string or array is not decoded into a struct, and a JSON object or
array is not decoded into a string, whatever the target holds. -/
theorem decode_shape_errors (ctx : ErrCtx) :
    (∀ s c, (decodeUser ctx c (.str s)).2 ≠ none)
      ∧ (∀ s c, (decodeFeedbackForm ctx c (.str s)).2 ≠ none)
      ∧ (∀ xs c, (decodeUser ctx c (.arr xs)).2 ≠ none)
      ∧ (∀ xs c, (decodeString ctx c (.arr xs)).2 ≠ none)
      ∧ (∀ ms c, (decodeString ctx c (.obj ms)).2 ≠ none) := by
  refine ⟨?_, ?_, ?_, ?_, ?_⟩ <;> intro x c <;>
    simp [decodeUser, decodeFeedbackForm, decodeStruct, decodeString]

/-- What `lastMember` finds satisfies the predicate. -/
theorem lastMember_some {p : String × JSON → Bool} {members : List (String × JSON)}
    {x : String × JSON} (h : lastMember p members = some x) : p x = true := by
  induction members with
  | nil => simp [lastMember] at h
  | cons kv rest ih =>
    simp only [lastMember] at h
    cases hl : lastMember p rest with
    | some y =>
      rw [hl] at h
      simp only [Option.some.injEq] at h
      subst h
      exact ih hl
    | none =>
      rw [hl] at h
      by_cases hp : p kv = true
      · simp only [hp, if_true, Option.some.injEq] at h
        subst h
        exact hp
      · simp [hp] at h

/-- A character folds to `I` exactly when it is `i` or `I`. -/
theorem foldChar_I (c : Char) : foldChar c = 'I' ↔ c = 'i' ∨ c = 'I' := by
  unfold foldChar
  split_ifs with h1 h2 h3
  · constructor
    · intro h
      have h97 : 97 ≤ c.toNat := h1.1
      have h122 : c.toNat ≤ 122 := h1.2
      have hc : c = Char.ofNat c.toNat := (Char.ofNat_toNat c).symm
      left
      rw [hc] at h ⊢
      generalize c.toNat = n at h h97 h122 ⊢
      interval_cases n <;> first | rfl | (exact absurd h (by decide))
    · rintro (rfl | rfl)
      · decide
      · exact absurd h1 (by decide)
  · subst h2; constructor
    · intro h; exact absurd h (by decide)
    · rintro (h | h) <;> exact absurd h (by decide)
  · subst h3; constructor
    · intro h; exact absurd h (by decide)
    · rintro (h | h) <;> exact absurd h (by decide)
  · constructor
    · intro h; exact Or.inr h
    · rintro (rfl | rfl)
      · exact absurd (by decide : 'a' ≤ 'i' ∧ 'i' ≤ 'z') h1
      · rfl

/-- A character folds to `D` exactly when it is `d` or `D`. -/
theorem foldChar_D (c : Char) : foldChar c = 'D' ↔ c = 'd' ∨ c = 'D' := by
  unfold foldChar
  split_ifs with h1 h2 h3
  · constructor
    · intro h
      have h97 : 97 ≤ c.toNat := h1.1
      have h122 : c.toNat ≤ 122 := h1.2
      have hc : c = Char.ofNat c.toNat := (Char.ofNat_toNat c).symm
      left
      rw [hc] at h ⊢
      generalize c.toNat = n at h h97 h122 ⊢
      interval_cases n <;> first | rfl | (exact absurd h (by decide))
    · rintro (rfl | rfl)
      · decide
      · exact absurd h1 (by decide)
  · subst h2; constructor
    · intro h; exact absurd h (by decide)
    · rintro (h | h) <;> exact absurd h (by decide)
  · subst h3; constructor
    · intro h; exact absurd h (by decide)
    · rintro (h | h) <;> exact absurd h (by decide)
  · constructor
    · intro h; exact Or.inr h
    · rintro (rfl | rfl)
      · exact absurd (by decide : 'a' ≤ 'd' ∧ 'd' ≤ 'z') h1
      · rfl

/-- The keys the decoder takes for the field `id` are `id`, `Id`, `iD` and
`ID`. -/
theorem fieldMatch_id (k : String) : fieldMatch "id" k = isIDKey k := by
  have hfold : foldName "id" = ['I', 'D'] := by decide
  rw [Bool.eq_iff_iff]
  simp only [fieldMatch, hfold, foldName, decide_eq_true_eq, isIDKey, Bool.or_eq_true]
  constructor
  · intro h
    obtain ⟨cs⟩ := k
    simp only at h
    rcases cs with _ | ⟨a, _ | ⟨b, _ | ⟨c, cs⟩⟩⟩
    · simp at h
    · simp at h
    · simp only [List.map_cons, List.map_nil, List.cons.injEq, and_true] at h
      rcases (foldChar_I a).mp h.1 with rfl | rfl <;>
        rcases (foldChar_D b).mp h.2 with rfl | rfl <;> decide
    · simp at h
  · rintro (((rfl | rfl) | rfl) | rfl) <;> decide

/-- The identifier field after decoding the members of an object without
error: the identifier member of the object, and the old value when the object
has none. The three hypotheses say how the field decoder treats the
identifier field. -/
theorem decodeMembers_id {α : Type} (f : α → String → JSON → α × Option JsonError)
    (getID : α → String)
    (h1 : ∀ cur k s, isIDKey k = true → getID (f cur k (.str s)).1 = s)
    (h2 : ∀ cur k v, isIDKey k = true → (f cur k v).2 = none → asString? v = none →
      getID (f cur k v).1 = getID cur)
    (h3 : ∀ cur k v, isIDKey k = false → getID (f cur k v).1 = getID cur)
    (members : List (String × JSON)) (cur : α)
    (hok : (decodeMembers f cur members).2 = none) :
    getID (decodeMembers f cur members).1 = (idMember members).getD (getID cur) := by
  induction members generalizing cur with
  | nil => rfl
  | cons kv rest ih =>
    obtain ⟨k, v⟩ := kv
    simp only [decodeMembers, firstError_eq_none] at hok ⊢
    have hrest := ih (f cur k v).1 hok.2
    rw [hrest]
    simp only [idMember, lastMember]
    cases hl : lastMember (fun kv => isIDKey kv.1 && (asString? kv.2).isSome) rest with
    | some x =>
      have hx := lastMember_some hl
      simp only [Bool.and_eq_true] at hx
      obtain ⟨s, hs⟩ := Option.isSome_iff_exists.mp hx.2
      simp [hs]
    | none =>
      simp only [Option.bind_none, Option.getD_none]
      by_cases hk : isIDKey k = true
      · cases v with
        | str s => simp [hk, asString?, h1 cur k s hk]
        | null => simp [hk, asString?, h2 cur k .null hk hok.1 rfl]
        | bool b => simp [hk, asString?, h2 cur k (.bool b) hk hok.1 rfl]
        | num lit => simp [hk, asString?, h2 cur k (.num lit) hk hok.1 rfl]
        | arr xs => simp [hk, asString?, h2 cur k (.arr xs) hk hok.1 rfl]
        | obj ms => simp [hk, asString?, h2 cur k (.obj ms) hk hok.1 rfl]
      · simp only [Bool.not_eq_true] at hk
        simp [hk, h3 cur k v hk]

/-- How `stageField` treats the identifier field and the other keys. -/
theorem stageField_id (ctx : ErrCtx) (c : Stage) (k : String) :
    (∀ s, isIDKey k = true → (stageField ctx c k (.str s)).1.ID = s)
      ∧ (∀ v, isIDKey k = true → (stageField ctx c k v).2 = none → asString? v = none →
          (stageField ctx c k v).1.ID = c.ID)
      ∧ (∀ v, isIDKey k = false → (stageField ctx c k v).1.ID = c.ID) := by
  refine ⟨?_, ?_, ?_⟩
  · intro s hk
    simp only [stageField, fieldMatch_id, hk, if_true]
    rfl
  · intro v hk herr hv
    simp only [stageField, fieldMatch_id, hk, if_true] at herr ⊢
    cases v with
    | null => rfl
    | str s => simp [asString?] at hv
    | bool b => simp [decodeString] at herr
    | num lit => simp [decodeString] at herr
    | arr xs => simp [decodeString] at herr
    | obj ms => simp [decodeString] at herr
  · intro v hk
    simp only [stageField, fieldMatch_id, hk, Bool.false_eq_true, if_false, apply_ite Prod.fst,
      apply_ite Stage.ID, ite_self]

/-- How `userField` treats the identifier field and the other keys. -/
theorem userField_id (ctx : ErrCtx) (c : User) (k : String) :
    (∀ s, isIDKey k = true → (userField ctx c k (.str s)).1.ID = s)
      ∧ (∀ v, isIDKey k = true → (userField ctx c k v).2 = none → asString? v = none →
          (userField ctx c k v).1.ID = c.ID)
      ∧ (∀ v, isIDKey k = false → (userField ctx c k v).1.ID = c.ID) := by
  refine ⟨?_, ?_, ?_⟩
  · intro s hk
    simp only [userField, fieldMatch_id, hk, if_true]
    rfl
  · intro v hk herr hv
    simp only [userField, fieldMatch_id, hk, if_true] at herr ⊢
    cases v with
    | null => rfl
    | str s => simp [asString?] at hv
    | bool b => simp [decodeString] at herr
    | num lit => simp [decodeString] at herr
    | arr xs => simp [decodeString] at herr
    | obj ms => simp [decodeString] at herr
  · intro v hk
    simp only [userField, fieldMatch_id, hk, Bool.false_eq_true, if_false, apply_ite Prod.fst,
      apply_ite User.ID, ite_self]

/-- The identifier of a stage decoded from an object without error. -/
theorem decodeStage_id (ctx : ErrCtx) (cur : Stage) (members : List (String × JSON))
    (hok : (decodeStage ctx cur (.obj members)).2 = none) :
    (decodeStage ctx cur (.obj members)).1.ID = (idMember members).getD cur.ID :=
  decodeMembers_id (stageField ctx) Stage.ID
    (fun c k s hk => (stageField_id ctx c k).1 s hk)
    (fun c k v hk he hv => (stageField_id ctx c k).2.1 v hk he hv)
    (fun c k v hk => (stageField_id ctx c k).2.2 v hk) members cur hok

/-- The identifier of a user decoded from an object without error. -/
theorem decodeUser_id (ctx : ErrCtx) (cur : User) (members : List (String × JSON))
    (hok : (decodeUser ctx cur (.obj members)).2 = none) :
    (decodeUser ctx cur (.obj members)).1.ID = (idMember members).getD cur.ID :=
  decodeMembers_id (userField ctx) User.ID
    (fun c k s hk => (userField_id ctx c k).1 s hk)
    (fun c k v hk he hv => (userField_id ctx c k).2.1 v hk he hv)
    (fun c k v hk => (userField_id ctx c k).2.2 v hk) members cur hok

/-- When `unmarshalStageOrID` returns a stage, the identifier it returns is
that stage's `ID`. -/
theorem unmarshalStageOrID_agree (raw : List Char) (st : Stage)
    (h : (unmarshalStageOrID raw).2.1 = some st) : (unmarshalStageOrID raw).1 = st.ID := by
  unfold unmarshalStageOrID at h ⊢
  by_cases hlen : raw.length = 0
  · simp [hlen] at h
  · simp only [hlen, if_false] at h ⊢
    cases h1 : (unmarshal decodeStage raw Stage.zero).2 with
    | none =>
      simp only [h1, Option.some.injEq] at h ⊢
      rw [h]
    | some e =>
      simp only [h1] at h
      cases h2 : (unmarshal decodeString raw "").2 <;> simp [h2] at h

/-- When `unmarshalUserOrID` returns a user, the identifier it returns is
that user's `ID`. -/
theorem unmarshalUserOrID_agree (raw : List Char) (u : User)
    (h : (unmarshalUserOrID raw).2.1 = some u) : (unmarshalUserOrID raw).1 = u.ID := by
  unfold unmarshalUserOrID at h ⊢
  by_cases hlen : raw.length = 0
  · simp [hlen] at h
  · simp only [hlen, if_false] at h ⊢
    cases h1 : (unmarshal decodeUser raw User.zero).2 with
    | none =>
      simp only [h1, Option.some.injEq] at h ⊢
      rw [h]
    | some e =>
      simp only [h1] at h
      cases h2 : (unmarshal decodeString raw "").2 <;> simp [h2] at h

/-- When `unmarshalArrayOfUsersOrIDs` returns users, the identifiers it
returns are the `ID`s of those users, in order. -/
theorem unmarshalArrayOfUsersOrIDs_agree (raw : List Char) (us : List User)
    (h : (unmarshalArrayOfUsersOrIDs raw).2.1 = some us) :
    (unmarshalArrayOfUsersOrIDs raw).1.getD [] = us.map User.ID := by
  unfold unmarshalArrayOfUsersOrIDs at h ⊢
  by_cases hlen : raw.length = 0
  · simp [hlen] at h
  · simp only [hlen, if_false] at h ⊢
    cases h1 : (unmarshal (decodeSlice "[]model.User" User.zero decodeUser) raw none).2 with
    | none =>
      simp only [h1] at h ⊢
      rw [h, appendIDs_getD]
      simp
    | some e =>
      simp only [h1] at h
      cases h2 : (unmarshal (decodeSlice "[]string" "" decodeString) raw none).2 <;>
        simp [h2] at h

/-- C3: for every string `s`, the scalar resolvers return `(s, nil, nil)` on
the JSON text `encodeString s`, and on every other payload that is a JSON
string with value `s` (escapes written differently, blanks around it). -/
theorem scalar_resolvers_string (s : String) :
    (unmarshalStageOrID (encodeString s) = (s, none, none)
        ∧ unmarshalUserOrID (encodeString s) = (s, none, none))
      ∧ ∀ raw, parse raw = some (.str s) →
          unmarshalStageOrID raw = (s, none, none) ∧ unmarshalUserOrID raw = (s, none, none) := by
  have key : ∀ raw, parse raw = some (.str s) →
      unmarshalStageOrID raw = (s, none, none) ∧ unmarshalUserOrID raw = (s, none, none) := by
    intro raw h
    have hne := length_ne_zero_of_parse h
    constructor
    · simp [unmarshalStageOrID, hne, unmarshal, h, decodeStage, decodeStruct, decodeString]
    · simp [unmarshalUserOrID, hne, unmarshal, h, decodeUser, decodeStruct, decodeString]
  exact ⟨key _ (parse_encodeString s), key⟩

/-- Witness of C3: the quoted identifier of the repository's tests, with
blanks around it. -/
theorem scalar_resolvers_string_witness :
    unmarshalStageOrID "  \"8d49b010-cc6a-4f40-ace5-e86061c677ed\"  ".data
        = ("8d49b010-cc6a-4f40-ace5-e86061c677ed", none, none)
      ∧ unmarshalUserOrID "  \"8d49b010-cc6a-4f40-ace5-e86061c677ed\"  ".data
        = ("8d49b010-cc6a-4f40-ace5-e86061c677ed", none, none) :=
  (scalar_resolvers_string "8d49b010-cc6a-4f40-ace5-e86061c677ed").2 _ rfl

/-- C4: on the empty payload the scalar resolvers return `("", nil, nil)` and
the array resolvers return `(nil, nil, nil)`; no error is produced. -/
theorem resolvers_empty_payload :
    unmarshalStageOrID [] = ("", none, none)
      ∧ unmarshalUserOrID [] = ("", none, none)
      ∧ unmarshalArrayOfUsersOrIDs [] = (none, none, none)
      ∧ unmarshalArrayOfFeedbackFormsOrIDs [] = (none, none, none) :=
  ⟨rfl, rfl, rfl, rfl⟩

/-- C6: on every payload that is a JSON array, a JSON number or a JSON boolean
the scalar resolvers return an error together with the empty identifier and a
nil object. -/
theorem scalar_resolvers_reject (raw : List Char) (j : JSON) (h : parse raw = some j)
    (hshape : (∃ xs, j = .arr xs) ∨ (∃ lit, j = .num lit) ∨ (∃ b, j = .bool b)) :
    (∃ err, unmarshalStageOrID raw = ("", none, some err))
      ∧ (∃ err, unmarshalUserOrID raw = ("", none, some err)) := by
  have hne := length_ne_zero_of_parse h
  rcases hshape with ⟨xs, rfl⟩ | ⟨lit, rfl⟩ | ⟨b, rfl⟩ <;>
    constructor <;>
    simp [unmarshalStageOrID, unmarshalUserOrID, hne, unmarshal, h, decodeStage, decodeUser,
      decodeStruct, decodeString]

/-- Witness of C6: the payloads `[]` and `[[]]` of the repository's tests, a
number and a boolean. -/
theorem scalar_resolvers_reject_witness :
    ((∃ err, unmarshalStageOrID "[]".data = ("", none, some err))
        ∧ (∃ err, unmarshalUserOrID "[]".data = ("", none, some err)))
      ∧ ((∃ err, unmarshalStageOrID "[[]]".data = ("", none, some err))
        ∧ (∃ err, unmarshalUserOrID "[[]]".data = ("", none, some err)))
      ∧ ((∃ err, unmarshalStageOrID "-12.5e3".data = ("", none, some err))
        ∧ (∃ err, unmarshalUserOrID "-12.5e3".data = ("", none, some err)))
      ∧ ((∃ err, unmarshalStageOrID "true".data = ("", none, some err))
        ∧ (∃ err, unmarshalUserOrID "true".data = ("", none, some err))) :=
  ⟨scalar_resolvers_reject "[]".data (.arr []) rfl (Or.inl ⟨_, rfl⟩),
    scalar_resolvers_reject "[[]]".data (.arr [.arr []]) rfl (Or.inl ⟨_, rfl⟩),
    scalar_resolvers_reject "-12.5e3".data (.num "-12.5e3") rfl (Or.inr (Or.inl ⟨_, rfl⟩)),
    scalar_resolvers_reject "true".data (.bool true) rfl (Or.inr (Or.inr ⟨_, rfl⟩))⟩

/-- C1: on a JSON array whose elements all decode as users, the array resolver
succeeds, returns the decoded users in payload order, and the identifiers are
the `ID`s of those users in the same order (so both have the length of the
payload array); likewise for feedback forms. -/
theorem array_resolvers_objects (raw : List Char) (elems : List JSON)
    (h : parse raw = some (.arr elems)) :
    ((∀ e ∈ elems, (decodeUser ErrCtx.top User.zero e).2 = none) →
        (unmarshalArrayOfUsersOrIDs raw).2
            = (some (elems.map (fun e => (decodeUser ErrCtx.top User.zero e).1)), none)
          ∧ (unmarshalArrayOfUsersOrIDs raw).1.getD []
            = (elems.map (fun e => (decodeUser ErrCtx.top User.zero e).1)).map User.ID)
      ∧ ((∀ e ∈ elems, (decodeFeedbackForm ErrCtx.top model.FeedbackForm.zero e).2 = none) →
        (unmarshalArrayOfFeedbackFormsOrIDs raw).2.2 = none
          ∧ (unmarshalArrayOfFeedbackFormsOrIDs raw).2.1
            = some (elems.map (fun e => (decodeFeedbackForm ErrCtx.top model.FeedbackForm.zero e).1))
          ∧ (unmarshalArrayOfFeedbackFormsOrIDs raw).1.getD []
            = (elems.map (fun e => (decodeFeedbackForm ErrCtx.top model.FeedbackForm.zero e).1)).map
                model.FeedbackForm.ID) := by
  constructor
  · intro hdec
    rw [unmarshalArrayOfUsersOrIDs_arr h, decodeElems_fresh_ok _ _ _ _ hdec]
    simp only [decodeElems_fresh_values, appendIDs_getD]
    simp
  · intro hdec
    rw [unmarshalArrayOfFeedbackFormsOrIDs_arr h, decodeElems_fresh_ok _ _ _ _ hdec]
    simp only [decodeElems_fresh_values, appendIDs_getD]
    simp


set_option maxRecDepth 100000 in
/-- Witness of C1: the array of one user of `TestUserArrayUnmarshalling`, and an
array of two feedback forms. -/
theorem array_resolvers_objects_witness :
    ((unmarshalArrayOfUsersOrIDs userArray).2 = (some [chandler], none)
        ∧ (unmarshalArrayOfUsersOrIDs userArray).1.getD []
          = ["8d49b010-cc6a-4f40-ace5-e86061c677ed"])
      ∧ ((unmarshalArrayOfFeedbackFormsOrIDs formArray).2.2 = none
        ∧ (unmarshalArrayOfFeedbackFormsOrIDs formArray).1.getD [] = ["f1", "f2"]) :=
  ⟨(array_resolvers_objects userArray [.obj userMembers] rfl).1 (by decide),
    ((array_resolvers_objects formArray formElems rfl).2 (by decide)).1,
    ((array_resolvers_objects formArray formElems rfl).2 (by decide)).2.2⟩

/-- C5: for every non-empty list `l` of strings, both array resolvers return
`(l, nil, nil)` on the JSON text `encodeStringArray l`, and on every other
payload that is the JSON array of the strings of `l`. -/
theorem array_resolvers_strings (l : List String) (hl : l ≠ []) :
    (unmarshalArrayOfUsersOrIDs (encodeStringArray l) = (some l, none, none)
        ∧ unmarshalArrayOfFeedbackFormsOrIDs (encodeStringArray l) = (some l, none, none))
      ∧ ∀ raw, parse raw = some (.arr (l.map JSON.str)) →
          unmarshalArrayOfUsersOrIDs raw = (some l, none, none)
            ∧ unmarshalArrayOfFeedbackFormsOrIDs raw = (some l, none, none) := by
  have key : ∀ raw, parse raw = some (.arr (l.map JSON.str)) →
      unmarshalArrayOfUsersOrIDs raw = (some l, none, none)
        ∧ unmarshalArrayOfFeedbackFormsOrIDs raw = (some l, none, none) := by
    intro raw h
    obtain ⟨x, xs, rfl⟩ := List.exists_cons_of_ne_nil hl
    have hmem : JSON.str x ∈ (x :: xs).map JSON.str := by simp
    have hu := decodeElems_error User.zero decodeUser ErrCtx.top _
      ⟨_, hmem, (decode_shape_errors ErrCtx.top).1 x⟩ []
    have hf := decodeElems_error model.FeedbackForm.zero decodeFeedbackForm ErrCtx.top _
      ⟨_, hmem, (decode_shape_errors ErrCtx.top).2.1 x⟩ []
    constructor
    · rw [unmarshalArrayOfUsersOrIDs_arr h]
      cases hres : (decodeElems User.zero decodeUser ErrCtx.top []
          ((x :: xs).map JSON.str)).2 with
      | none => exact absurd hres hu
      | some e => rw [decodeElems_strings]
    · rw [unmarshalArrayOfFeedbackFormsOrIDs_arr h]
      cases hres : (decodeElems model.FeedbackForm.zero decodeFeedbackForm ErrCtx.top []
          ((x :: xs).map JSON.str)).2 with
      | none => exact absurd hres hf
      | some e => rw [decodeElems_strings]
  exact ⟨key _ (parse_encodeStringArray l hl), key⟩

/-- Witness of C5: the array of one identifier of `TestUserArrayUnmarshalling`. -/
theorem array_resolvers_strings_witness :
    unmarshalArrayOfUsersOrIDs idArray
        = (some ["8d49b010-cc6a-4f40-ace5-e86061c677ed"], none, none)
      ∧ unmarshalArrayOfFeedbackFormsOrIDs idArray
        = (some ["8d49b010-cc6a-4f40-ace5-e86061c677ed"], none, none) :=
  (array_resolvers_strings ["8d49b010-cc6a-4f40-ace5-e86061c677ed"] (by decide)).2 idArray rfl

/-- C7: on a JSON array with an element that is itself an array,
`unmarshalArrayOfUsersOrIDs` returns an error with nil identifiers and nil
users. -/
theorem array_resolver_nested_array (raw : List Char) (elems : List JSON)
    (h : parse raw = some (.arr elems)) (hnested : ∃ e ∈ elems, ∃ xs, e = JSON.arr xs) :
    ∃ err, unmarshalArrayOfUsersOrIDs raw = (none, none, some err) := by
  obtain ⟨e, he, xs, rfl⟩ := hnested
  have hu := decodeElems_error User.zero decodeUser ErrCtx.top _
    ⟨_, he, (decode_shape_errors ErrCtx.top).2.2.1 xs⟩ []
  have hs := decodeElems_error "" decodeString ErrCtx.top _
    ⟨_, he, (decode_shape_errors ErrCtx.top).2.2.2.1 xs⟩ []
  rw [unmarshalArrayOfUsersOrIDs_arr h]
  cases hres : (decodeElems User.zero decodeUser ErrCtx.top [] elems).2 with
  | none => exact absurd hres hu
  | some e1 =>
    cases hres2 : (decodeElems "" decodeString ErrCtx.top [] elems).2 with
    | none => exact absurd hres2 hs
    | some e2 => exact ⟨e2, rfl⟩


/-- Witness of C7: the payload `[[]]` of `TestInvalidUserArrayUnmarshalling`. -/
theorem array_resolver_nested_array_witness :
    ∃ err, unmarshalArrayOfUsersOrIDs "[[]]".data = (none, none, some err) :=
  array_resolver_nested_array "[[]]".data [.arr []] rfl
    ⟨.arr [], List.mem_singleton.mpr rfl, [], rfl⟩

/-- C8: on a JSON array with at least one string element and at least one
object element, both array resolvers return an error, with nil identifiers
and nil objects. -/
theorem array_resolvers_mixed (raw : List Char) (elems : List JSON)
    (h : parse raw = some (.arr elems)) (hstr : ∃ e ∈ elems, ∃ s, e = JSON.str s)
    (hobj : ∃ e ∈ elems, ∃ ms, e = JSON.obj ms) :
    (∃ err, unmarshalArrayOfUsersOrIDs raw = (none, none, some err))
      ∧ (∃ err, unmarshalArrayOfFeedbackFormsOrIDs raw = (none, none, some err)) := by
  obtain ⟨e, he, s, rfl⟩ := hstr
  obtain ⟨o, ho, ms, rfl⟩ := hobj
  have hu := decodeElems_error User.zero decodeUser ErrCtx.top _
    ⟨_, he, (decode_shape_errors ErrCtx.top).1 s⟩ []
  have hf := decodeElems_error model.FeedbackForm.zero decodeFeedbackForm ErrCtx.top _
    ⟨_, he, (decode_shape_errors ErrCtx.top).2.1 s⟩ []
  have hs := decodeElems_error "" decodeString ErrCtx.top _
    ⟨_, ho, (decode_shape_errors ErrCtx.top).2.2.2.2 ms⟩ []
  constructor
  · rw [unmarshalArrayOfUsersOrIDs_arr h]
    cases hres : (decodeElems User.zero decodeUser ErrCtx.top [] elems).2 with
    | none => exact absurd hres hu
    | some e1 =>
      cases hres2 : (decodeElems "" decodeString ErrCtx.top [] elems).2 with
      | none => exact absurd hres2 hs
      | some e2 => exact ⟨e2, rfl⟩
  · rw [unmarshalArrayOfFeedbackFormsOrIDs_arr h]
    cases hres : (decodeElems model.FeedbackForm.zero decodeFeedbackForm ErrCtx.top [] elems).2 with
    | none => exact absurd hres hf
    | some e1 =>
      cases hres2 : (decodeElems "" decodeString ErrCtx.top [] elems).2 with
      | none => exact absurd hres2 hs
      | some e2 => exact ⟨e2, rfl⟩


/-- Witness of C8: an array of one identifier and one object. -/
theorem array_resolvers_mixed_witness :
    (∃ err, unmarshalArrayOfUsersOrIDs mixedArray = (none, none, some err))
      ∧ (∃ err, unmarshalArrayOfFeedbackFormsOrIDs mixedArray = (none, none, some err)) :=
  array_resolvers_mixed mixedArray [.str "a", .obj [("id", .str "b")]] rfl
    ⟨.str "a", List.mem_cons_self _ _, "a", rfl⟩
    ⟨.obj [("id", .str "b")], List.mem_cons_of_mem _ (List.mem_singleton.mpr rfl), _, rfl⟩

/-- C2, amended: on a JSON object that decodes as a stage (as a user) without
error, the scalar resolver returns the identifier, the decoded object and no
error; the identifier is the identifier member of the object as the decoder
reads it (the last string-valued member keyed `id` in any letter case), and
the empty string when the object has none. -/
theorem scalar_resolvers_object (raw : List Char) (members : List (String × JSON))
    (h : parse raw = some (.obj members)) :
    ((decodeStage ErrCtx.top Stage.zero (.obj members)).2 = none →
        unmarshalStageOrID raw
          = ((idMember members).getD "",
              some (decodeStage ErrCtx.top Stage.zero (.obj members)).1, none))
      ∧ ((decodeUser ErrCtx.top User.zero (.obj members)).2 = none →
        unmarshalUserOrID raw
          = ((idMember members).getD "",
              some (decodeUser ErrCtx.top User.zero (.obj members)).1, none)) := by
  have hne := length_ne_zero_of_parse h
  constructor
  · intro hok
    have hid := decodeStage_id ErrCtx.top Stage.zero members hok
    simp only [unmarshalStageOrID, hne, if_false, unmarshal, h, hok, hid]
    rfl
  · intro hok
    have hid := decodeUser_id ErrCtx.top User.zero members hok
    simp only [unmarshalUserOrID, hne, if_false, unmarshal, h, hok, hid]
    rfl


set_option maxRecDepth 100000 in
/-- Witness of C2: the stage object and the user object of the repository's
tests. -/
theorem scalar_resolvers_object_witness :
    unmarshalStageOrID stageObject
        = ("8d49b010-cc6a-4f40-ace5-e86061c677ed",
            some ⟨"8d49b010-cc6a-4f40-ace5-e86061c677ed", "Interview"⟩, none)
      ∧ unmarshalUserOrID userObject
        = ("8d49b010-cc6a-4f40-ace5-e86061c677ed", some chandler, none) :=
  ⟨(scalar_resolvers_object stageObject stageMembers rfl).1 (by decide),
    (scalar_resolvers_object userObject userMembers rfl).2 (by decide)⟩

/-- Counterexample to C2 as stated: the object `\x7b"ID": "x"\x7d` has no member
keyed `id`, it decodes as a stage and as a user, and both resolvers return the
identifier `x`, not the empty string. -/
theorem scalar_resolvers_upper_case_key :
    parse upperIDObject = some (.obj [("ID", .str "x")])
      ∧ (∀ kv ∈ [("ID", JSON.str "x")], kv.1 ≠ "id")
      ∧ unmarshalStageOrID upperIDObject = ("x", some ⟨"x", ""⟩, none)
      ∧ unmarshalUserOrID upperIDObject = ("x", some { User.zero with ID := "x" }, none) :=
  ⟨rfl, by decide, by decide, by decide⟩

/-- C9: when `ToModel` returns no error, each expanded view of the result
agrees with its identifier view: a non-nil `Stage`, `SourcedBy` or `Owner` has
the `ID` held by `StageID`, `SourcedByID` or `OwnerID`, and the `ID`s of
non-nil `Followers` are, in order, the `FollowerIDs`. -/
theorem ToModel_views_agree (o : Opportunity) (result : model.Opportunity)
    (h : (o.ToModel result).2 = none) :
    (∀ st, (o.ToModel result).1.Stage = some st → (o.ToModel result).1.StageID = st.ID)
      ∧ (∀ u, (o.ToModel result).1.SourcedBy = some u → (o.ToModel result).1.SourcedByID = u.ID)
      ∧ (∀ u, (o.ToModel result).1.Owner = some u → (o.ToModel result).1.OwnerID = u.ID)
      ∧ (∀ us, (o.ToModel result).1.Followers = some us →
          (o.ToModel result).1.FollowerIDs.getD [] = us.map User.ID) := by
  unfold Opportunity.ToModel at h ⊢
  cases h1 : (unmarshalStageOrID o.Stage).2.2 with
  | some e => simp [h1] at h
  | none =>
    cases h2 : (unmarshalUserOrID o.SourcedBy).2.2 with
    | some e => simp [h1, h2] at h
    | none =>
      cases h3 : (unmarshalUserOrID o.Owner).2.2 with
      | some e => simp [h1, h2, h3] at h
      | none =>
        cases h4 : (unmarshalArrayOfUsersOrIDs o.Followers).2.2 with
        | some e => simp [h1, h2, h3, h4] at h
        | none =>
          simp only [h1, h2, h3, h4]
          exact ⟨unmarshalStageOrID_agree _, unmarshalUserOrID_agree _,
            unmarshalUserOrID_agree _, unmarshalArrayOfUsersOrIDs_agree _⟩


set_option maxRecDepth 100000 in
/-- Witness of C9: an opportunity with an embedded stage, owner and follower
and a bare `sourcedBy` identifier. -/
theorem ToModel_views_agree_witness :
    (expanded.ToModel model.Opportunity.zero).2 = none
      ∧ (expanded.ToModel model.Opportunity.zero).1.Followers = some [chandler]
      ∧ (expanded.ToModel model.Opportunity.zero).1.SourcedBy = none
      ∧ (∀ st, (expanded.ToModel model.Opportunity.zero).1.Stage = some st →
          (expanded.ToModel model.Opportunity.zero).1.StageID = st.ID)
      ∧ (∀ u, (expanded.ToModel model.Opportunity.zero).1.Owner = some u →
          (expanded.ToModel model.Opportunity.zero).1.OwnerID = u.ID)
      ∧ (∀ us, (expanded.ToModel model.Opportunity.zero).1.Followers = some us →
          (expanded.ToModel model.Opportunity.zero).1.FollowerIDs.getD [] = us.map User.ID) :=
  ⟨by decide, by decide, by decide,
    (ToModel_views_agree expanded model.Opportunity.zero (by decide)).1,
    (ToModel_views_agree expanded model.Opportunity.zero (by decide)).2.2.1,
    (ToModel_views_agree expanded model.Opportunity.zero (by decide)).2.2.2⟩

/-- C10, amended: when `ToModel` returns an error, the 26 fixed fields of the
result hold the values of the raw opportunity, the views of the resolvers
that succeeded before the failing one hold what those resolvers returned, and
the views of the failing resolver and of every later one (in the order stage,
sourcedBy, owner, followers) are as they were before the call. -/
theorem ToModel_error_state (o : Opportunity) (result : model.Opportunity)
    (h : (o.ToModel result).2 ≠ none) :
    fixedFieldsEq o (o.ToModel result).1
      ∧ ((o.ToModel result).1.FollowerIDs = result.FollowerIDs
        ∧ (o.ToModel result).1.Followers = result.Followers)
      ∧ ((unmarshalStageOrID o.Stage).2.2 ≠ none →
        (o.ToModel result).1.StageID = result.StageID
          ∧ (o.ToModel result).1.Stage = result.Stage
          ∧ (o.ToModel result).1.SourcedByID = result.SourcedByID
          ∧ (o.ToModel result).1.SourcedBy = result.SourcedBy
          ∧ (o.ToModel result).1.OwnerID = result.OwnerID
          ∧ (o.ToModel result).1.Owner = result.Owner)
      ∧ ((unmarshalStageOrID o.Stage).2.2 = none →
        (o.ToModel result).1.StageID = (unmarshalStageOrID o.Stage).1
          ∧ (o.ToModel result).1.Stage = (unmarshalStageOrID o.Stage).2.1
          ∧ ((unmarshalUserOrID o.SourcedBy).2.2 ≠ none →
            (o.ToModel result).1.SourcedByID = result.SourcedByID
              ∧ (o.ToModel result).1.SourcedBy = result.SourcedBy
              ∧ (o.ToModel result).1.OwnerID = result.OwnerID
              ∧ (o.ToModel result).1.Owner = result.Owner)
          ∧ ((unmarshalUserOrID o.SourcedBy).2.2 = none →
            (o.ToModel result).1.SourcedByID = (unmarshalUserOrID o.SourcedBy).1
              ∧ (o.ToModel result).1.SourcedBy = (unmarshalUserOrID o.SourcedBy).2.1
              ∧ ((unmarshalUserOrID o.Owner).2.2 ≠ none →
                (o.ToModel result).1.OwnerID = result.OwnerID
                  ∧ (o.ToModel result).1.Owner = result.Owner)
              ∧ ((unmarshalUserOrID o.Owner).2.2 = none →
                (o.ToModel result).1.OwnerID = (unmarshalUserOrID o.Owner).1
                  ∧ (o.ToModel result).1.Owner = (unmarshalUserOrID o.Owner).2.1))) := by
  unfold Opportunity.ToModel at h ⊢
  cases h1 : (unmarshalStageOrID o.Stage).2.2 with
  | some e => simp [h1, fixedFieldsEq]
  | none =>
    cases h2 : (unmarshalUserOrID o.SourcedBy).2.2 with
    | some e => simp [h1, h2, fixedFieldsEq]
    | none =>
      cases h3 : (unmarshalUserOrID o.Owner).2.2 with
      | some e => simp [h1, h2, h3, fixedFieldsEq]
      | none =>
        cases h4 : (unmarshalArrayOfUsersOrIDs o.Followers).2.2 with
        | some e => simp [h1, h2, h3, h4, fixedFieldsEq]
        | none => simp [h1, h2, h3, h4] at h


set_option maxRecDepth 100000 in
/-- Witness of C10, amended: the owner `[]` makes `ToModel` fail after the
stage and `sourcedBy` were resolved. -/
theorem ToModel_error_state_witness :
    (badOwner.ToModel model.Opportunity.zero).2 ≠ none
      ∧ fixedFieldsEq badOwner (badOwner.ToModel model.Opportunity.zero).1
      ∧ ((badOwner.ToModel model.Opportunity.zero).1.FollowerIDs = none
        ∧ (badOwner.ToModel model.Opportunity.zero).1.Followers = none) :=
  ⟨by decide, (ToModel_error_state badOwner model.Opportunity.zero (by decide)).1,
    (ToModel_error_state badOwner model.Opportunity.zero (by decide)).2.1⟩

set_option maxRecDepth 100000 in
/-- Counterexample to C10 as stated: `ToModel` returns an error on `badOwner`,
and the result, which was the zero model before the call, now has the `ID`,
the `Name` and the `StageID` of the raw opportunity. -/
theorem ToModel_error_overwrites :
    (badOwner.ToModel model.Opportunity.zero).2 ≠ none
      ∧ (badOwner.ToModel model.Opportunity.zero).1 ≠ model.Opportunity.zero
      ∧ (badOwner.ToModel model.Opportunity.zero).1.ID = "o1"
      ∧ (badOwner.ToModel model.Opportunity.zero).1.Name = "Chandler"
      ∧ (badOwner.ToModel model.Opportunity.zero).1.StageID = "s1" :=
  ⟨by decide, by decide, by decide, by decide, by decide⟩

end multimodel

/-! ## Theorems: blanks around a JSON text -/

namespace GoJSON

/-- The four JSON blanks. -/
theorem isSpace_cases {c : Char} (h : isSpace c = true) :
    c = ' ' ∨ c = '\t' ∨ c = '\r' ∨ c = '\n' := by
  simp only [isSpace, Bool.or_eq_true, decide_eq_true_eq] at h
  tauto

/-- The two ways an `if` with a `some` branch can be `some x`. -/
theorem ite_some_cases {α : Type} {p : Prop} [Decidable p] {a : α} {e : Option α} {x : α}
    (h : (if p then some a else e) = some x) : x = a ∨ e = some x := by
  by_cases hp : p
  · rw [if_pos hp] at h
    exact Or.inl (Option.some.inj h).symm
  · rw [if_neg hp] at h
    exact Or.inr h

/-- A step between tokens leads to a well-formed state. -/
theorem idleStep_wf (out : List Token) (c : Char) (st1 : LexState) (out1 : List Token)
    (h : idleStep out c = some (st1, out1)) : st1.wf := by
  unfold idleStep at h
  repeat
    rcases ite_some_cases h with he | h
    · first
      | (cases he; exact True.intro)
      | (cases he; intro x hx
         simp only [List.mem_cons, List.mem_singleton, List.not_mem_nil, or_false] at hx
         rcases hx with rfl | rfl | rfl | rfl <;> decide)
  cases h

/-- A scanner step keeps the state well formed. -/
theorem lexStep_wf (st : LexState) (out : List Token) (c : Char) (st1 : LexState)
    (out1 : List Token) (hwf : st.wf) (h : lexStep st out c = some (st1, out1)) : st1.wf := by
  cases st with
  | idle => exact idleStep_wf _ _ _ _ h
  | inLit expect tok =>
    simp only [lexStep] at h
    rcases expect with _ | ⟨e, _ | ⟨e2, more⟩⟩
    · simp at h
    · simp only at h
      split_ifs at h
      simp only [Option.some.injEq, Prod.mk.injEq] at h
      obtain ⟨rfl, _⟩ := h
      trivial
    · simp only at h
      split_ifs at h
      simp only [Option.some.injEq, Prod.mk.injEq] at h
      obtain ⟨rfl, _⟩ := h
      intro x hx
      exact hwf x (List.mem_cons_of_mem _ hx)
  | num0 acc =>
    simp only [lexStep, endNumber] at h
    split_ifs at h
    · simp only [Option.some.injEq, Prod.mk.injEq] at h; obtain ⟨rfl, _⟩ := h; trivial
    · simp only [Option.some.injEq, Prod.mk.injEq] at h; obtain ⟨rfl, _⟩ := h; trivial
    · exact idleStep_wf _ _ _ _ h
  | num1 acc =>
    simp only [lexStep, endNumber] at h
    split_ifs at h
    · simp only [Option.some.injEq, Prod.mk.injEq] at h; obtain ⟨rfl, _⟩ := h; trivial
    · simp only [Option.some.injEq, Prod.mk.injEq] at h; obtain ⟨rfl, _⟩ := h; trivial
    · simp only [Option.some.injEq, Prod.mk.injEq] at h; obtain ⟨rfl, _⟩ := h; trivial
    · exact idleStep_wf _ _ _ _ h
  | numDot0 acc =>
    simp only [lexStep, endNumber] at h
    split_ifs at h
    · simp only [Option.some.injEq, Prod.mk.injEq] at h; obtain ⟨rfl, _⟩ := h; trivial
    · simp only [Option.some.injEq, Prod.mk.injEq] at h; obtain ⟨rfl, _⟩ := h; trivial
    · exact idleStep_wf _ _ _ _ h
  | numE0 acc =>
    simp only [lexStep, endNumber] at h
    split_ifs at h
    · simp only [Option.some.injEq, Prod.mk.injEq] at h; obtain ⟨rfl, _⟩ := h; trivial
    · exact idleStep_wf _ _ _ _ h
  | inString acc =>
    simp only [lexStep] at h
    split_ifs at h <;> simp only [Option.some.injEq, Prod.mk.injEq] at h <;>
      (obtain ⟨rfl, _⟩ := h; trivial)
  | inStringEsc acc =>
    simp only [lexStep] at h
    split_ifs at h <;> simp only [Option.some.injEq, Prod.mk.injEq] at h <;>
      (obtain ⟨rfl, _⟩ := h; trivial)
  | inStringEscU acc k =>
    simp only [lexStep] at h
    split_ifs at h <;> simp only [Option.some.injEq, Prod.mk.injEq] at h <;>
      (obtain ⟨rfl, _⟩ := h; trivial)
  | numNeg acc =>
    simp only [lexStep] at h
    split_ifs at h <;> simp only [Option.some.injEq, Prod.mk.injEq] at h <;>
      (obtain ⟨rfl, _⟩ := h; trivial)
  | numDot acc =>
    simp only [lexStep] at h
    split_ifs at h
    simp only [Option.some.injEq, Prod.mk.injEq] at h
    obtain ⟨rfl, _⟩ := h
    trivial
  | numE acc =>
    simp only [lexStep] at h
    split_ifs at h <;> simp only [Option.some.injEq, Prod.mk.injEq] at h <;>
      (obtain ⟨rfl, _⟩ := h; trivial)
  | numESign acc =>
    simp only [lexStep] at h
    split_ifs at h
    simp only [Option.some.injEq, Prod.mk.injEq] at h
    obtain ⟨rfl, _⟩ := h
    trivial


/-- What the scanner makes of one blank and the end of input after it is
what it makes of the end of input. -/
theorem lexStep_space_finish (st : LexState) (out : List Token) (c : Char) (hwf : st.wf)
    (hc : isSpace c = true) :
    (match lexStep st out c with
      | none => none
      | some (st1, out1) => lexFinish st1 out1) = lexFinish st out := by
  have hne : ∀ e, isSpace e = false → ¬ c = e := by
    intro e he hce
    rw [hce, he] at hc
    exact Bool.noConfusion hc
  cases st with
  | inLit expect tok =>
    rcases expect with _ | ⟨e, _ | ⟨e2, more⟩⟩
    · rfl
    · have := hne e (hwf e (List.mem_cons_self _ _))
      simp [lexStep, this, lexFinish]
    · have := hne e (hwf e (List.mem_cons_self _ _))
      simp [lexStep, this, lexFinish]
  | _ => rcases isSpace_cases hc with rfl | rfl | rfl | rfl <;> rfl

/-- Blanks before the end of input change nothing. -/
theorem lexFrom_spaces (st : LexState) (out : List Token) (ws : List Char) (hwf : st.wf)
    (hws : ∀ c ∈ ws, isSpace c = true) : lexFrom st out ws = lexFinish st out := by
  induction ws generalizing st out with
  | nil => rfl
  | cons c ws ih =>
    have hc := hws c (List.mem_cons_self _ _)
    have hstep := lexStep_space_finish st out c hwf hc
    simp only [lexFrom]
    cases hls : lexStep st out c with
    | none => rw [hls] at hstep; exact hstep
    | some r =>
      obtain ⟨st1, out1⟩ := r
      rw [hls] at hstep
      simp only at hstep ⊢
      rw [ih st1 out1 (lexStep_wf st out c st1 out1 hwf hls)
        (fun x hx => hws x (List.mem_cons_of_mem _ hx))]
      exact hstep

/-- Blanks after a text change nothing. -/
theorem lexFrom_append_spaces (st : LexState) (out : List Token) (p ws : List Char)
    (hwf : st.wf) (hws : ∀ c ∈ ws, isSpace c = true) :
    lexFrom st out (p ++ ws) = lexFrom st out p := by
  induction p generalizing st out with
  | nil => simpa [lexFrom] using lexFrom_spaces st out ws hwf hws
  | cons c p ih =>
    simp only [List.cons_append, lexFrom]
    cases hls : lexStep st out c with
    | none => rfl
    | some r =>
      obtain ⟨st1, out1⟩ := r
      exact ih st1 out1 (lexStep_wf st out c st1 out1 hwf hls)

/-- Blanks before a text change nothing. -/
theorem lexFrom_spaces_append (out : List Token) (ws p : List Char)
    (hws : ∀ c ∈ ws, isSpace c = true) :
    lexFrom .idle out (ws ++ p) = lexFrom .idle out p := by
  induction ws with
  | nil => rfl
  | cons c ws ih =>
    have hc := hws c (List.mem_cons_self _ _)
    simp only [List.cons_append, lexFrom, lexStep, idleStep, hc, if_true]
    exact ih (fun x hx => hws x (List.mem_cons_of_mem _ hx))

/-- Blanks before and after a text do not change its tokens. -/
theorem lex_surround (ws1 p ws2 : List Char) (h1 : ∀ c ∈ ws1, isSpace c = true)
    (h2 : ∀ c ∈ ws2, isSpace c = true) : lex (ws1 ++ p ++ ws2) = lex p := by
  unfold lex
  rw [List.append_assoc, lexFrom_spaces_append _ _ _ h1]
  exact lexFrom_append_spaces .idle [] p ws2 True.intro h2

/-- The value of a text depends on its tokens only. -/
theorem parse_congr {p q : List Char} (h : lex p = lex q) : parse p = parse q := by
  unfold parse
  rw [h]

end GoJSON

/-! ## Theorems: projection of the fixed fields and of errors -/

namespace multimodel

open GoJSON model testdata

/-- The resolvers look at a non-empty payload only through its value. -/
theorem resolvers_congr {p q : List Char} (hp : p ≠ []) (hq : q ≠ [])
    (h : parse p = parse q) :
    unmarshalStageOrID p = unmarshalStageOrID q
      ∧ unmarshalUserOrID p = unmarshalUserOrID q
      ∧ unmarshalArrayOfUsersOrIDs p = unmarshalArrayOfUsersOrIDs q
      ∧ unmarshalArrayOfFeedbackFormsOrIDs p = unmarshalArrayOfFeedbackFormsOrIDs q := by
  have hp0 : p.length ≠ 0 := fun h0 => hp (List.length_eq_zero.mp h0)
  have hq0 : q.length ≠ 0 := fun h0 => hq (List.length_eq_zero.mp h0)
  simp only [unmarshalStageOrID, unmarshalUserOrID, unmarshalArrayOfUsersOrIDs,
    unmarshalArrayOfFeedbackFormsOrIDs, hp0, hq0, if_false, unmarshal, h, and_self]

/-- On a payload whose value is the JSON string `s` both scalar resolvers
return `(s, nil, nil)`. -/
theorem scalar_resolvers_of_str (raw : List Char) (s : String)
    (h : parse raw = some (.str s)) :
    unmarshalStageOrID raw = (s, none, none) ∧ unmarshalUserOrID raw = (s, none, none) := by
  have hne := length_ne_zero_of_parse h
  constructor
  · simp [unmarshalStageOrID, hne, unmarshal, h, decodeStage, decodeStruct, decodeString]
  · simp [unmarshalUserOrID, hne, unmarshal, h, decodeUser, decodeStruct, decodeString]

/-- An error of `unmarshalStageOrID` is the error of decoding the payload as a
string, after decoding it as a stage failed. -/
theorem unmarshalStageOrID_error (raw : List Char) (e : JsonError)
    (h : (unmarshalStageOrID raw).2.2 = some e) :
    (unmarshal decodeStage raw Stage.zero).2 ≠ none
      ∧ (unmarshal decodeString raw "").2 = some e := by
  unfold unmarshalStageOrID at h
  by_cases hlen : raw.length = 0
  · simp [hlen] at h
  · simp only [hlen, if_false] at h
    cases h1 : (unmarshal decodeStage raw Stage.zero).2 with
    | none => simp [h1] at h
    | some e1 =>
      simp only [h1] at h
      cases h2 : (unmarshal decodeString raw "").2 with
      | none => simp [h2] at h
      | some e2 =>
        simp only [h2, Option.some.injEq] at h
        subst h
        exact ⟨by simp, rfl⟩

/-- An error of `unmarshalUserOrID` is the error of decoding the payload as a
string, after decoding it as a user failed. -/
theorem unmarshalUserOrID_error (raw : List Char) (e : JsonError)
    (h : (unmarshalUserOrID raw).2.2 = some e) :
    (unmarshal decodeUser raw User.zero).2 ≠ none
      ∧ (unmarshal decodeString raw "").2 = some e := by
  unfold unmarshalUserOrID at h
  by_cases hlen : raw.length = 0
  · simp [hlen] at h
  · simp only [hlen, if_false] at h
    cases h1 : (unmarshal decodeUser raw User.zero).2 with
    | none => simp [h1] at h
    | some e1 =>
      simp only [h1] at h
      cases h2 : (unmarshal decodeString raw "").2 with
      | none => simp [h2] at h
      | some e2 =>
        simp only [h2, Option.some.injEq] at h
        subst h
        exact ⟨by simp, rfl⟩

/-- An error of `unmarshalArrayOfUsersOrIDs` is the error of decoding the
payload as an array of strings, after decoding it as an array of users failed. -/
theorem unmarshalArrayOfUsersOrIDs_error (raw : List Char) (e : JsonError)
    (h : (unmarshalArrayOfUsersOrIDs raw).2.2 = some e) :
    (unmarshal (decodeSlice "[]model.User" User.zero decodeUser) raw none).2 ≠ none
      ∧ (unmarshal (decodeSlice "[]string" "" decodeString) raw none).2 = some e := by
  unfold unmarshalArrayOfUsersOrIDs at h
  by_cases hlen : raw.length = 0
  · simp [hlen] at h
  · simp only [hlen, if_false] at h
    cases h1 : (unmarshal (decodeSlice "[]model.User" User.zero decodeUser) raw none).2 with
    | none => simp [h1] at h
    | some e1 =>
      simp only [h1] at h
      cases h2 : (unmarshal (decodeSlice "[]string" "" decodeString) raw none).2 with
      | none => simp [h2] at h
      | some e2 =>
        simp only [h2, Option.some.injEq] at h
        subst h
        exact ⟨by simp, rfl⟩

/-- The error of `Opportunity.ToModel` is the error of one of its resolver calls. -/
theorem ToModel_error_cases (o : Opportunity) (result : model.Opportunity) (e : JsonError)
    (h : (o.ToModel result).2 = some e) :
    (unmarshalStageOrID o.Stage).2.2 = some e ∨ (unmarshalUserOrID o.SourcedBy).2.2 = some e
      ∨ (unmarshalUserOrID o.Owner).2.2 = some e
      ∨ (unmarshalArrayOfUsersOrIDs o.Followers).2.2 = some e := by
  unfold Opportunity.ToModel at h
  cases h1 : (unmarshalStageOrID o.Stage).2.2 <;>
    cases h2 : (unmarshalUserOrID o.SourcedBy).2.2 <;>
    cases h3 : (unmarshalUserOrID o.Owner).2.2 <;>
    cases h4 : (unmarshalArrayOfUsersOrIDs o.Followers).2.2 <;>
    simp_all

/-- C13: each projector copies every fixed field verbatim from the raw model,
whatever the result held before: the 26 fixed fields of `Opportunity.ToModel`,
the 15 of `Interview.ToModel` and the 12 of `FeedbackForm.ToModel`. The copy
is made before the resolvers run, so it holds in particular after the
projector returned nil. -/
theorem projectors_copy_fixed_fields :
    (∀ (o : Opportunity) (result : model.Opportunity), fixedFieldsEq o (o.ToModel result).1)
      ∧ (∀ (o : Interview) (result : model.Interview),
        interviewFixedFieldsEq o (o.ToModel result).1)
      ∧ (∀ (f : FeedbackForm) (result : model.FeedbackForm),
        formFixedFieldsEq f (f.ToModel result).1) := by
  refine ⟨?_, ?_, ?_⟩
  · intro o result
    unfold Opportunity.ToModel
    cases h1 : (unmarshalStageOrID o.Stage).2.2 <;>
      cases h2 : (unmarshalUserOrID o.SourcedBy).2.2 <;>
      cases h3 : (unmarshalUserOrID o.Owner).2.2 <;>
      cases h4 : (unmarshalArrayOfUsersOrIDs o.Followers).2.2 <;>
      simp [h1, h2, h3, h4, fixedFieldsEq]
  · intro o result
    unfold Interview.ToModel
    cases h1 : (unmarshalArrayOfFeedbackFormsOrIDs o.FeedbackForms).2.2 <;>
      cases h2 : (unmarshalUserOrID o.User).2.2 <;>
      cases h3 : (unmarshalStageOrID o.Stage).2.2 <;>
      simp [h1, h2, h3, interviewFixedFieldsEq]
  · intro f result
    unfold FeedbackForm.ToModel
    cases h1 : (unmarshalUserOrID f.UserID).2.2 <;> simp [h1, formFixedFieldsEq]

/-- C14: `Opportunity.ToModel` returns the error of the first failing resolver
in the order stage, sourcedBy, owner, followers, unchanged, and it returns an
error if and only if one of the four resolvers returns one on its payload. -/
theorem ToModel_error_is_first (o : Opportunity) (result : model.Opportunity) :
    (o.ToModel result).2
        = firstError (unmarshalStageOrID o.Stage).2.2
            (firstError (unmarshalUserOrID o.SourcedBy).2.2
              (firstError (unmarshalUserOrID o.Owner).2.2
                (unmarshalArrayOfUsersOrIDs o.Followers).2.2))
      ∧ ((o.ToModel result).2 ≠ none ↔
          ((unmarshalStageOrID o.Stage).2.2 ≠ none ∨ (unmarshalUserOrID o.SourcedBy).2.2 ≠ none
            ∨ (unmarshalUserOrID o.Owner).2.2 ≠ none
            ∨ (unmarshalArrayOfUsersOrIDs o.Followers).2.2 ≠ none)) := by
  unfold Opportunity.ToModel
  cases h1 : (unmarshalStageOrID o.Stage).2.2 <;>
    cases h2 : (unmarshalUserOrID o.SourcedBy).2.2 <;>
    cases h3 : (unmarshalUserOrID o.Owner).2.2 <;>
    cases h4 : (unmarshalArrayOfUsersOrIDs o.Followers).2.2 <;>
    simp [h1, h2, h3, h4, firstError]

/-- C16, as the code behaves: when both decode attempts fail, the error of a
resolver is the error `json.Unmarshal` gave for the second attempt (the
payload decoded as a string, for followers as an array of strings), and the
error of `Opportunity.ToModel` is one of these; nothing in it depends on the
field the payload stood in, so the stage and the user resolver return the same
error for the same payload. -/
theorem resolver_error_is_bare :
    (∀ raw e, (unmarshalStageOrID raw).2.2 = some e →
        (unmarshal decodeString raw "").2 = some e)
      ∧ (∀ raw e, (unmarshalUserOrID raw).2.2 = some e →
        (unmarshal decodeString raw "").2 = some e)
      ∧ (∀ raw e, (unmarshalArrayOfUsersOrIDs raw).2.2 = some e →
        (unmarshal (decodeSlice "[]string" "" decodeString) raw none).2 = some e)
      ∧ (∀ (o : Opportunity) (result : model.Opportunity) (e : JsonError),
        (o.ToModel result).2 = some e →
          (unmarshal decodeString o.Stage "").2 = some e
            ∨ (unmarshal decodeString o.SourcedBy "").2 = some e
            ∨ (unmarshal decodeString o.Owner "").2 = some e
            ∨ (unmarshal (decodeSlice "[]string" "" decodeString) o.Followers none).2 = some e)
      ∧ (∀ raw e1 e2, (unmarshalStageOrID raw).2.2 = some e1 →
        (unmarshalUserOrID raw).2.2 = some e2 → e1 = e2) := by
  refine ⟨fun raw e h => (unmarshalStageOrID_error raw e h).2,
    fun raw e h => (unmarshalUserOrID_error raw e h).2,
    fun raw e h => (unmarshalArrayOfUsersOrIDs_error raw e h).2, ?_, ?_⟩
  · intro o result e h
    rcases ToModel_error_cases o result e h with h1 | h1 | h1 | h1
    · exact Or.inl (unmarshalStageOrID_error _ e h1).2
    · exact Or.inr (Or.inl (unmarshalUserOrID_error _ e h1).2)
    · exact Or.inr (Or.inr (Or.inl (unmarshalUserOrID_error _ e h1).2))
    · exact Or.inr (Or.inr (Or.inr (unmarshalArrayOfUsersOrIDs_error _ e h1).2))
  · intro raw e1 e2 h1 h2
    have a := (unmarshalStageOrID_error raw e1 h1).2
    have b := (unmarshalUserOrID_error raw e2 h2).2
    rw [a] at b
    exact Option.some.inj b

/-- Witness of C16: the payload `7` in the stage and in the owner of an
opportunity. -/
theorem resolver_error_is_bare_witness :
    (unmarshalStageOrID malformed).2.2 = some (.unmarshalType "number" "string" "" "")
      ∧ (unmarshal decodeString malformed "").2 = some (.unmarshalType "number" "string" "" "")
      ∧ ((unmarshal decodeString badOwnerNumber.Stage "").2
            = some (.unmarshalType "number" "string" "" "")
          ∨ (unmarshal decodeString badOwnerNumber.SourcedBy "").2
            = some (.unmarshalType "number" "string" "" "")
          ∨ (unmarshal decodeString badOwnerNumber.Owner "").2
            = some (.unmarshalType "number" "string" "" "")
          ∨ (unmarshal (decodeSlice "[]string" "" decodeString) badOwnerNumber.Followers none).2
            = some (.unmarshalType "number" "string" "" "")) :=
  ⟨by decide, resolver_error_is_bare.1 malformed _ (by decide),
    resolver_error_is_bare.2.2.2.1 badOwnerNumber model.Opportunity.zero _ (by decide)⟩

/-- Counterexample to C16: the payload `7` in the stage, in `sourcedBy` and in
the owner of an opportunity makes `Opportunity.ToModel` return one and the
same error, the type error of `json.Unmarshal` with no struct and no field in
it; in the followers it returns the type error for `[]string`. -/
theorem ToModel_error_names_no_field :
    (badStage.ToModel model.Opportunity.zero).2 = some (.unmarshalType "number" "string" "" "")
      ∧ (badSourcedBy.ToModel model.Opportunity.zero).2
        = some (.unmarshalType "number" "string" "" "")
      ∧ (badOwnerNumber.ToModel model.Opportunity.zero).2
        = some (.unmarshalType "number" "string" "" "")
      ∧ (badFollowers.ToModel model.Opportunity.zero).2
        = some (.unmarshalType "number" "[]string" "" "")
      ∧ (unmarshal decodeString malformed "").2 = some (.unmarshalType "number" "string" "" "")
      ∧ (unmarshal (decodeSlice "[]string" "" decodeString) malformed none).2
        = some (.unmarshalType "number" "[]string" "" "") := by
  decide

/-- C17, for non-empty payloads: blanks before and after a non-empty payload
change nothing in what any resolver returns; two non-empty payloads with the
same JSON tokens (the same text up to blanks between tokens, as with indented
formatting) resolve alike; and an encoded id with blanks around it resolves
to `(id, nil, nil)`. -/
theorem resolvers_ignore_blanks :
    (∀ p ws1 ws2 : List Char, p ≠ [] → (∀ c ∈ ws1, isSpace c = true) →
        (∀ c ∈ ws2, isSpace c = true) →
        unmarshalStageOrID (ws1 ++ p ++ ws2) = unmarshalStageOrID p
          ∧ unmarshalUserOrID (ws1 ++ p ++ ws2) = unmarshalUserOrID p
          ∧ unmarshalArrayOfUsersOrIDs (ws1 ++ p ++ ws2) = unmarshalArrayOfUsersOrIDs p
          ∧ unmarshalArrayOfFeedbackFormsOrIDs (ws1 ++ p ++ ws2)
            = unmarshalArrayOfFeedbackFormsOrIDs p)
      ∧ (∀ p q : List Char, p ≠ [] → q ≠ [] → lex p = lex q →
        unmarshalStageOrID p = unmarshalStageOrID q
          ∧ unmarshalUserOrID p = unmarshalUserOrID q
          ∧ unmarshalArrayOfUsersOrIDs p = unmarshalArrayOfUsersOrIDs q
          ∧ unmarshalArrayOfFeedbackFormsOrIDs p = unmarshalArrayOfFeedbackFormsOrIDs q)
      ∧ (∀ (id : String) (ws1 ws2 : List Char), (∀ c ∈ ws1, isSpace c = true) →
        (∀ c ∈ ws2, isSpace c = true) →
        unmarshalStageOrID (ws1 ++ encodeString id ++ ws2) = (id, none, none)
          ∧ unmarshalUserOrID (ws1 ++ encodeString id ++ ws2) = (id, none, none)) := by
  have hsur : ∀ p ws1 ws2 : List Char, p ≠ [] → (∀ c ∈ ws1, isSpace c = true) →
      (∀ c ∈ ws2, isSpace c = true) →
      (ws1 ++ p ++ ws2) ≠ [] ∧ parse (ws1 ++ p ++ ws2) = parse p := by
    intro p ws1 ws2 hp h1 h2
    refine ⟨?_, parse_congr (lex_surround ws1 p ws2 h1 h2)⟩
    intro h
    simp only [List.append_eq_nil] at h
    exact hp h.1.2
  refine ⟨?_, ?_, ?_⟩
  · intro p ws1 ws2 hp h1 h2
    obtain ⟨hne, hpar⟩ := hsur p ws1 ws2 hp h1 h2
    exact resolvers_congr hne hp hpar
  · intro p q hp hq h
    exact resolvers_congr hp hq (parse_congr h)
  · intro id ws1 ws2 h1 h2
    have hp : encodeString id ≠ [] := by simp [encodeString]
    obtain ⟨hne, hpar⟩ := hsur (encodeString id) ws1 ws2 hp h1 h2
    have hval : parse (ws1 ++ encodeString id ++ ws2) = some (.str id) := by
      rw [hpar, parse_encodeString]
    exact scalar_resolvers_of_str _ id hval

/-- Witness of C17: the stage object between blanks and line breaks, its
indented and its compact formatting, and a quoted id between blanks. -/
theorem resolvers_ignore_blanks_witness :
    (unmarshalStageOrID ([' ', '\n'] ++ stageObject ++ ['\t', ' ']) = unmarshalStageOrID stageObject
        ∧ unmarshalUserOrID ([' ', '\n'] ++ stageObject ++ ['\t', ' '])
          = unmarshalUserOrID stageObject
        ∧ unmarshalArrayOfUsersOrIDs ([' ', '\n'] ++ stageObject ++ ['\t', ' '])
          = unmarshalArrayOfUsersOrIDs stageObject
        ∧ unmarshalArrayOfFeedbackFormsOrIDs ([' ', '\n'] ++ stageObject ++ ['\t', ' '])
          = unmarshalArrayOfFeedbackFormsOrIDs stageObject)
      ∧ (unmarshalStageOrID stageIndented = unmarshalStageOrID stageCompact
        ∧ unmarshalUserOrID stageIndented = unmarshalUserOrID stageCompact
        ∧ unmarshalArrayOfUsersOrIDs stageIndented = unmarshalArrayOfUsersOrIDs stageCompact
        ∧ unmarshalArrayOfFeedbackFormsOrIDs stageIndented
          = unmarshalArrayOfFeedbackFormsOrIDs stageCompact)
      ∧ (unmarshalStageOrID ([' ', ' '] ++ encodeString "lead-new" ++ [' ', ' '])
          = ("lead-new", none, none)
        ∧ unmarshalUserOrID ([' ', ' '] ++ encodeString "lead-new" ++ [' ', ' '])
          = ("lead-new", none, none)) :=
  ⟨resolvers_ignore_blanks.1 stageObject [' ', '\n'] ['\t', ' '] (by decide) (by decide)
      (by decide),
    resolvers_ignore_blanks.2.1 stageIndented stageCompact (by decide) (by decide) (by decide),
    resolvers_ignore_blanks.2.2 "lead-new" [' ', ' '] [' ', ' '] (by decide) (by decide)⟩

/-- Counterexample to C17: every resolver succeeds on the empty payload, and
returns a syntax error on the payload of one blank. -/
theorem resolvers_blank_payload :
    unmarshalStageOrID [] = ("", none, none)
      ∧ unmarshalStageOrID blankPayload = ("", none, some .syntaxError)
      ∧ unmarshalUserOrID [] = ("", none, none)
      ∧ unmarshalUserOrID blankPayload = ("", none, some .syntaxError)
      ∧ unmarshalArrayOfUsersOrIDs [] = (none, none, none)
      ∧ unmarshalArrayOfUsersOrIDs blankPayload = (none, none, some .syntaxError) := by
  decide

end multimodel

/-! ## Theorems: JSON null, nested feedback forms, list responses -/

namespace multimodel

open GoJSON model testdata

/-- On a payload whose value is JSON null both scalar resolvers succeed and
return the empty identifier with a pointer to a zero object. -/
theorem scalar_resolvers_of_null (raw : List Char) (h : parse raw = some .null) :
    unmarshalStageOrID raw = ("", some Stage.zero, none)
      ∧ unmarshalUserOrID raw = ("", some User.zero, none) := by
  have hne := length_ne_zero_of_parse h
  constructor
  · simp [unmarshalStageOrID, hne, unmarshal, h, decodeStage, decodeStruct, Stage.zero]
  · simp [unmarshalUserOrID, hne, unmarshal, h, decodeUser, decodeStruct, User.zero]

/-- When a scalar resolver returns an object, the payload is a JSON object or
JSON null. -/
theorem scalar_resolvers_object_shape (raw : List Char) :
    (∀ id s err, unmarshalStageOrID raw = (id, some s, err) →
        parse raw = some .null ∨ ∃ members, parse raw = some (.obj members))
      ∧ (∀ id u err, unmarshalUserOrID raw = (id, some u, err) →
        parse raw = some .null ∨ ∃ members, parse raw = some (.obj members)) := by
  constructor
  · intro id s err h
    unfold unmarshalStageOrID at h
    by_cases hlen : raw.length = 0
    · simp [hlen] at h
    · simp only [hlen, if_false] at h
      cases hp : parse raw with
      | none => simp [unmarshal, hp] at h
      | some j =>
        cases j with
        | null => exact Or.inl rfl
        | obj members => exact Or.inr ⟨members, rfl⟩
        | bool b => simp [unmarshal, hp, decodeStage, decodeStruct, decodeString, typeError] at h
        | num lit => simp [unmarshal, hp, decodeStage, decodeStruct, decodeString, typeError] at h
        | str x => simp [unmarshal, hp, decodeStage, decodeStruct, decodeString, typeError] at h
        | arr xs => simp [unmarshal, hp, decodeStage, decodeStruct, decodeString, typeError] at h
  · intro id s err h
    unfold unmarshalUserOrID at h
    by_cases hlen : raw.length = 0
    · simp [hlen] at h
    · simp only [hlen, if_false] at h
      cases hp : parse raw with
      | none => simp [unmarshal, hp] at h
      | some j =>
        cases j with
        | null => exact Or.inl rfl
        | obj members => exact Or.inr ⟨members, rfl⟩
        | bool b => simp [unmarshal, hp, decodeUser, decodeStruct, decodeString, typeError] at h
        | num lit => simp [unmarshal, hp, decodeUser, decodeStruct, decodeString, typeError] at h
        | str x => simp [unmarshal, hp, decodeUser, decodeStruct, decodeString, typeError] at h
        | arr xs => simp [unmarshal, hp, decodeUser, decodeStruct, decodeString, typeError] at h

set_option maxRecDepth 100000 in
/-- C12, the code at the failing input: on the payload `null` the scalar
resolvers succeed with a non-nil pointer to a zero object, and the opportunity
of a created candidate, whose `sourcedBy` is JSON null, projects to a
`SourcedBy` that is a zero user and not nil. -/
theorem null_payload_populates_object :
    unmarshalStageOrID nullPayload = ("", some Stage.zero, none)
      ∧ unmarshalUserOrID nullPayload = ("", some User.zero, none)
      ∧ unmarshal decodeRawOpportunity candidateObject Opportunity.zero = (candidate, none)
      ∧ (candidate.ToModel model.Opportunity.zero).2 = none
      ∧ (candidate.ToModel model.Opportunity.zero).1.SourcedByID = ""
      ∧ (candidate.ToModel model.Opportunity.zero).1.SourcedBy = some User.zero
      ∧ (candidate.ToModel model.Opportunity.zero).1.SourcedBy ≠ none := by
  decide

set_option maxRecDepth 100000 in
/-- C11, the code at the failing inputs: `Interview.ToModel` decodes the
feedback forms straight into `model.FeedbackForm` and never resolves their
`user` member. A form with a bare-id user makes it return an error, where the
nested projection gives `UserID = "u1"` and a nil `User`; a form with an
embedded user comes out with the user but an empty `UserID`, where the nested
projection gives `UserID = "u1"`. -/
theorem Interview_forms_user_unresolved :
    ((interviewWithForms formsBareUser).ToModel model.Interview.zero).2 ≠ none
      ∧ (nestedFeedbackForms formsBareUser).2 = none
      ∧ ((nestedFeedbackForms formsBareUser).1.getD []).map (fun f => (f.ID, f.UserID, f.User))
        = [("f1", "u1", none)]
      ∧ ((interviewWithForms formsEmbeddedUser).ToModel model.Interview.zero).2 = none
      ∧ ((((interviewWithForms formsEmbeddedUser).ToModel model.Interview.zero).1.FeedbackForms).getD
          []).map (fun f => (f.ID, f.UserID, f.User)) = [("f1", "", some formUser)]
      ∧ ((nestedFeedbackForms formsEmbeddedUser).1.getD []).map
          (fun f => (f.ID, f.UserID, f.User)) = [("f1", "u1", some formUser)] := by
  decide

end multimodel

/-! ## Theorems: the stream decoder on an encoded error payload -/

namespace GoJSON

/-- Inside a string, the stream scanner steps over the encoding of one
character. -/
theorem readValueFrom_escapeChar (body : List Char) (ps : List ParseState) (c : Char) (n : Nat)
    (rest : List Char) :
    readValueFrom body ⟨.inString, ps⟩ n (escapeChar c ++ rest)
      = readValueFrom body ⟨.inString, ps⟩ (n + (escapeChar c).length) rest := by
  unfold escapeChar
  split_ifs with h1 h2 h3
  · subst h1
    have hq : ¬ backslashChar = quoteChar := by decide
    have hs : isSimpleEscape quoteChar = true := by decide
    simp [readValueFrom, Scanner.next, hq, hs]
  · subst h2
    have hq : ¬ backslashChar = quoteChar := by decide
    have hs : isSimpleEscape backslashChar = true := by decide
    simp [readValueFrom, Scanner.next, hq, hs]
  · have hx := isHex_hexDigit (c.toNat / 16) (by omega)
    have hy := isHex_hexDigit (c.toNat % 16) (by omega)
    have hq : ¬ backslashChar = quoteChar := by decide
    have hu : isSimpleEscape 'u' = false := by decide
    have h0 : isHex '0' = true := by decide
    simp [readValueFrom, Scanner.next, hx, hy, hq, hu, h0]
  · simp [readValueFrom, Scanner.next, h1, h2, h3]

/-- Inside a string, the stream scanner steps over an escaped body. -/
theorem readValueFrom_escape (body : List Char) (ps : List ParseState) (cs : List Char) (n : Nat)
    (rest : List Char) :
    readValueFrom body ⟨.inString, ps⟩ n (escape cs ++ rest)
      = readValueFrom body ⟨.inString, ps⟩ (n + (escape cs).length) rest := by
  induction cs generalizing n with
  | nil => rfl
  | cons c cs ih =>
    simp only [escape, List.append_assoc, readValueFrom_escapeChar, ih, List.length_append,
      Nat.add_assoc]

/-- Inside an object or array, where a string may begin, the stream scanner
steps over an encoded string and expects the end of a value. -/
theorem readValueFrom_encodeString (body : List Char) (st : ScanStep)
    (hst : st = .beginValue ∨ st = .beginString ∨ st = .beginStringOrEmpty)
    (p : ParseState) (ps : List ParseState) (s : String) (n : Nat) (rest : List Char) :
    readValueFrom body ⟨st, p :: ps⟩ n (encodeString s ++ rest)
      = readValueFrom body ⟨.endValue, p :: ps⟩ (n + (encodeString s).length) rest := by
  have hnext : Scanner.next ⟨st, p :: ps⟩ quoteChar = (⟨.inString, p :: ps⟩, .scanOther) := by
    rcases hst with rfl | rfl | rfl <;> rfl
  have hstart : readValueFrom body ⟨st, p :: ps⟩ n (encodeString s ++ rest)
      = readValueFrom body ⟨.inString, p :: ps⟩ (n + 1) (escape s.data ++ quoteChar :: rest) := by
    simp [encodeString, readValueFrom, hnext]
  have hend : Scanner.next ⟨.inString, p :: ps⟩ quoteChar
      = (⟨.endValue, p :: ps⟩, .scanOther) := rfl
  rw [hstart, readValueFrom_escape]
  simp only [readValueFrom, hend]
  congr 1
  simp [encodeString]
  omega

/-- One step of the stream scanner inside a value. -/
theorem readValueFrom_cons (body : List Char) (s s1 : Scanner) (n : Nat) (c : Char)
    (rest : List Char) (h : s.next c = (s1, .scanOther)) :
    readValueFrom body s n (c :: rest) = readValueFrom body s1 (n + 1) rest := by
  simp only [readValueFrom, h]

/-- One step of the token scanner. -/
theorem lexFrom_cons (st st1 : LexState) (out out1 : List Token) (c : Char) (cs : List Char)
    (h : lexStep st out c = some (st1, out1)) :
    lexFrom st out (c :: cs) = lexFrom st1 out1 cs := by
  simp only [lexFrom, h]

end GoJSON

namespace lever

open GoJSON model testdata

/-- The stream decoder reads the rendering of an object of two string members
to its end and yields the object. -/
theorem streamValue_render_members (k1 c k2 m : String) :
    streamValue (render (.obj [(k1, .str c), (k2, .str m)]))
      = .ok (.obj [(k1, .str c), (k2, .str m)]) := by
  have hbody : render (.obj [(k1, .str c), (k2, .str m)])
      = '{' :: (encodeString k1 ++ ':' :: (encodeString c ++ ',' ::
          (encodeString k2 ++ ':' :: (encodeString m ++ ['}'])))) := by
    simp [render, renderMembers]
  have hlex : lex (render (.obj [(k1, .str c), (k2, .str m)]))
      = some [.lbrace, .string (escape k1.data), .colon, .string (escape c.data), .comma,
          .string (escape k2.data), .colon, .string (escape m.data), .rbrace] := by
    have hl : lexStep .idle [] '{' = some (.idle, [.lbrace]) := by decide
    have hc : ∀ o, lexStep .idle o ':' = some (.idle, .colon :: o) := by
      intro o; simp [lexStep, idleStep, isSpace]
    have hm : ∀ o, lexStep .idle o ',' = some (.idle, .comma :: o) := by
      intro o; simp [lexStep, idleStep, isSpace]
    have hr : ∀ o, lexStep .idle o '}' = some (.idle, .rbrace :: o) := by
      intro o; simp [lexStep, idleStep, isSpace]
    rw [hbody, lex, lexFrom_cons _ _ _ _ _ _ hl, lexFrom_encodeString,
      lexFrom_cons _ _ _ _ _ _ (hc _), lexFrom_encodeString, lexFrom_cons _ _ _ _ _ _ (hm _),
      lexFrom_encodeString, lexFrom_cons _ _ _ _ _ _ (hc _), lexFrom_encodeString,
      lexFrom_cons _ _ _ _ _ _ (hr _)]
    rfl
  have hparse : parse (render (.obj [(k1, .str c), (k2, .str m)])) = some (.obj [(k1, .str c), (k2, .str m)]) := by
    apply parse_of_parseValue hlex (n := 4)
    have hd : 0 < maxNestingDepth := by decide
    simp [parseValue, parseMembers, hd, unquote_escape]
  have hlen : readValue (render (.obj [(k1, .str c), (k2, .str m)])) = .ok (render (.obj [(k1, .str c), (k2, .str m)])).length := by
    have h1 : Scanner.next Scanner.reset '{'
        = (⟨.beginStringOrEmpty, [.objectKey]⟩, .scanOther) := rfl
    have h2 : Scanner.next ⟨.endValue, [.objectKey]⟩ ':'
        = (⟨.beginValue, [.objectValue]⟩, .scanOther) := rfl
    have h3 : Scanner.next ⟨.endValue, [.objectValue]⟩ ','
        = (⟨.beginString, [.objectKey]⟩, .scanOther) := rfl
    have h4 : Scanner.next ⟨.endValue, [.objectValue]⟩ '}'
        = (⟨.endTop, []⟩, .scanEndObject) := rfl
    have h5 : (stateEndValue ⟨.endTop, []⟩ ' ').2 = .scanEnd := rfl
    unfold readValue
    generalize render (.obj [(k1, .str c), (k2, .str m)]) = body at hbody ⊢
    have hrun : readValueFrom body Scanner.reset 0
        ('{' :: (encodeString k1 ++ ':' :: (encodeString c ++ ',' ::
          (encodeString k2 ++ ':' :: (encodeString m ++ ['}'])))))
        = .ok (0 + 1 + (encodeString k1).length + 1 + (encodeString c).length + 1
            + (encodeString k2).length + 1 + (encodeString m).length + 1) := by
      rw [readValueFrom_cons _ _ _ _ _ _ h1,
        readValueFrom_encodeString _ _ (Or.inr (Or.inr rfl)),
        readValueFrom_cons _ _ _ _ _ _ h2, readValueFrom_encodeString _ _ (Or.inl rfl),
        readValueFrom_cons _ _ _ _ _ _ h3,
        readValueFrom_encodeString _ _ (Or.inr (Or.inl rfl)),
        readValueFrom_cons _ _ _ _ _ _ h2, readValueFrom_encodeString _ _ (Or.inl rfl)]
      simp only [readValueFrom, h4, h5, if_true]
    have hl : body.length = 0 + 1 + (encodeString k1).length + 1 + (encodeString c).length
        + 1 + (encodeString k2).length + 1 + (encodeString m).length + 1 := by
      rw [hbody]
      simp only [List.length_cons, List.length_append, List.length_nil]
      omega
    rw [hl, ← hrun, ← hbody]
  simp [streamValue, hlen, hparse]

/-- The stream decoder reads the encoded error payload to its end and yields
its object. -/
theorem streamValue_errorBody (c m : String) :
    streamValue (errorBody c m) = .ok (.obj [("code", .str c), ("message", .str m)]) :=
  streamValue_render_members "code" c "message" m

end lever

/-! ## Theorems: the decimal rendering of an integer -/

namespace lever

open GoJSON

/-- The digit characters. -/
theorem digitChar_spec (k : Nat) (hk : k < 10) :
    isDigit (Nat.digitChar k) = true ∧ (Nat.digitChar k).toNat - 48 = k
      ∧ (Nat.digitChar k = '0' ↔ k = 0) := by
  interval_cases k <;> decide

/-- The digits are put in front of the accumulator. -/
theorem toDigitsCore_append (fuel n : Nat) (ds : List Char) :
    Nat.toDigitsCore 10 fuel n ds = Nat.toDigitsCore 10 fuel n [] ++ ds := by
  induction fuel generalizing n ds with
  | zero => simp [Nat.toDigitsCore]
  | succ fuel ih =>
    simp only [Nat.toDigitsCore]
    split_ifs with h
    · simp
    · rw [ih (n / 10) (Nat.digitChar (n % 10) :: ds), ih (n / 10) [Nat.digitChar (n % 10)]]
      simp

/-- The digits of `n`: digits only, not empty, no leading zero unless `n = 0`,
and their decimal value is `n`. -/
theorem toDigitsCore_spec (fuel n : Nat) (h : n < fuel) :
    (Nat.toDigitsCore 10 fuel n []).all isDigit = true
      ∧ Nat.toDigitsCore 10 fuel n [] ≠ []
      ∧ digitsToNat (Nat.toDigitsCore 10 fuel n []) = n
      ∧ (0 < n → (Nat.toDigitsCore 10 fuel n []).head? ≠ some '0')
      ∧ (Nat.toDigitsCore 10 fuel n []).head? ≠ some '-' := by
  induction fuel generalizing n with
  | zero => omega
  | succ fuel ih =>
    obtain ⟨d1, d2, d3⟩ := digitChar_spec (n % 10) (Nat.mod_lt _ (by decide))
    simp only [Nat.toDigitsCore]
    split_ifs with h0
    · have hn : n % 10 = n := by omega
      refine ⟨by simp [d1], by simp, ?_, ?_, ?_⟩
      · simp only [digitsToNat, List.foldl_cons, List.foldl_nil]
        omega
      · intro hpos
        simp only [List.head?_cons, ne_eq, Option.some.injEq]
        rw [d3]
        omega
      · simp only [List.head?_cons, ne_eq, Option.some.injEq]
        intro hm
        rw [hm] at d1
        exact absurd d1 (by decide)
    · obtain ⟨i1, i2, i3, i4, i5⟩ := ih (n / 10) (by omega)
      rw [toDigitsCore_append]
      refine ⟨by simp [i1, d1], by simp, ?_, ?_, ?_⟩
      · simp only [digitsToNat, List.foldl_append, List.foldl_cons, List.foldl_nil] at i3 ⊢
        rw [i3, d2]
        omega
      · intro _
        cases hL : Nat.toDigitsCore 10 fuel (n / 10) [] with
        | nil => exact absurd hL i2
        | cons x xs =>
          rw [hL] at i4
          simpa using i4 (by omega)
      · cases hL : Nat.toDigitsCore 10 fuel (n / 10) [] with
        | nil => exact absurd hL i2
        | cons x xs =>
          rw [hL] at i5
          simpa using i5

/-- For a positive `n`, `formatInt n` is the decimal numeral of `n`: decimal
digits only, no leading zero, with the value `n`; `strconv.ParseInt` reads it
back when `n` is in the range of `int64`. -/
theorem formatInt_decimal (n : Int) (h : 0 < n) :
    (formatInt n).data.all isDigit = true
      ∧ (formatInt n).data.head? ≠ some '0'
      ∧ (digitsToNat (formatInt n).data : Int) = n
      ∧ (n < 2 ^ 63 → parseInt64 (formatInt n) = some n) := by
  obtain ⟨k, rfl⟩ : ∃ k : Nat, n = (k : Int) := ⟨n.toNat, by omega⟩
  have hk : 0 < k := by omega
  have hdata : (formatInt (k : Int)).data = Nat.toDigitsCore 10 (k + 1) k [] := by
    have : ¬ ((k : Int) < 0) := by omega
    simp [formatInt, this, Nat.repr, Nat.toDigits, List.asString]
  obtain ⟨s1, s2, s3, s4, s5⟩ := toDigitsCore_spec (k + 1) k (by omega)
  rw [← hdata] at s1 s2 s3 s4 s5
  refine ⟨s1, s4 hk, by rw [s3], ?_⟩
  intro hlt
  have hlt2 : k < 2 ^ 63 := by exact_mod_cast hlt
  have hlt3 : k < 9223372036854775808 := by
    have e : (2 : Nat) ^ 63 = 9223372036854775808 := by norm_num
    omega
  simp only [parseInt64]
  simp [s5, s2, s1, s3, hlt3]

end lever

/-! ## Theorems: the client (`exec`, the list methods, query parameters) -/

namespace lever

open GoJSON model multimodel testdata

/-- The conversion loop succeeds when every element projects without error,
and yields the projections in order. -/
theorem toModels_ok (data : List multimodel.Opportunity)
    (h : ∀ o ∈ data, (o.ToModel model.Opportunity.zero).2 = none) :
    toModels data = .ok (data.map (fun o => (o.ToModel model.Opportunity.zero).1)) := by
  induction data with
  | nil => rfl
  | cons o rest ih =>
    have ho := h o (List.mem_cons_self _ _)
    have hrest := ih (fun x hx => h x (List.mem_cons_of_mem _ hx))
    simp [toModels, ho, hrest]

/-- The conversion loop ends with the error of the first element that fails
to project. -/
theorem toModels_error (pre : List multimodel.Opportunity) (bad : multimodel.Opportunity)
    (post : List multimodel.Opportunity) (e : JsonError)
    (hpre : ∀ o ∈ pre, (o.ToModel model.Opportunity.zero).2 = none)
    (hbad : (bad.ToModel model.Opportunity.zero).2 = some e) :
    toModels (pre ++ bad :: post) = .error e := by
  induction pre with
  | nil => simp [toModels, hbad]
  | cons o rest ih =>
    have ho := hpre o (List.mem_cons_self _ _)
    have hrest := ih (fun x hx => hpre x (List.mem_cons_of_mem _ hx))
    simp [toModels, ho, hrest]

/-- A list method after a successful `exec`: all or nothing. -/
theorem listOpportunitiesWith_spec (dec : Decoder listOpportunitiesResponseJSON)
    (sent : Except GoError HTTPResponse) (respJSON : listOpportunitiesResponseJSON)
    (hexec : exec sent dec listOpportunitiesResponseJSON.SetHTTPResponse
      listOpportunitiesResponseJSON.zero = (respJSON, none)) :
    (∀ pre bad post e, respJSON.Opportunities.getD [] = pre ++ bad :: post →
        (∀ o ∈ pre, (o.ToModel model.Opportunity.zero).2 = none) →
        (bad.ToModel model.Opportunity.zero).2 = some e →
        listOpportunitiesWith dec sent = (none, some (.json e)))
      ∧ ((∀ o ∈ respJSON.Opportunities.getD [], (o.ToModel model.Opportunity.zero).2 = none) →
        listOpportunitiesWith dec sent
          = (some ⟨respJSON.BaseListResponse,
              some ((respJSON.Opportunities.getD []).map
                (fun o => (o.ToModel model.Opportunity.zero).1))⟩, none)) := by
  constructor
  · intro pre bad post e hdata hpre hbad
    simp [listOpportunitiesWith, hexec, hdata, toModels_error pre bad post e hpre hbad]
  · intro hall
    simp [listOpportunitiesWith, hexec, toModels_ok _ hall]

/-- C15: after a successful `exec` (it returned no error and left `respJSON`),
`ListOpportunities` and `ListDeletedOpportunities` are all or nothing. If an
element of the decoded data fails to project, and every element before it
projects, they return a nil response and the error of that element; if every
element projects, they return a response with the decoded `BaseListResponse`
(`Next`, `HasNext`) and, in the order of the data, the projection of each
element onto a fresh model. -/
theorem list_opportunities_all_or_nothing (sent : Except GoError HTTPResponse)
    (respJSON : listOpportunitiesResponseJSON) :
    (exec sent decodeListOpportunitiesResponseJSON listOpportunitiesResponseJSON.SetHTTPResponse
        listOpportunitiesResponseJSON.zero = (respJSON, none) →
      (∀ pre bad post e, respJSON.Opportunities.getD [] = pre ++ bad :: post →
          (∀ o ∈ pre, (o.ToModel model.Opportunity.zero).2 = none) →
          (bad.ToModel model.Opportunity.zero).2 = some e →
          ListOpportunities sent = (none, some (.json e)))
        ∧ ((∀ o ∈ respJSON.Opportunities.getD [],
            (o.ToModel model.Opportunity.zero).2 = none) →
          ListOpportunities sent
            = (some ⟨respJSON.BaseListResponse,
                some ((respJSON.Opportunities.getD []).map
                  (fun o => (o.ToModel model.Opportunity.zero).1))⟩, none)))
      ∧ (exec sent decodeListDeletedOpportunitiesResponseJSON
          listOpportunitiesResponseJSON.SetHTTPResponse
          listOpportunitiesResponseJSON.zero = (respJSON, none) →
        (∀ pre bad post e, respJSON.Opportunities.getD [] = pre ++ bad :: post →
            (∀ o ∈ pre, (o.ToModel model.Opportunity.zero).2 = none) →
            (bad.ToModel model.Opportunity.zero).2 = some e →
            ListDeletedOpportunities sent = (none, some (.json e)))
          ∧ ((∀ o ∈ respJSON.Opportunities.getD [],
              (o.ToModel model.Opportunity.zero).2 = none) →
            ListDeletedOpportunities sent
              = (some ⟨respJSON.BaseListResponse,
                  some ((respJSON.Opportunities.getD []).map
                    (fun o => (o.ToModel model.Opportunity.zero).1))⟩, none))) :=
  ⟨fun h => listOpportunitiesWith_spec _ sent respJSON h,
    fun h => listOpportunitiesWith_spec _ sent respJSON h⟩

set_option maxRecDepth 100000 in
/-- Witness of C15: a page of two opportunities that project, and a page whose
second and third opportunity do not. -/
theorem list_opportunities_all_or_nothing_witness :
    ListOpportunities (.ok page)
        = (some ⟨⟨⟨some page⟩, "tok", true⟩,
            some (pageData.map (fun o => (o.ToModel model.Opportunity.zero).1))⟩, none)
      ∧ ListDeletedOpportunities (.ok badPage)
        = (none, some (.json (.unmarshalType "number" "string" "" ""))) :=
  ⟨((list_opportunities_all_or_nothing (.ok page) ⟨⟨⟨some page⟩, "tok", true⟩, some pageData⟩).1
      (by decide)).2 (by decide),
    ((list_opportunities_all_or_nothing (.ok badPage)
      ⟨⟨⟨some badPage⟩, "", false⟩, some badPageData⟩).2 (by decide)).1
      [{ multimodel.Opportunity.zero with ID := "o1" }]
      { multimodel.Opportunity.zero with ID := "o2", Owner := ['7'] }
      [{ multimodel.Opportunity.zero with ID := "o3", Stage := ['[', ']'] }]
      _ (by decide) (by decide) (by decide)⟩

/-- For a response outside `[200, 300)` the error of `exec` is a
`*model.LeverError` exactly when the body decodes into one; otherwise it is
the error of the decoder. -/
theorem exec_remote_error_cases {ρ : Type} (httpResp : HTTPResponse) (dec : Decoder ρ)
    (set : ρ → HTTPResponse → ρ) (resp : ρ)
    (hstatus : ¬ (200 ≤ httpResp.StatusCode ∧ httpResp.StatusCode < 300)) :
    ((decodeStream decodeLeverError httpResp.Body LeverError.zero).2 = none →
        exec (.ok httpResp) dec set resp
          = (resp, some (.leverError
              { (decodeStream decodeLeverError httpResp.Body LeverError.zero).1 with
                HTTPResponse := some httpResp })))
      ∧ (∀ err, (decodeStream decodeLeverError httpResp.Body LeverError.zero).2 = some err →
        exec (.ok httpResp) dec set resp = (resp, some (GoError.ofStream err))) := by
  constructor
  · intro h
    simp [exec, hstatus, h]
  · intro err h
    simp [exec, hstatus, h]

/-- The error of the decoder is never a `*model.LeverError`. -/
theorem ofStream_not_leverError (err : StreamError) :
    (GoError.ofStream err).isLeverError = false := by
  cases err <;> rfl

/-- For a response in `[200, 300)` an error of `exec` is the error of the
decoder, not a `*model.LeverError`. -/
theorem exec_success_error {ρ : Type} (httpResp : HTTPResponse) (dec : Decoder ρ)
    (set : ρ → HTTPResponse → ρ) (resp : ρ) (e : GoError)
    (hstatus : 200 ≤ httpResp.StatusCode ∧ httpResp.StatusCode < 300)
    (h : (exec (.ok httpResp) dec set resp).2 = some e) : e.isLeverError = false := by
  simp only [exec, hstatus, and_self, if_true] at h
  cases hd : (decodeStream dec httpResp.Body resp).2 with
  | none => simp [hd] at h
  | some err =>
    simp only [hd, Option.some.injEq] at h
    subst h
    exact ofStream_not_leverError err

/-- C18: for a response with a status code outside `[200, 300)` whose body
holds the JSON object with the members `code: c` and `message: m`, `exec`
returns a `*model.LeverError` with `Code = c`, `Message = m` and the response
(so its status code) in `HTTPResponse`, whatever the response type, and the
typed method `GetStage` returns a nil response with that error; this is so in
particular for the body `errorBody c m`, for every `c` and `m`; for a response
with a status code in `[200, 300)` whose body decodes, `exec` returns nil. -/
theorem exec_lever_error (httpResp : HTTPResponse) (c m : String) :
    (¬ (200 ≤ httpResp.StatusCode ∧ httpResp.StatusCode < 300) →
        streamValue httpResp.Body = .ok (.obj [("code", .str c), ("message", .str m)]) →
        (∀ (ρ : Type) (dec : Decoder ρ) (set : ρ → HTTPResponse → ρ) (resp : ρ),
            exec (.ok httpResp) dec set resp
              = (resp, some (.leverError ⟨some httpResp, c, m⟩)))
          ∧ GetStage (.ok httpResp) = (none, some (.leverError ⟨some httpResp, c, m⟩))
          ∧ (GoError.leverError ⟨some httpResp, c, m⟩).statusCode = some httpResp.StatusCode)
      ∧ (¬ (200 ≤ httpResp.StatusCode ∧ httpResp.StatusCode < 300) →
        httpResp.Body = errorBody c m →
        (∀ (ρ : Type) (dec : Decoder ρ) (set : ρ → HTTPResponse → ρ) (resp : ρ),
            exec (.ok httpResp) dec set resp
              = (resp, some (.leverError ⟨some httpResp, c, m⟩)))
          ∧ GetStage (.ok httpResp) = (none, some (.leverError ⟨some httpResp, c, m⟩)))
      ∧ (200 ≤ httpResp.StatusCode ∧ httpResp.StatusCode < 300 →
        ∀ (ρ : Type) (dec : Decoder ρ) (set : ρ → HTTPResponse → ρ) (resp : ρ),
          (decodeStream dec httpResp.Body resp).2 = none →
          exec (.ok httpResp) dec set resp
            = (set (decodeStream dec httpResp.Body resp).1 httpResp, none)) := by
  have part : ¬ (200 ≤ httpResp.StatusCode ∧ httpResp.StatusCode < 300) →
      streamValue httpResp.Body = .ok (.obj [("code", .str c), ("message", .str m)]) →
      (∀ (ρ : Type) (dec : Decoder ρ) (set : ρ → HTTPResponse → ρ) (resp : ρ),
          exec (.ok httpResp) dec set resp
            = (resp, some (.leverError ⟨some httpResp, c, m⟩)))
        ∧ GetStage (.ok httpResp) = (none, some (.leverError ⟨some httpResp, c, m⟩)) := by
    intro hstatus hbody
    have hdec : decodeStream decodeLeverError httpResp.Body LeverError.zero
        = (⟨none, c, m⟩, none) := by
      simp only [decodeStream, hbody]
      rfl
    have hexec : ∀ (ρ : Type) (dec : Decoder ρ) (set : ρ → HTTPResponse → ρ) (resp : ρ),
        exec (.ok httpResp) dec set resp
          = (resp, some (.leverError ⟨some httpResp, c, m⟩)) := by
      intro ρ dec set resp
      simp [exec, hstatus, hdec]
    refine ⟨hexec, ?_⟩
    simp [GetStage, hexec]
  refine ⟨fun hstatus hbody => ⟨(part hstatus hbody).1, (part hstatus hbody).2, rfl⟩, ?_, ?_⟩
  · intro hstatus hbody
    exact part hstatus (by rw [hbody]; exact streamValue_errorBody c m)
  · intro hstatus ρ dec set resp hdec
    simp [exec, hstatus, hdec]

set_option maxRecDepth 100000 in
/-- Witness of C18: the 404 response for a stage that does not exist, a 500
response with an encoded error payload, and a 200 response with a stage. -/
theorem exec_lever_error_witness :
    ((∀ (ρ : Type) (dec : Decoder ρ) (set : ρ → HTTPResponse → ρ) (resp : ρ),
          exec (.ok notFound) dec set resp
            = (resp, some (.leverError ⟨some notFound, "ResourceNotFound",
                "Stage was not found"⟩)))
        ∧ GetStage (.ok notFound)
          = (none, some (.leverError ⟨some notFound, "ResourceNotFound", "Stage was not found"⟩))
        ∧ (GoError.leverError ⟨some notFound, "ResourceNotFound",
            "Stage was not found"⟩).statusCode = some 404)
      ∧ GetStage (.ok ⟨500, "500 Internal Server Error", errorBody "Oops" "a \"quoted\" word"⟩)
        = (none, some (.leverError
            ⟨some ⟨500, "500 Internal Server Error", errorBody "Oops" "a \"quoted\" word"⟩,
              "Oops", "a \"quoted\" word"⟩))
      ∧ exec (.ok stageFound) decodeGetStageResponse GetStageResponse.SetHTTPResponse
          GetStageResponse.zero
        = (⟨⟨some stageFound⟩, ⟨"lead-new", "New lead"⟩⟩, none) :=
  ⟨(exec_lever_error notFound "ResourceNotFound" "Stage was not found").1 (by decide) rfl,
    ((exec_lever_error ⟨500, "500 Internal Server Error", errorBody "Oops" "a \"quoted\" word"⟩
      "Oops" "a \"quoted\" word").2.1 (by decide) rfl).2,
    (exec_lever_error stageFound "" "").2.2 (by decide) _ decodeGetStageResponse
      GetStageResponse.SetHTTPResponse GetStageResponse.zero (by decide)⟩

set_option maxRecDepth 100000 in
/-- C19, the code at the failing inputs: for a 502 response whose body is not
JSON `exec` returns the syntax error of the decoder, and for a 503 response
without a body it returns `io.EOF`; neither is a `*model.LeverError` and
neither carries the status. `DownloadResume` returns a `*model.LeverError`
with the status for the same response. -/
theorem exec_remote_error_undecodable :
    exec (.ok badGateway) decodeGetStageResponse GetStageResponse.SetHTTPResponse
        GetStageResponse.zero = (GetStageResponse.zero, some (.json .syntaxError))
      ∧ GetStage (.ok badGateway) = (none, some (.json .syntaxError))
      ∧ GetStage (.ok unavailable) = (none, some .eof)
      ∧ (GoError.json .syntaxError).isLeverError = false
      ∧ GoError.eof.isLeverError = false
      ∧ (GoError.json .syntaxError).statusCode = none
      ∧ DownloadResume (.ok badGateway)
        = (none, some (.leverError ⟨some badGateway, "502 Bad Gateway",
            "Unexpected HTTP response status code: 502"⟩)) := by
  decide

/-- `Values.AddAll` appends the values to the key and leaves the others. -/
theorem AddAll_apply (q : Values) (key : String) (vs : Option (List String)) (k : String) :
    Values.AddAll q key vs k = if k = key then q k ++ vs.getD [] else q k := by
  unfold Values.AddAll
  generalize vs.getD [] = l
  induction l generalizing q with
  | nil => simp
  | cons v rest ih =>
    rw [List.foldl_cons, ih]
    by_cases hk : k = key <;> simp [Values.Add, hk]

/-- C20: `BaseListRequest.AddAPIQueryParams` appends to the query the include
and expand values of the embedded `BaseRequest`, then `offset = Offset`
exactly when `Offset` is not empty, then `limit = ` the decimal rendering of
`Limit` exactly when `Limit > 0`, and touches no other key; with `Offset`
empty and `Limit <= 0` the keys `offset` and `limit` stay as they were; a
request whose `Offset` is the `Next` token of a response adds `offset = ` that
token; and the rendering of a positive `Limit` is its decimal numeral (digits
only, no leading zero, of value `Limit`). -/
theorem list_request_query_params (blr : BaseListRequest) (query : Values) :
    (∀ k, blr.AddAPIQueryParams query k
        = query k ++ (if k = "include" then blr.BaseRequest.Include.getD [] else [])
            ++ (if k = "expand" then blr.BaseRequest.Expand.getD [] else [])
            ++ (if k = "offset" ∧ blr.Offset ≠ "" then [blr.Offset] else [])
            ++ (if k = "limit" ∧ blr.Limit > 0 then [formatInt blr.Limit] else []))
      ∧ blr.AddAPIQueryParams query "offset"
        = query "offset" ++ (if blr.Offset ≠ "" then [blr.Offset] else [])
      ∧ blr.AddAPIQueryParams query "limit"
        = query "limit" ++ (if blr.Limit > 0 then [formatInt blr.Limit] else [])
      ∧ (blr.Offset = "" → blr.Limit ≤ 0 →
        blr.AddAPIQueryParams query "offset" = query "offset"
          ∧ blr.AddAPIQueryParams query "limit" = query "limit")
      ∧ (∀ resp : BaseListResponse, resp.Next ≠ "" →
        ({ blr with Offset := resp.Next } : BaseListRequest).AddAPIQueryParams query "offset"
          = query "offset" ++ [resp.Next])
      ∧ (0 < blr.Limit →
        (formatInt blr.Limit).data.all isDigit = true
          ∧ (formatInt blr.Limit).data.head? ≠ some '0'
          ∧ (digitsToNat (formatInt blr.Limit).data : Int) = blr.Limit) := by
  have key : ∀ (b : BaseListRequest) (k : String), b.AddAPIQueryParams query k
      = query k ++ (if k = "include" then b.BaseRequest.Include.getD [] else [])
          ++ (if k = "expand" then b.BaseRequest.Expand.getD [] else [])
          ++ (if k = "offset" ∧ b.Offset ≠ "" then [b.Offset] else [])
          ++ (if k = "limit" ∧ b.Limit > 0 then [formatInt b.Limit] else []) := by
    intro b k
    unfold BaseListRequest.AddAPIQueryParams BaseRequest.AddAPIQueryParams
    by_cases ho : b.Offset = "" <;> by_cases hl : 0 < b.Limit <;>
      simp only [ho, hl, ne_eq, not_true_eq_false, not_false_eq_true, if_true, if_false,
        gt_iff_lt, and_true, and_false] <;>
      by_cases h1 : k = "include" <;> by_cases h2 : k = "expand" <;>
      by_cases h3 : k = "offset" <;> by_cases h4 : k = "limit" <;>
      simp [Values.Add, AddAll_apply, paramInclude, paramExpand, paramOffset, paramLimit,
        h1, h2, h3, h4]
  refine ⟨key blr, ?_, ?_, ?_, ?_, ?_⟩
  · rw [key]; simp
  · rw [key]; simp
  · intro ho hl
    rw [key, key]
    simp [ho, not_lt.mpr hl]
  · intro resp hnext
    rw [key]
    simp [hnext]
  · intro hl
    exact ⟨(formatInt_decimal _ hl).1, (formatInt_decimal _ hl).2.1, (formatInt_decimal _ hl).2.2.1⟩

/-- Witness of C20: a request for the page after the token `tok`, and a
request with neither offset nor limit. -/
theorem list_request_query_params_witness :
    (nextPageRequest.AddAPIQueryParams noQuery "offset" = ["tok"]
        ∧ nextPageRequest.AddAPIQueryParams noQuery "limit" = ["25"]
        ∧ nextPageRequest.AddAPIQueryParams noQuery "expand" = ["stage", "owner"])
      ∧ ((⟨⟨none, none⟩, 0, ""⟩ : BaseListRequest).AddAPIQueryParams noQuery "offset"
          = noQuery "offset"
        ∧ (⟨⟨none, none⟩, 0, ""⟩ : BaseListRequest).AddAPIQueryParams noQuery "limit"
          = noQuery "limit") :=
  ⟨⟨by decide, by decide, by decide⟩,
    (list_request_query_params ⟨⟨none, none⟩, 0, ""⟩ noQuery).2.2.2.1 rfl (by decide)⟩

end lever

/-! ## Theorems: the order of the decode attempts, mistyped members -/

namespace multimodel

open GoJSON model testdata

/-- A member that makes the field decoder fail, whatever the struct holds,
makes the decoding of the object fail. -/
theorem decodeMembers_error_of_mem {α : Type} (field : α → String → JSON → α × Option JsonError)
    (members : List (String × JSON)) (kv : String × JSON) (hmem : kv ∈ members)
    (hbad : ∀ cur, (field cur kv.1 kv.2).2 ≠ none) (cur : α) :
    (decodeMembers field cur members).2 ≠ none := by
  induction members generalizing cur with
  | nil => cases hmem
  | cons m ms ih =>
    obtain ⟨k, v⟩ := m
    simp only [decodeMembers]
    intro hnone
    rw [firstError_eq_none] at hnone
    rcases List.mem_cons.mp hmem with rfl | htail
    · exact hbad cur hnone.1
    · exact ih htail _ hnone.2

/-- A mistyped member makes the field decoder of a stage fail. -/
theorem stageField_mistyped (ctx : ErrCtx) (s : Stage) (kv : String × JSON)
    (h : stageMemberMistyped kv = true) : (stageField ctx s kv.1 kv.2).2 ≠ none := by
  obtain ⟨k, v⟩ := kv
  simp only [stageMemberMistyped, Bool.and_eq_true, Bool.or_eq_true] at h
  obtain ⟨hk, hv⟩ := h
  unfold stageField
  by_cases h1 : fieldMatch "id" k = true
  · cases v <;> simp_all [notStringOrNull, decodeString, typeError]
  · have h2 : fieldMatch "text" k = true := by tauto
    cases v <;> simp_all [notStringOrNull, decodeString, typeError]

/-- A key that folds like the field name `name` selects that field only. -/
theorem fieldMatch_of_fold (name k : String) (hk : fieldMatch name k = true) (n : String) :
    fieldMatch n k = decide (foldName name = foldName n) := by
  simp only [fieldMatch, decide_eq_true_eq] at hk
  simp [fieldMatch, hk]

/-- A mistyped member makes the field decoder of a user fail. -/
theorem userField_mistyped (ctx : ErrCtx) (u : User) (kv : String × JSON)
    (h : userMemberMistyped kv = true) : (userField ctx u kv.1 kv.2).2 ≠ none := by
  obtain ⟨k, v⟩ := kv
  simp only [userMemberMistyped, Bool.or_eq_true, Bool.and_eq_true, userStringFields,
    List.any_cons, List.any_nil, Bool.or_false] at h
  rcases h with (⟨hk, hv⟩ | ⟨hk, hv⟩) | ⟨hk, hv⟩
  · rcases hk with hk | hk | hk | hk | hk | hk | hk | hk | hk <;>
      (simp only [userField, fieldMatch_of_fold _ k hk]
       simp +decide only [if_true, if_false]
       cases v <;> simp_all [notStringOrNull, decodeString, typeError])
  · rcases hk with hk | hk <;>
      (simp only [userField, fieldMatch_of_fold _ k hk]
       simp +decide only [if_true, if_false]
       cases v <;> simp_all [notNumberOrNull, decodePtr, decodeInt64, typeError])
  · simp only [userField, fieldMatch_of_fold _ k hk]
    simp +decide only [if_true, if_false]
    cases v <;> simp_all [notArrayOrNull, decodeSlice, typeError]

/-- C25: on a non-empty payload a scalar resolver decodes the payload as the
embedded object first; when that succeeds the object is the result and the
string decode plays no part; when it fails the result is that of decoding the
payload as a string, and so, when both attempts fail, the error returned is
the error of the string decode, not that of the object decode. -/
theorem scalar_resolvers_attempt_order (raw : List Char) (hne : raw ≠ []) :
    ((unmarshal decodeStage raw Stage.zero).2 = none →
        unmarshalStageOrID raw
          = ((unmarshal decodeStage raw Stage.zero).1.ID,
              some (unmarshal decodeStage raw Stage.zero).1, none))
      ∧ (∀ e1 e2, (unmarshal decodeStage raw Stage.zero).2 = some e1 →
        (unmarshal decodeString raw "").2 = some e2 →
        unmarshalStageOrID raw = ("", none, some e2))
      ∧ (∀ e1, (unmarshal decodeStage raw Stage.zero).2 = some e1 →
        (unmarshal decodeString raw "").2 = none →
        unmarshalStageOrID raw = ((unmarshal decodeString raw "").1, none, none))
      ∧ ((unmarshal decodeUser raw User.zero).2 = none →
        unmarshalUserOrID raw
          = ((unmarshal decodeUser raw User.zero).1.ID,
              some (unmarshal decodeUser raw User.zero).1, none))
      ∧ (∀ e1 e2, (unmarshal decodeUser raw User.zero).2 = some e1 →
        (unmarshal decodeString raw "").2 = some e2 →
        unmarshalUserOrID raw = ("", none, some e2))
      ∧ (∀ e1, (unmarshal decodeUser raw User.zero).2 = some e1 →
        (unmarshal decodeString raw "").2 = none →
        unmarshalUserOrID raw = ((unmarshal decodeString raw "").1, none, none)) := by
  have hlen : raw.length ≠ 0 := fun h0 => hne (List.length_eq_zero.mp h0)
  refine ⟨?_, ?_, ?_, ?_, ?_, ?_⟩
  · intro h
    simp [unmarshalStageOrID, hlen, h]
  · intro e1 e2 h1 h2
    simp [unmarshalStageOrID, hlen, h1, h2]
  · intro e1 h1 h2
    simp [unmarshalStageOrID, hlen, h1, h2]
  · intro h
    simp [unmarshalUserOrID, hlen, h]
  · intro e1 e2 h1 h2
    simp [unmarshalUserOrID, hlen, h1, h2]
  · intro e1 h1 h2
    simp [unmarshalUserOrID, hlen, h1, h2]

/-- Witness of C25: on the payload `null` both decodes would succeed and the
object decode wins; on the payload `7` both fail, with different errors, and
the error of the string decode is returned. -/
theorem scalar_resolvers_attempt_order_witness :
    (unmarshal decodeString nullPayload "").2 = none
      ∧ unmarshalStageOrID nullPayload = ("", some Stage.zero, none)
      ∧ (unmarshal decodeStage malformed Stage.zero).2
        = some (.unmarshalType "number" "model.Stage" "" "")
      ∧ unmarshalStageOrID malformed = ("", none, some (.unmarshalType "number" "string" "" ""))
      ∧ unmarshalUserOrID malformed = ("", none, some (.unmarshalType "number" "string" "" "")) :=
  ⟨by decide,
    (scalar_resolvers_attempt_order nullPayload (by decide)).1 (by decide),
    by decide,
    (scalar_resolvers_attempt_order malformed (by decide)).2.1
      (.unmarshalType "number" "model.Stage" "" "") (.unmarshalType "number" "string" "" "")
      (by decide) (by decide),
    (scalar_resolvers_attempt_order malformed (by decide)).2.2.2.2.1
      (.unmarshalType "number" "model.User" "" "") (.unmarshalType "number" "string" "" "")
      (by decide) (by decide)⟩

/-- C26: on a payload that is a JSON object with a member whose key is known
to the target shape and whose value is not null and of the wrong JSON type,
a scalar resolver returns the empty identifier, a nil object and an error (the
type error of decoding an object as a string); the partially decoded object
is not returned. -/
theorem scalar_resolvers_mistyped_member (raw : List Char) (members : List (String × JSON))
    (hparse : parse raw = some (.obj members)) :
    ((∃ kv ∈ members, stageMemberMistyped kv = true) →
        unmarshalStageOrID raw = ("", none, some (.unmarshalType "object" "string" "" "")))
      ∧ ((∃ kv ∈ members, userMemberMistyped kv = true) →
        unmarshalUserOrID raw = ("", none, some (.unmarshalType "object" "string" "" ""))) := by
  have hlen := length_ne_zero_of_parse hparse
  constructor
  · rintro ⟨kv, hmem, hbad⟩
    have herr : (unmarshal decodeStage raw Stage.zero).2 ≠ none := by
      simp only [unmarshal, hparse, decodeStage, decodeStruct]
      exact decodeMembers_error_of_mem _ members kv hmem
        (fun cur => stageField_mistyped _ cur kv hbad) _
    obtain ⟨e1, he1⟩ := Option.ne_none_iff_exists'.mp herr
    have h2 : unmarshal decodeString raw "" = ("", some (.unmarshalType "object" "string" "" "")) := by
      simp only [unmarshal, hparse]
      rfl
    simp [unmarshalStageOrID, hlen, he1, h2]
  · rintro ⟨kv, hmem, hbad⟩
    have herr : (unmarshal decodeUser raw User.zero).2 ≠ none := by
      simp only [unmarshal, hparse, decodeUser, decodeStruct]
      exact decodeMembers_error_of_mem _ members kv hmem
        (fun cur => userField_mistyped _ cur kv hbad) _
    obtain ⟨e1, he1⟩ := Option.ne_none_iff_exists'.mp herr
    have h2 : unmarshal decodeString raw "" = ("", some (.unmarshalType "object" "string" "" "")) := by
      simp only [unmarshal, hparse]
      rfl
    simp [unmarshalUserOrID, hlen, he1, h2]

/-- Witness of C26: a stage whose id is a number, a stage whose text is an
array, and a user whose `createdAt` is a string. -/
theorem scalar_resolvers_mistyped_member_witness :
    unmarshalStageOrID stageNumberID = ("", none, some (.unmarshalType "object" "string" "" ""))
      ∧ unmarshalStageOrID stageArrayText
        = ("", none, some (.unmarshalType "object" "string" "" ""))
      ∧ unmarshalUserOrID userStringCreatedAt
        = ("", none, some (.unmarshalType "object" "string" "" "")) :=
  ⟨(scalar_resolvers_mistyped_member stageNumberID [("id", .num "5")] rfl).1
      ⟨("id", .num "5"), by simp, by decide⟩,
    (scalar_resolvers_mistyped_member stageArrayText [("id", .str "a"), ("text", .arr [])] rfl).1
      ⟨("text", .arr []), by simp, by decide⟩,
    (scalar_resolvers_mistyped_member userStringCreatedAt
      [("id", .str "u1"), ("createdAt", .str "now")] rfl).2
      ⟨("createdAt", .str "now"), by simp, by decide⟩⟩

end multimodel

/-! ## Theorems: include and expand -/

namespace lever

open GoJSON model testdata

/-- C27: `BaseRequest.AddAPIQueryParams` appends the elements of `Include`, in
order, to the values of `include`, the elements of `Expand`, in order, to the
values of `expand`, and leaves the values of every other key as they were. -/
theorem base_request_query_params (br : BaseRequest) (query : Values) :
    br.AddAPIQueryParams query "include" = query "include" ++ br.Include.getD []
      ∧ br.AddAPIQueryParams query "expand" = query "expand" ++ br.Expand.getD []
      ∧ (∀ k, k ≠ "include" → k ≠ "expand" → br.AddAPIQueryParams query k = query k) := by
  refine ⟨?_, ?_, ?_⟩
  · simp [BaseRequest.AddAPIQueryParams, AddAll_apply, paramInclude, paramExpand]
  · simp [BaseRequest.AddAPIQueryParams, AddAll_apply, paramInclude, paramExpand]
  · intro k h1 h2
    simp [BaseRequest.AddAPIQueryParams, AddAll_apply, paramInclude, paramExpand, h1, h2]

/-- Witness of C27: two expand values on top of a query that holds one. -/
theorem base_request_query_params_witness :
    (⟨some ["followers"], some ["stage", "owner"]⟩ : BaseRequest).AddAPIQueryParams
        (fun k => if k = "expand" then ["applications"] else []) "expand"
        = ["applications", "stage", "owner"]
      ∧ (⟨some ["followers"], some ["stage", "owner"]⟩ : BaseRequest).AddAPIQueryParams
        (fun k => if k = "expand" then ["applications"] else []) "limit" = [] :=
  ⟨(base_request_query_params ⟨some ["followers"], some ["stage", "owner"]⟩ _).2.1,
    (base_request_query_params ⟨some ["followers"], some ["stage", "owner"]⟩ _).2.2 "limit"
      (by decide) (by decide)⟩

end lever

/-! ## Theorems: bytes, base64 and path escaping -/

namespace GoBytes

/-- The bytes of a code point are bytes. -/
theorem utf8EncodeChar_lt (c : Char) : ∀ b ∈ utf8EncodeChar c, b < 256 := by
  have hv : c.toNat < 1114112 := by
    have := c.valid
    simp only [Char.toNat, UInt32.isValidChar, Nat.isValidChar] at this ⊢
    omega
  intro b hb
  unfold utf8EncodeChar at hb
  split_ifs at hb <;> simp only [List.mem_cons, List.mem_singleton, List.not_mem_nil, or_false] at hb <;> omega

/-- The bytes of a string are bytes. -/
theorem stringBytes_lt (s : String) : ∀ b ∈ stringBytes s, b < 256 := by
  intro b hb
  simp only [stringBytes, List.mem_flatMap] at hb
  obtain ⟨c, _, hc⟩ := hb
  exact utf8EncodeChar_lt c b hc

/-- The bytes of a string followed by a colon. -/
theorem stringBytes_append_colon (s : String) :
    stringBytes (s ++ ":") = stringBytes s ++ [58] := by
  simp [stringBytes, String.data_append, utf8EncodeChar]

end GoBytes

namespace base64

/-- A character of the alphabet decodes to its 6-bit value and is not the
padding character. -/
theorem decodeValue_encodeValue (v : Nat) (h : v < 64) :
    decodeValue (encodeValue v) = some v ∧ encodeValue v ≠ StdPadding := by
  interval_cases v <;> decide

/-- Decoding inverts the standard padded encoding. -/
theorem decode_encode (src : List Nat) (h : ∀ b ∈ src, b < 256) :
    decode (encode src) = some src := by
  induction src using encode.induct with
  | case1 a b c rest ih =>
    have ha : a < 256 := h a (by simp)
    have hb : b < 256 := h b (by simp)
    have hc : c < 256 := h c (by simp)
    have hrest := ih (fun x hx => h x (by simp [hx]))
    obtain ⟨d0, p0⟩ := decodeValue_encodeValue ((a * 65536 + b * 256 + c) / 262144 % 64)
      (Nat.mod_lt _ (by decide))
    obtain ⟨d1, p1⟩ := decodeValue_encodeValue ((a * 65536 + b * 256 + c) / 4096 % 64)
      (Nat.mod_lt _ (by decide))
    obtain ⟨d2, p2⟩ := decodeValue_encodeValue ((a * 65536 + b * 256 + c) / 64 % 64)
      (Nat.mod_lt _ (by decide))
    obtain ⟨d3, p3⟩ := decodeValue_encodeValue ((a * 65536 + b * 256 + c) % 64)
      (Nat.mod_lt _ (by decide))
    simp only [encode, decode, d0, d1, d2, d3, p2, p3, hrest, if_false, Option.some.injEq,
      List.cons.injEq, and_true]
    refine ⟨?_, ?_, ?_⟩ <;> omega
  | case2 a b =>
    have ha : a < 256 := h a (by simp)
    have hb : b < 256 := h b (by simp)
    obtain ⟨d0, p0⟩ := decodeValue_encodeValue ((a * 65536 + b * 256) / 262144 % 64)
      (Nat.mod_lt _ (by decide))
    obtain ⟨d1, p1⟩ := decodeValue_encodeValue ((a * 65536 + b * 256) / 4096 % 64)
      (Nat.mod_lt _ (by decide))
    obtain ⟨d2, p2⟩ := decodeValue_encodeValue ((a * 65536 + b * 256) / 64 % 64)
      (Nat.mod_lt _ (by decide))
    simp only [encode, decode, d0, d1, d2, p2, if_false, if_true, Option.some.injEq,
      List.cons.injEq, and_true]
    refine ⟨?_, ?_⟩ <;> omega
  | case3 a =>
    have ha : a < 256 := h a (by simp)
    obtain ⟨d0, p0⟩ := decodeValue_encodeValue (a * 65536 / 262144 % 64)
      (Nat.mod_lt _ (by decide))
    obtain ⟨d1, p1⟩ := decodeValue_encodeValue (a * 65536 / 4096 % 64)
      (Nat.mod_lt _ (by decide))
    simp only [encode, decode, d0, d1, if_true, and_self, Option.some.injEq,
      List.cons.injEq, and_true]
    omega
  | case4 => rfl

end base64

namespace url

open GoBytes

/-- A hexadecimal digit of an escape reads back as its value, and is none of
the characters that end a path segment. -/
theorem unhex_upperhex (i : Nat) (h : i < 16) :
    unhex (upperhex.getD i '0') = some i
      ∧ upperhex.getD i '0' ≠ '/' ∧ upperhex.getD i '0' ≠ '?' ∧ upperhex.getD i '0' ≠ '#'
      ∧ upperhex.getD i '0' ≠ ' ' := by
  interval_cases i <;> decide

/-- A byte that is not escaped is an ASCII character other than `%`, `/`, `?`,
`#` and the blank. -/
theorem not_shouldEscape (b : Nat) (hb : b < 256) (h : shouldEscape b = false) :
    Char.ofNat b ≠ '%' ∧ utf8EncodeChar (Char.ofNat b) = [b]
      ∧ Char.ofNat b ≠ '/' ∧ Char.ofNat b ≠ '?' ∧ Char.ofNat b ≠ '#' ∧ Char.ofNat b ≠ ' ' := by
  interval_cases b <;> first | (exact absurd h (by decide)) | decide

/-- Unescaping steps over a character other than `%`. -/
theorem percentUnescape_cons (c : Char) (hc : c ≠ '%') (rest : List Char) :
    percentUnescape (c :: rest)
      = (percentUnescape rest).map (fun bytes => utf8EncodeChar c ++ bytes) := by
  rcases rest with _ | ⟨d, _ | ⟨e, rest⟩⟩ <;> simp [percentUnescape, hc]

/-- Unescaping steps over an escape. -/
theorem percentUnescape_escape (h1 h2 : Char) (x y : Nat) (hx : unhex h1 = some x)
    (hy : unhex h2 = some y) (rest : List Char) :
    percentUnescape ('%' :: h1 :: h2 :: rest)
      = (percentUnescape rest).map (fun bytes => (x * 16 + y) :: bytes) := by
  simp only [percentUnescape, if_true, hx, hy]
  cases percentUnescape rest <;> rfl

/-- Unescaping reads back an escaped byte. -/
theorem percentUnescape_escapeByte (b : Nat) (hb : b < 256) (rest : List Char) :
    percentUnescape (escapeByte b ++ rest) = (percentUnescape rest).map (fun bytes => b :: bytes) := by
  unfold escapeByte
  cases hs : shouldEscape b with
  | true =>
    obtain ⟨u1, _⟩ := unhex_upperhex (b / 16) (by omega)
    obtain ⟨u2, _⟩ := unhex_upperhex (b % 16) (Nat.mod_lt _ (by decide))
    have hsum : b / 16 * 16 + b % 16 = b := by omega
    simp only [if_true, List.cons_append, List.nil_append,
      percentUnescape_escape _ _ _ _ u1 u2, hsum]
  | false =>
    obtain ⟨n1, n2, _⟩ := not_shouldEscape b hb hs
    simp only [Bool.false_eq_true, if_false, List.cons_append, List.nil_append,
      percentUnescape_cons _ n1, n2, List.singleton_append]

/-- An escaped byte holds none of the characters that end a path segment. -/
theorem escapeByte_safe (b : Nat) (hb : b < 256) :
    ∀ c ∈ escapeByte b, c ≠ '/' ∧ c ≠ '?' ∧ c ≠ '#' ∧ c ≠ ' ' := by
  intro c hc
  unfold escapeByte at hc
  cases hs : shouldEscape b with
  | true =>
    obtain ⟨_, s1⟩ := unhex_upperhex (b / 16) (by omega)
    obtain ⟨_, s2⟩ := unhex_upperhex (b % 16) (Nat.mod_lt _ (by decide))
    simp only [hs, if_true, List.mem_cons, List.mem_singleton, List.not_mem_nil, or_false] at hc
    rcases hc with rfl | rfl | rfl
    · decide
    · exact s1
    · exact s2
  | false =>
    obtain ⟨_, _, s⟩ := not_shouldEscape b hb hs
    simp only [hs, Bool.false_eq_true, if_false, List.mem_singleton] at hc
    subst hc
    exact s

/-- Escaped bytes hold none of the characters that end a path segment, and
unescaping reads the bytes back. -/
theorem escape_bytes (bytes : List Nat) (h : ∀ b ∈ bytes, b < 256) :
    (∀ c ∈ bytes.flatMap escapeByte, c ≠ '/' ∧ c ≠ '?' ∧ c ≠ '#' ∧ c ≠ ' ')
      ∧ percentUnescape (bytes.flatMap escapeByte) = some bytes := by
  induction bytes with
  | nil => exact ⟨by simp, rfl⟩
  | cons b rest ih =>
    have hb : b < 256 := h b (by simp)
    obtain ⟨i1, i2⟩ := ih (fun x hx => h x (by simp [hx]))
    constructor
    · intro c hc
      simp only [List.flatMap_cons, List.mem_append] at hc
      rcases hc with hc | hc
      · exact escapeByte_safe b hb c hc
      · exact i1 c hc
    · simp only [List.flatMap_cons, percentUnescape_escapeByte b hb, i2, Option.map_some']

end url

/-! ## Theorems: the request paths -/

namespace lever

open GoJSON model testdata

/-- C30: the path of a request for one opportunity, stage or user is the
fixed prefix followed by the escaped identifier; the escaped identifier holds
no `/`, `?`, `#` or blank, and percent-unescaping it gives the bytes of the
identifier back. -/
theorem get_path_single_segment (br : BaseRequest) (id : String) :
    (GetOpportunityRequest.GetPath ⟨br, id⟩ = "opportunities/" ++ url.PathEscape id
        ∧ GetStageRequest.GetPath ⟨br, id⟩ = "stages/" ++ url.PathEscape id
        ∧ GetUserRequest.GetPath ⟨br, id⟩ = "users/" ++ url.PathEscape id)
      ∧ (∀ c ∈ (url.PathEscape id).data, c ≠ '/' ∧ c ≠ '?' ∧ c ≠ '#' ∧ c ≠ ' ')
      ∧ url.percentUnescape (url.PathEscape id).data = some (GoBytes.stringBytes id) :=
  ⟨⟨rfl, rfl, rfl⟩, url.escape_bytes _ (GoBytes.stringBytes_lt id)⟩

end lever

/-! ## Theorems: the request that `send` builds -/

namespace lever

open GoJSON model testdata

/-- Applying options appends to `preSend` the setters of the headers the
options name, in option order. -/
theorem preSend_foldl (opts : List ClientOption) (c : Client) :
    ((opts.map ClientOption.apply).foldl (fun c opt => opt c) c).preSend
      = c.preSend ++ (headerOptions opts).map headerSetter := by
  induction opts generalizing c with
  | nil => simp [headerOptions]
  | cons o rest ih =>
    simp only [List.map_cons, List.foldl_cons, ih]
    cases o
    all_goals
      simp [ClientOption.apply, WithBaseURL, WithHTTPClient, WithAPIKey, WithUserAgent,
        WithHeader, headerOptions, ClientOption.headerSet, headerAuthorization,
        headerUserAgent]
    all_goals rfl

/-- The `preSend` functions of a client built from options. -/
theorem preSend_NewClient (net : http.Request → Except GoError HTTPResponse)
    (opts : List ClientOption) :
    (NewClient net (opts.map ClientOption.apply)).preSend
      = (headerOptions opts).map headerSetter := by
  simp [NewClient, preSend_foldl]

/-- Header setters never fail, and change nothing but the headers. -/
theorem runPreSend_setters (hs : List (String × String)) (httpReq : http.Request) :
    runPreSend (hs.map headerSetter) httpReq
      = .ok { httpReq with
          Header := hs.foldl (fun h kv => http.Header.Set h kv.1 kv.2) httpReq.Header } := by
  induction hs generalizing httpReq with
  | nil => rfl
  | cons kv rest ih =>
    have h2 : (headerSetter kv httpReq).2 = none := rfl
    have h1 : (headerSetter kv httpReq).1
        = { httpReq with Header := httpReq.Header.Set kv.1 kv.2 } := rfl
    simp only [List.map_cons, runPreSend, h2, h1, ih, List.foldl_cons]

/-- After a run of `Header.Set` calls, a key holds the value of the last call
that names it, or what it held before. -/
theorem foldl_Set_apply (hs : List (String × String)) (h0 : http.Header) (key : String) :
    hs.foldl (fun h kv => http.Header.Set h kv.1 kv.2) h0 key
      = match lastHeaderValue key hs with
        | some v => some [v]
        | none => h0 key := by
  induction hs using List.reverseRecOn with
  | nil => rfl
  | append_singleton rest kv ih =>
    simp only [List.foldl_append, List.foldl_cons, List.foldl_nil, http.Header.Set]
    by_cases hk : key = textproto.CanonicalMIMEHeaderKey kv.1
    · simp [lastHeaderValue, List.filter_append, List.filter_cons, hk]
    · have hk2 : ¬ textproto.CanonicalMIMEHeaderKey kv.1 = key := fun e => hk e.symm
      simp only [hk, if_false, ih]
      simp [lastHeaderValue, List.filter_append, List.filter_cons, hk2]

/-- The request `send` builds for a client built from options: the method of
`GetHTTPMethod`, the query after `AddAPIQueryParams`, the body of `GetBody`,
and the default headers overridden by the header options in their order. -/
theorem buildRequest_ok (net : http.Request → Except GoError HTTPResponse)
    (opts : List ClientOption) (req : RequestInterface)
    (urlQuery : String → Except GoError Values) (httpReq : http.Request)
    (h : buildRequest (NewClient net (opts.map ClientOption.apply)) req urlQuery = .ok httpReq) :
    ∃ query body,
      urlQuery ((NewClient net (opts.map ClientOption.apply)).baseURL ++ "/" ++ req.GetPath)
          = .ok query
        ∧ req.GetBody = .ok body
        ∧ httpReq.Method = (if req.GetHTTPMethod = "" then "GET" else req.GetHTTPMethod)
        ∧ httpReq.Query = req.AddAPIQueryParams query
        ∧ httpReq.Body = body
        ∧ httpReq.Header
          = (headerOptions opts).foldl (fun h kv => http.Header.Set h kv.1 kv.2)
              (if body.isSome then
                ((http.Header.empty.Set headerAccept defaultAccept).Set headerUserAgent
                  defaultUserAgent).Set headerContentType req.GetContentType
              else (http.Header.empty.Set headerAccept defaultAccept).Set headerUserAgent
                defaultUserAgent) := by
  unfold buildRequest at h
  simp only [preSend_NewClient, runPreSend_setters] at h
  cases hq : urlQuery ((NewClient net (opts.map ClientOption.apply)).baseURL ++ "/"
      ++ req.GetPath) with
  | error e => simp [hq] at h
  | ok query =>
    cases hb : req.GetBody with
    | error e => simp [hq, hb] at h
    | ok body =>
      simp only [hq, hb, http.NewRequestWithContext] at h
      by_cases hm : http.validMethod (if req.GetHTTPMethod = "" then "GET"
          else req.GetHTTPMethod) = true
      · simp only [hm, if_true, Except.ok.injEq] at h
        subst h
        refine ⟨query, body, rfl, rfl, rfl, rfl, rfl, ?_⟩
        cases body <;> rfl
      · simp [hm] at h

end lever

/-! ## Theorems: method, query and headers of the request sent -/

namespace lever

open GoJSON model testdata

/-- C21, the code on every such request: the request types that declare
their HTTP method in a method `GetMethod` declare no `GetHTTPMethod`, so the
`GetHTTPMethod` of their method set is that of `BaseRequest` and returns GET,
not the declared PUT or POST; `send` builds a GET request for a stage
update. -/
theorem declared_method_not_sent :
    (∀ r : UpdateOpportunityStageRequest, r.GetMethod = "PUT" ∧ r.GetHTTPMethod = "GET")
      ∧ (∀ r : UpdateOpportunityArchivedStateRequest,
        r.GetMethod = "PUT" ∧ r.GetHTTPMethod = "GET")
      ∧ (∀ r : AddOpportunityLinksRequest, r.GetMethod = "POST" ∧ r.GetHTTPMethod = "GET")
      ∧ (∀ r : RemoveOpportunityLinksRequest, r.GetMethod = "POST" ∧ r.GetHTTPMethod = "GET")
      ∧ (∀ r : AddOpportunityTagsRequest, r.GetMethod = "POST" ∧ r.GetHTTPMethod = "GET")
      ∧ (∀ r : RemoveOpportunityTagsRequest, r.GetMethod = "POST" ∧ r.GetHTTPMethod = "GET")
      ∧ (∀ r : AddOpportunitySourcesRequest, r.GetMethod = "POST" ∧ r.GetHTTPMethod = "GET")
      ∧ (∀ r : RemoveOpportunitySourcesRequest,
        r.GetMethod = "POST" ∧ r.GetHTTPMethod = "GET")
      ∧ (∀ r : UpdateContactRequest, r.GetMethod = "PUT" ∧ r.GetHTTPMethod = "GET")
      ∧ (∀ (r : UpdateOpportunityStageRequest) (body : Except GoError (Option (List Char))),
        (r.asRequest body).GetHTTPMethod = "GET")
      ∧ (buildRequest (NewClient emptyObjectNet []) (stageUpdate.asRequest (.ok (some [])))
          anyURL).toOption.map (fun httpReq => (httpReq.Method, httpReq.URL))
        = some ("GET", "https://api.lever.co/v1/opportunities/o1/stage") :=
  ⟨fun _ => ⟨rfl, rfl⟩, fun _ => ⟨rfl, rfl⟩, fun _ => ⟨rfl, rfl⟩, fun _ => ⟨rfl, rfl⟩,
    fun _ => ⟨rfl, rfl⟩, fun _ => ⟨rfl, rfl⟩, fun _ => ⟨rfl, rfl⟩, fun _ => ⟨rfl, rfl⟩,
    fun _ => ⟨rfl, rfl⟩, fun _ _ => rfl, by decide⟩

/-- C22, the code on every such request: the remove requests declare their
query parameters in a method `RemoveAPIQueryParams` and no `AddAPIQueryParams`,
so the `AddAPIQueryParams` that `send` calls is that of `BaseRequest` and
leaves `perform_as` as it was, whatever `PerformAsID` is; the add requests
append `PerformAsID` to `perform_as`. -/
theorem remove_requests_drop_perform_as :
    (∀ (r : RemoveOpportunityLinksRequest) (query : Values),
        r.AddAPIQueryParams query "perform_as" = query "perform_as"
          ∧ (r.asRequest (.ok none)).AddAPIQueryParams query "perform_as" = query "perform_as")
      ∧ (∀ (r : RemoveOpportunityTagsRequest) (query : Values),
        r.AddAPIQueryParams query "perform_as" = query "perform_as"
          ∧ (r.asRequest (.ok none)).AddAPIQueryParams query "perform_as" = query "perform_as")
      ∧ (∀ (r : RemoveOpportunitySourcesRequest) (query : Values),
        r.AddAPIQueryParams query "perform_as" = query "perform_as"
          ∧ (r.asRequest (.ok none)).AddAPIQueryParams query "perform_as" = query "perform_as")
      ∧ (∀ (r : AddOpportunityLinksRequest) (query : Values),
        r.AddAPIQueryParams query "perform_as"
          = query "perform_as" ++ (if r.PerformAsID ≠ "" then [r.PerformAsID] else []))
      ∧ (∀ (r : AddOpportunityTagsRequest) (query : Values),
        r.AddAPIQueryParams query "perform_as"
          = query "perform_as" ++ (if r.PerformAsID ≠ "" then [r.PerformAsID] else []))
      ∧ (∀ (r : AddOpportunitySourcesRequest) (query : Values),
        r.AddAPIQueryParams query "perform_as"
          = query "perform_as" ++ (if r.PerformAsID ≠ "" then [r.PerformAsID] else []))
      ∧ (buildRequest (NewClient emptyObjectNet []) (linkRemoval.asRequest (.ok (some [])))
          anyURL).toOption.map (fun httpReq => httpReq.Query "perform_as") = some []
      ∧ (buildRequest (NewClient emptyObjectNet []) (linkAddition.asRequest (.ok (some [])))
          anyURL).toOption.map (fun httpReq => httpReq.Query "perform_as") = some ["u1"] := by
  have hbase : ∀ (br : BaseRequest) (query : Values),
      br.AddAPIQueryParams query "perform_as" = query "perform_as" := by
    intro br query
    simp [BaseRequest.AddAPIQueryParams, AddAll_apply, paramInclude, paramExpand]
  refine ⟨fun r q => ⟨hbase _ q, hbase _ q⟩, fun r q => ⟨hbase _ q, hbase _ q⟩,
    fun r q => ⟨hbase _ q, hbase _ q⟩, ?_, ?_, ?_, by decide, by decide⟩
  · intro r q
    unfold AddOpportunityLinksRequest.AddAPIQueryParams
    by_cases h : r.PerformAsID = "" <;> simp [h, Values.Add, paramPerformAs, hbase]
  · intro r q
    unfold AddOpportunityTagsRequest.AddAPIQueryParams
    by_cases h : r.PerformAsID = "" <;> simp [h, Values.Add, paramPerformAs, hbase]
  · intro r q
    unfold AddOpportunitySourcesRequest.AddAPIQueryParams
    by_cases h : r.PerformAsID = "" <;> simp [h, Values.Add, paramPerformAs, hbase]

/-- C23: for a client built with `WithAPIKey(k)`, after which no option names
the header `Authorization`, every request `send` builds carries the header
`Authorization` with the single value `Basic ` followed by the standard padded
base64 encoding of the bytes of `k` and a colon; decoding that encoding gives
these bytes back. -/
theorem api_key_authorization (k : String) (pre post : List ClientOption)
    (net : http.Request → Except GoError HTTPResponse) (req : RequestInterface)
    (urlQuery : String → Except GoError Values) (httpReq : http.Request)
    (hpost : ∀ o ∈ post, ∀ kv, o.headerSet = some kv →
      textproto.CanonicalMIMEHeaderKey kv.1 ≠ "Authorization")
    (h : buildRequest (NewClient net ((pre ++ .apiKey k :: post).map ClientOption.apply)) req
      urlQuery = .ok httpReq) :
    httpReq.Header "Authorization"
        = some ["Basic " ++ base64.EncodeToString (GoBytes.stringBytes k ++ [':'.toNat])]
      ∧ base64.decode (base64.EncodeToString (GoBytes.stringBytes k ++ [':'.toNat])).data
        = some (GoBytes.stringBytes k ++ [':'.toNat]) := by
  constructor
  · obtain ⟨query, body, _, _, _, _, _, hh⟩ := buildRequest_ok net _ req urlQuery httpReq h
    rw [hh, foldl_Set_apply]
    have hpostf : (headerOptions post).filter
        (fun kv => textproto.CanonicalMIMEHeaderKey kv.1 = "Authorization") = [] := by
      rw [List.filter_eq_nil_iff]
      intro kv hkv
      simp only [headerOptions, List.mem_filterMap] at hkv
      obtain ⟨o, ho, hset⟩ := hkv
      simpa using hpost o ho kv hset
    have hcanon : textproto.CanonicalMIMEHeaderKey "Authorization" = "Authorization" := by
      decide
    have hlast : lastHeaderValue "Authorization" (headerOptions (pre ++ .apiKey k :: post))
        = some ("Basic " ++ base64.EncodeToString (GoBytes.stringBytes (k ++ ":"))) := by
      simp [lastHeaderValue, headerOptions, List.filterMap_append, List.filter_append,
        ClientOption.headerSet, List.filter_cons, hcanon]
      simp only [headerOptions] at hpostf
      simp [hpostf]
    rw [hlast, GoBytes.stringBytes_append_colon]
    rfl
  · have hlt : ∀ b ∈ GoBytes.stringBytes k ++ [':'.toNat], b < 256 := by
      intro b hb
      rcases List.mem_append.mp hb with hb | hb
      · exact GoBytes.stringBytes_lt k b hb
      · simp only [List.mem_singleton] at hb
        subst hb
        decide
    exact base64.decode_encode _ hlt

set_option maxRecDepth 100000 in
/-- Witness of C23: the client of `TestClientOptions`, whose API key is
followed by a user-agent option. -/
theorem api_key_authorization_witness :
    (∃ httpReq, buildRequest (NewClient emptyObjectNet (testOptions.map ClientOption.apply))
        testRequest anyURL = .ok httpReq
        ∧ httpReq.Header "Authorization"
          = some ["Basic " ++ base64.EncodeToString (GoBytes.stringBytes testApiKey
            ++ [':'.toNat])])
      ∧ "Basic " ++ base64.EncodeToString (GoBytes.stringBytes testApiKey ++ [':'.toNat])
        = "Basic RVhBTVBMRV9BUElfS0VZOg==" :=
  ⟨⟨_, rfl,
      (api_key_authorization testApiKey
        [.httpClient emptyObjectNet, .baseURL "http://localhost/custom_path"]
        [.userAgent "TestClient"] emptyObjectNet testRequest anyURL _
        (by
          intro o ho kv hkv
          simp only [List.mem_singleton] at ho
          subst ho
          simp only [ClientOption.headerSet, Option.some.injEq] at hkv
          subst hkv
          decide)
        rfl).1⟩,
    by decide⟩

/-- C24, as the code behaves: for a client built from options, every request
`send` builds carries `Accept` and `User-Agent` with a single value, the value
of the last option that names the header (under the canonical form of header
keys) and else `application/json` and the default user agent; `Content-Type`
carries the value of the last option that names it, and with no such option
it is set, to the content type of the request, exactly when the request has a
body. -/
theorem send_headers (net : http.Request → Except GoError HTTPResponse)
    (opts : List ClientOption) (req : RequestInterface)
    (urlQuery : String → Except GoError Values) (httpReq : http.Request)
    (h : buildRequest (NewClient net (opts.map ClientOption.apply)) req urlQuery = .ok httpReq) :
    httpReq.Header "Accept"
        = some [(lastHeaderValue "Accept" (headerOptions opts)).getD "application/json"]
      ∧ httpReq.Header "User-Agent"
        = some [(lastHeaderValue "User-Agent" (headerOptions opts)).getD
            "lever-data-api-go/0.0.1"]
      ∧ httpReq.Header "Content-Type"
        = (match lastHeaderValue "Content-Type" (headerOptions opts) with
          | some v => some [v]
          | none => if httpReq.Body.isSome then some [req.GetContentType] else none)
      ∧ req.GetBody = .ok httpReq.Body := by
  obtain ⟨query, body, _, hb, _, _, hbody, hh⟩ := buildRequest_ok net _ req urlQuery httpReq h
  have c1 : textproto.CanonicalMIMEHeaderKey "Accept" = "Accept" := by decide
  have c2 : textproto.CanonicalMIMEHeaderKey "User-Agent" = "User-Agent" := by decide
  have c3 : textproto.CanonicalMIMEHeaderKey "Content-Type" = "Content-Type" := by decide
  refine ⟨?_, ?_, ?_, by rw [hbody]; exact hb⟩
  · rw [hh, foldl_Set_apply]
    cases lastHeaderValue "Accept" (headerOptions opts) with
    | some v => rfl
    | none =>
      cases body <;>
        simp +decide [http.Header.Set, headerAccept, headerUserAgent, headerContentType,
          defaultAccept, c1, c2, c3]
  · rw [hh, foldl_Set_apply]
    cases lastHeaderValue "User-Agent" (headerOptions opts) with
    | some v => rfl
    | none =>
      cases body <;>
        simp +decide [http.Header.Set, headerAccept, headerUserAgent, headerContentType,
          defaultUserAgent, c1, c2, c3]
  · rw [hh, foldl_Set_apply, hbody]
    cases lastHeaderValue "Content-Type" (headerOptions opts) with
    | some v => rfl
    | none =>
      cases body <;>
        simp +decide [http.Header.Set, http.Header.empty, headerAccept, headerUserAgent,
          headerContentType, c1, c2, c3]

set_option maxRecDepth 100000 in
/-- Witness of C24: the client of `TestClientOptions`, with a request
without a body and with a request with one. -/
theorem send_headers_witness :
    (∃ httpReq, buildRequest (NewClient emptyObjectNet (testOptions.map ClientOption.apply))
        testRequest anyURL = .ok httpReq
        ∧ httpReq.Header "Accept" = some ["application/json"]
        ∧ httpReq.Header "User-Agent" = some ["TestClient"]
        ∧ httpReq.Header "Content-Type" = none)
      ∧ (∃ httpReq, buildRequest (NewClient emptyObjectNet (testOptions.map ClientOption.apply))
        bodyRequest anyURL = .ok httpReq
        ∧ httpReq.Header "Accept" = some ["application/json"]
        ∧ httpReq.Header "User-Agent" = some ["TestClient"]
        ∧ httpReq.Header "Content-Type" = some ["application/json"]) :=
  ⟨⟨_, rfl, (send_headers emptyObjectNet testOptions testRequest anyURL _ rfl).1,
      (send_headers emptyObjectNet testOptions testRequest anyURL _ rfl).2.1,
      (send_headers emptyObjectNet testOptions testRequest anyURL _ rfl).2.2.1⟩,
    ⟨_, rfl, (send_headers emptyObjectNet testOptions bodyRequest anyURL _ rfl).1,
      (send_headers emptyObjectNet testOptions bodyRequest anyURL _ rfl).2.1,
      (send_headers emptyObjectNet testOptions bodyRequest anyURL _ rfl).2.2.1⟩⟩

set_option maxRecDepth 100000 in
/-- Counterexample to C24: with the options `WithHeader("accept", ...)`,
`WithHeader("content-type", "text/plain")` and `WithHeader("ACCEPT", "*/*")`,
the request built for a request without a body has no body and carries
`Content-Type: text/plain`. -/
theorem content_type_without_body :
    (buildRequest (NewClient emptyObjectNet (headerTestOptions.map ClientOption.apply))
        testRequest anyURL).toOption.map
          (fun r => (r.Body, r.Header "Content-Type", r.Header "Accept"))
      = some (none, some ["text/plain"], some ["*/*"]) := by
  decide

end lever

/-! ## Theorems: single opportunities, and the error text -/

namespace lever

open GoJSON model testdata

/-- When `exec` succeeds and leaves a nil opportunity, `GetOpportunity` ends
in a nil pointer dereference. -/
theorem GetOpportunity_nil (sent : Except GoError HTTPResponse)
    (respJSON : getOpportunityResponseJSON)
    (hexec : exec sent decodeGetOpportunityResponseJSON
      getOpportunityResponseJSON.SetHTTPResponse getOpportunityResponseJSON.zero
        = (respJSON, none))
    (hnil : respJSON.Opportunity = none) : GetOpportunity sent = .nilDereference := by
  simp [GetOpportunity, hexec, hnil, toModelAt]

/-- When `exec` succeeds and leaves a nil opportunity, `CreateOpportunity`
ends in a nil pointer dereference. -/
theorem CreateOpportunity_nil (sent : Except GoError HTTPResponse)
    (respJSON : createOpportunityResponseJSON)
    (hexec : exec sent decodeCreateOpportunityResponseJSON
      createOpportunityResponseJSON.SetHTTPResponse createOpportunityResponseJSON.zero
        = (respJSON, none))
    (hnil : respJSON.Opportunity = none) : CreateOpportunity sent = .nilDereference := by
  simp [CreateOpportunity, hexec, hnil, toModelAt]

set_option maxRecDepth 100000 in
/-- C28, the code at the failing inputs: for a 200 response whose body is an
object without `data`, or with `data` null, `exec` succeeds and leaves the
opportunity pointer nil, and `GetOpportunity` and `CreateOpportunity` call
`ToModel` through that pointer: they end in a nil pointer dereference instead
of returning a response or an error. With an opportunity in the body they
return. -/
theorem single_opportunity_nil_dereference :
    exec (.ok noData) decodeGetOpportunityResponseJSON
        getOpportunityResponseJSON.SetHTTPResponse getOpportunityResponseJSON.zero
        = (⟨⟨some noData⟩, none⟩, none)
      ∧ GetOpportunity (.ok noData) = .nilDereference
      ∧ GetOpportunity (.ok nullData) = .nilDereference
      ∧ exec (.ok nullData) decodeCreateOpportunityResponseJSON
        createOpportunityResponseJSON.SetHTTPResponse createOpportunityResponseJSON.zero
        = (⟨⟨some nullData⟩, true, none⟩, none)
      ∧ CreateOpportunity (.ok noData) = .nilDereference
      ∧ CreateOpportunity (.ok nullData) = .nilDereference
      ∧ GetOpportunity (.ok someData)
        = .returns (some ⟨⟨some someData⟩,
            some { model.Opportunity.zero with ID := "o1", StageID := "lead-new" }⟩, none) := by
  decide

/-- The value of a run of zeros followed by digits is the value of the
digits. -/
theorem digitsToNat_zeros (k : Nat) (ds : List Char) :
    digitsToNat (List.replicate k '0' ++ ds) = digitsToNat ds := by
  induction k with
  | zero => rfl
  | succ k ih =>
    simp only [digitsToNat, List.replicate_succ, List.cons_append, List.foldl_cons] at ih ⊢
    exact ih

/-- For a status code that is not negative, `%03d` gives its decimal numeral
padded with zeros in front to at least three digits. -/
theorem formatInt03_spec (n : Int) (h : 0 ≤ n) :
    (formatInt03 n).data
        = List.replicate (3 - (formatInt n).length) '0' ++ (formatInt n).data
      ∧ 3 ≤ (formatInt03 n).length
      ∧ (formatInt03 n).data.all isDigit = true
      ∧ (digitsToNat (formatInt03 n).data : Int) = n := by
  obtain ⟨k, rfl⟩ : ∃ k : Nat, n = (k : Int) := ⟨n.toNat, by omega⟩
  have hneg : ¬ ((k : Int) < 0) := by omega
  have hfmt : formatInt (k : Int) = Nat.repr k := by simp [formatInt, hneg]
  have hdata : (formatInt03 (k : Int)).data
      = List.replicate (3 - (formatInt (k : Int)).length) '0' ++ (formatInt (k : Int)).data := by
    simp [formatInt03, hneg, hfmt, String.data_append]
  have hrepr : (Nat.repr k).data = Nat.toDigitsCore 10 (k + 1) k [] := by
    simp [Nat.repr, Nat.toDigits, List.asString]
  obtain ⟨s1, _, s3, _, _⟩ := toDigitsCore_spec (k + 1) k (by omega)
  rw [← hrepr, ← hfmt] at s1 s3
  refine ⟨hdata, ?_, ?_, ?_⟩
  · have : (formatInt03 (k : Int)).length = (formatInt03 (k : Int)).data.length := rfl
    rw [this, hdata, List.length_append, List.length_replicate]
    have : (formatInt (k : Int)).length = (formatInt (k : Int)).data.length := rfl
    omega
  · rw [hdata, List.all_append, s1]
    simp [isDigit]
  · rw [hdata, digitsToNat_zeros, s3]

/-- Decoding an object into a `model.LeverError` leaves `HTTPResponse` alone. -/
theorem decodeMembers_leverError_response (ctx : ErrCtx) (members : List (String × JSON))
    (cur : LeverError) :
    (decodeMembers (leverErrorField ctx) cur members).1.HTTPResponse = cur.HTTPResponse := by
  induction members generalizing cur with
  | nil => rfl
  | cons m ms ih =>
    obtain ⟨k, v⟩ := m
    simp only [decodeMembers, ih]
    unfold leverErrorField
    split_ifs <;> rfl

/-- The stream decoder leaves the `HTTPResponse` of a `model.LeverError` alone. -/
theorem decodeStream_leverError_response (body : List Char) (cur : LeverError) :
    (decodeStream decodeLeverError body cur).1.HTTPResponse = cur.HTTPResponse := by
  simp only [decodeStream]
  cases streamValue body with
  | error err => rfl
  | ok j =>
    cases j with
    | obj members => exact decodeMembers_leverError_response _ members cur
    | null => rfl
    | bool b => rfl
    | num lit => rfl
    | str s => rfl
    | arr xs => rfl

/-- `Error()` on an error that holds a response. -/
theorem Error_of_response (e : LeverError) (httpResp : HTTPResponse)
    (h : e.HTTPResponse = some httpResp) :
    e.Error = .returns ("LeverError: " ++ formatInt03 httpResp.StatusCode ++ " " ++ e.Code
      ++ ": " ++ e.Message) := by
  simp [LeverError.Error, h]

/-- C29: a `*model.LeverError` that `exec` or `DownloadResume` returns for a
response has that response in `HTTPResponse`, so that `Error()` returns, and
what it returns is `LeverError: ` followed by the status code printed with
`%03d`, a blank, `Code`, a colon with a blank, and `Message`; for a status
code that is not negative `%03d` is the decimal numeral padded with zeros to
at least three digits. An error `send` returned is passed on as it is. -/
theorem lever_error_text :
    (∀ (ρ : Type) (sent : Except GoError HTTPResponse) (dec : Decoder ρ)
        (set : ρ → HTTPResponse → ρ) (resp : ρ) (e : LeverError),
        (∀ e0, sent ≠ .error (.leverError e0)) →
        (exec sent dec set resp).2 = some (.leverError e) →
        ∃ httpResp, sent = .ok httpResp ∧ e.HTTPResponse = some httpResp
          ∧ e.Error = .returns ("LeverError: " ++ formatInt03 httpResp.StatusCode ++ " "
              ++ e.Code ++ ": " ++ e.Message))
      ∧ (∀ (sent : Except GoError HTTPResponse) (e : LeverError),
        (∀ e0, sent ≠ .error (.leverError e0)) →
        (DownloadResume sent).2 = some (.leverError e) →
        ∃ httpResp, sent = .ok httpResp ∧ e.HTTPResponse = some httpResp
          ∧ e.Error = .returns ("LeverError: " ++ formatInt03 httpResp.StatusCode ++ " "
              ++ e.Code ++ ": " ++ e.Message))
      ∧ (∀ n : Int, 0 ≤ n →
        (formatInt03 n).data
            = List.replicate (3 - (formatInt n).length) '0' ++ (formatInt n).data
          ∧ 3 ≤ (formatInt03 n).length
          ∧ (formatInt03 n).data.all isDigit = true
          ∧ (digitsToNat (formatInt03 n).data : Int) = n) := by
  refine ⟨?_, ?_, formatInt03_spec⟩
  · intro ρ sent dec set resp e hsent h
    cases sent with
    | error err =>
      simp only [exec, Option.some.injEq] at h
      exact absurd (by rw [h]) (hsent e)
    | ok httpResp =>
      refine ⟨httpResp, rfl, ?_⟩
      by_cases hstatus : 200 ≤ httpResp.StatusCode ∧ httpResp.StatusCode < 300
      · have := exec_success_error httpResp dec set resp _ hstatus h
        simp [GoError.isLeverError] at this
      · simp only [exec, hstatus, if_false] at h
        cases hd : (decodeStream decodeLeverError httpResp.Body LeverError.zero).2 with
        | some err =>
          simp only [hd, Option.some.injEq] at h
          have := ofStream_not_leverError err
          rw [h] at this
          simp [GoError.isLeverError] at this
        | none =>
          simp only [hd, Option.some.injEq, GoError.leverError.injEq] at h
          subst h
          exact ⟨rfl, Error_of_response _ _ rfl⟩
  · intro sent e hsent h
    cases sent with
    | error err =>
      simp only [DownloadResume, Option.some.injEq] at h
      exact absurd (by rw [h]) (hsent e)
    | ok httpResp =>
      refine ⟨httpResp, rfl, ?_⟩
      simp only [DownloadResume] at h
      by_cases hstatus : httpResp.StatusCode ≥ 300
      · simp only [hstatus, if_true] at h
        have hkeep := decodeStream_leverError_response httpResp.Body
          { LeverError.zero with HTTPResponse := some httpResp }
        cases hd : (decodeStream decodeLeverError httpResp.Body
            { LeverError.zero with HTTPResponse := some httpResp }).2 with
        | some err =>
          simp only [hd, Option.some.injEq, GoError.leverError.injEq] at h
          subst h
          exact ⟨hkeep, Error_of_response _ _ hkeep⟩
        | none =>
          simp only [hd, Option.some.injEq, GoError.leverError.injEq] at h
          subst h
          exact ⟨hkeep, Error_of_response _ _ hkeep⟩
      · simp [hstatus] at h

set_option maxRecDepth 100000 in
/-- Witness of C29: the 404 response for a stage that does not exist, through
`exec`, and a 502 response that is not JSON, through `DownloadResume`. -/
theorem lever_error_text_witness :
    (∃ httpResp, (Except.ok notFound : Except GoError HTTPResponse) = .ok httpResp
        ∧ (⟨some notFound, "ResourceNotFound", "Stage was not found"⟩ : LeverError).HTTPResponse
          = some httpResp
        ∧ (⟨some notFound, "ResourceNotFound", "Stage was not found"⟩ : LeverError).Error
          = .returns ("LeverError: " ++ formatInt03 httpResp.StatusCode ++ " "
              ++ "ResourceNotFound" ++ ": " ++ "Stage was not found"))
      ∧ (⟨some notFound, "ResourceNotFound", "Stage was not found"⟩ : LeverError).Error
        = .returns "LeverError: 404 ResourceNotFound: Stage was not found"
      ∧ (∃ httpResp, (Except.ok badGateway : Except GoError HTTPResponse) = .ok httpResp
        ∧ (⟨some badGateway, "502 Bad Gateway",
            "Unexpected HTTP response status code: 502"⟩ : LeverError).HTTPResponse
          = some httpResp
        ∧ (⟨some badGateway, "502 Bad Gateway",
            "Unexpected HTTP response status code: 502"⟩ : LeverError).Error
          = .returns ("LeverError: " ++ formatInt03 httpResp.StatusCode ++ " "
              ++ "502 Bad Gateway" ++ ": " ++ "Unexpected HTTP response status code: 502"))
      ∧ formatInt03 7 = "007" :=
  ⟨lever_error_text.1 GetStageResponse (.ok notFound) decodeGetStageResponse
      GetStageResponse.SetHTTPResponse GetStageResponse.zero
      ⟨some notFound, "ResourceNotFound", "Stage was not found"⟩
      (fun e0 h => by cases h) (by decide),
    by decide,
    lever_error_text.2.1 (.ok badGateway)
      ⟨some badGateway, "502 Bad Gateway", "Unexpected HTTP response status code: 502"⟩
      (fun e0 h => by cases h) (by decide),
    by decide⟩

end lever

namespace lever

open testdata

set_option maxRecDepth 100000 in
/-- Witness of C30: an identifier with a slash, a question mark, a hash, a
blank, a percent sign and a letter outside ASCII. -/
theorem get_path_single_segment_witness :
    GetOpportunityRequest.GetPath ⟨⟨none, none⟩, hostileID⟩
        = "opportunities/a%2Fb%3Fc%23d%20e%25%C3%A9"
      ∧ url.percentUnescape (url.PathEscape hostileID).data
        = some (GoBytes.stringBytes hostileID) :=
  ⟨by decide, (get_path_single_segment ⟨none, none⟩ hostileID).2.2⟩

end lever
